import Mathlib

/-!
# stvgd-chaincode: batch validation and batch registry

A shallow embedding of `pkg/app/utils.go` (`validateScore`, `validateActivityType`,
`validateBatchType`, `validateBatch`, the rich query helpers) and of `batch.go` (`BatchExists`, `ReadBatch`,
`GetAvailableBatches`, `GetBatchHistory`, `TraceBatchByInternalID`, `DeleteBatch`,
`DeleteAllBatches`), together with the parts of the Go runtime and of the chaincode stub that
these functions observe:

* Go strings are byte sequences, and a slice expression out of range is a runtime panic;
* `float32` is IEEE-754 binary32 with NaN, the infinities and round-to-nearest-even addition;
* `error` values are the values `fmt.Errorf` builds (message text, wrapped error);
* the stub is a key/value world state with `GetState`, `PutState` and `DelState`, each of
  which may fail, the iterators of `GetHistoryForKey` and `GetQueryResult`, and a log of the
  calls issued;
* `json.Unmarshal` into a `Batch` is a parameter `unmarshal` of the functions that call it.
-/

namespace Stvgd

/-! ## Go strings -/

/-- One byte of a Go string. -/
abbrev Byte := Fin 256

/-- A Go `string`: an immutable sequence of bytes (`len` is `List.length`). -/
abbrev GoString := List Byte

/-- UTF-8 encoding of one code point, as the Go compiler encodes the characters of a string
literal. -/
def utf8Char (c : Char) : List Byte :=
  let n := c.toNat
  if n < 0x80 then [Fin.ofNat n]
  else if n < 0x800 then [Fin.ofNat (0xC0 + n / 64), Fin.ofNat (0x80 + n % 64)]
  else if n < 0x10000 then
    [Fin.ofNat (0xE0 + n / 4096), Fin.ofNat (0x80 + n / 64 % 64), Fin.ofNat (0x80 + n % 64)]
  else
    [Fin.ofNat (0xF0 + n / 262144), Fin.ofNat (0x80 + n / 4096 % 64),
     Fin.ofNat (0x80 + n / 64 % 64), Fin.ofNat (0x80 + n % 64)]

/-- The Go string written as the literal `s`. -/
def str (s : String) : GoString := (s.toList.map utf8Char).flatten

/-- The Go slice expression `s[lo:hi]` on a string: `none` is the runtime panic
"slice bounds out of range", raised unless `lo ≤ hi ≤ len(s)`. -/
def slice (s : GoString) (lo hi : Nat) : Option GoString :=
  if lo ≤ hi ∧ hi ≤ s.length then some ((s.take hi).drop lo) else none

/-- Outcome of running a Go function: it returns a value, or the goroutine panics. -/
inductive Go (α : Type) where
  | ret (v : α)
  | panic
deriving DecidableEq, Repr

/-! ## Go errors -/

/-- An `error` value built by `fmt.Errorf`: `errorString` when the format has no `%w` verb,
`wrapError` (the formatted text and the wrapped error) when it has one. Two errors are compared
by what a caller can observe of them (`Error()` and `errors.Unwrap`), not by address. -/
inductive GoError where
  | errorString (s : GoString)
  | wrapError (msg : GoString) (err : GoError)
deriving DecidableEq, Repr

/-- The method `Error()`. -/
def GoError.Error : GoError → GoString
  | .errorString s => s
  | .wrapError msg _ => msg

/-- The call `fmt.Errorf(text)` for a format without `%w` whose formatted text is `text`. -/
def errorf (text : GoString) : GoError := .errorString text

/-- The call `fmt.Errorf(pre + "%w", err)`: the text is `pre` followed by `err.Error()`,
and the result wraps `err`. -/
def errorfW (pre : GoString) (err : GoError) : GoError :=
  .wrapError (pre ++ err.Error) err

/-! ## float32 -/

/-- A `float32` value. `fin n` is the finite value `n · 2⁻¹⁴⁹` (every finite binary32 number
is an integer multiple of `2⁻¹⁴⁹`); `inf neg` is `+Inf` or `-Inf`. The two zeros are one value
`fin 0`: no operation used by the code below tells them apart (`%f` prints a sign, but the
code only tests the printed text for emptiness). -/
inductive F32 where
  | nan
  | inf (neg : Bool)
  | fin (n : Int)
deriving DecidableEq, Repr

/-- Number of times `m` has to be halved to fall below `2²⁴` (`fuel` bounds the search;
`fuel = m` always suffices). -/
def excessBits : Nat → Nat → Nat
  | 0, _ => 0
  | fuel + 1, m => if m < 2 ^ 24 then 0 else excessBits fuel (m / 2) + 1

/-- Round the non-negative rational `num / den` to the nearest number with at most 24
significant bits (and no fractional part), ties to the even significand. A value below `2²⁴`
is rounded to an integer, which covers the subnormal numbers. -/
def roundQ (num den : Nat) : Nat :=
  let k := excessBits (num / den) (num / den)
  let d := den * 2 ^ k
  let q := num / d
  let r := num % d
  (if d < 2 * r ∨ (d = 2 * r ∧ q % 2 = 1) then q + 1 else q) * 2 ^ k

/-- The largest finite binary32 magnitude, `(2²⁴ - 1) · 2¹⁰⁴`, in units of `2⁻¹⁴⁹`. -/
def maxFinite : Nat := (2 ^ 24 - 1) * 2 ^ 253

/-- The binary32 value nearest to `num / den` units of `2⁻¹⁴⁹` (round to nearest, ties to
even, overflow to infinity). -/
def F32.round (num : Int) (den : Nat) : F32 :=
  let m := roundQ num.natAbs den
  if maxFinite < m then .inf (decide (num < 0))
  else .fin (if num < 0 then -(m : Int) else (m : Int))

/-- Conversion of an integer constant to `float32`. -/
def F32.ofInt (z : Int) : F32 := F32.round (z * 2 ^ 149) 1

/-- Conversion of the decimal constant `mant / 10 ^ scale` to `float32`. -/
def F32.ofDecimal (mant : Int) (scale : Nat) : F32 := F32.round (mant * 2 ^ 149) (10 ^ scale)

/-- Whether a value of the model is a `float32` value: a finite one is its own rounding and
does not exceed the largest finite magnitude. The operations below return such values. -/
def F32.isFloat32 : F32 → Bool
  | .fin n => decide (roundQ n.natAbs 1 = n.natAbs ∧ n.natAbs ≤ maxFinite)
  | _ => true

/-- The operator `+` on `float32`. -/
def F32.add : F32 → F32 → F32
  | .nan, _ => .nan
  | _, .nan => .nan
  | .inf s, .inf t => if s = t then .inf s else .nan
  | .inf s, .fin _ => .inf s
  | .fin _, .inf t => .inf t
  | .fin a, .fin b => F32.round (a + b) 1

/-- The operator `<` on `float32`: false whenever an operand is NaN. -/
def F32.lt : F32 → F32 → Bool
  | .fin a, .fin b => decide (a < b)
  | .inf true, .fin _ => true
  | .inf true, .inf false => true
  | .fin _, .inf false => true
  | _, _ => false

/-- The operator `>` on `float32`. -/
def F32.gt (a b : F32) : Bool := F32.lt b a

/-- The operator `<=` on `float32`: false whenever an operand is NaN. -/
def F32.le : F32 → F32 → Bool
  | .nan, _ => false
  | _, .nan => false
  | a, b => F32.lt a b || decide (a = b)

/-- The operator `!=` on `float32`: true whenever an operand is NaN. -/
def F32.ne : F32 → F32 → Bool
  | .nan, _ => true
  | _, .nan => true
  | a, b => decide (a ≠ b)

/-- Round `num / den` to the nearest natural number, ties to even. -/
def roundHalfEven (num den : Nat) : Nat :=
  let q := num / den
  let r := num % den
  if den < 2 * r ∨ (den = 2 * r ∧ q % 2 = 1) then q + 1 else q

/-- The decimal digits of a natural number, as text. -/
def decimal (n : Nat) : GoString := str (toString n)

/-- The text `fmt.Sprintf("%f", x)` for a `float32`: six digits after the point. -/
def sprintfF (x : F32) : GoString :=
  match x with
  | .nan => str "NaN"
  | .inf false => str "+Inf"
  | .inf true => str "-Inf"
  | .fin n =>
    let s := roundHalfEven (n.natAbs * 10 ^ 6) (2 ^ 149)
    (if n < 0 then str "-" else []) ++ decimal (s / 10 ^ 6) ++ str "." ++
      (decimal (10 ^ 6 + s % 10 ^ 6)).drop 1

/-! ## Values exchanged with the store -/

/-- Outcome of a Go call that returns `(value, error)` with exactly one of the two set. -/
inductive Result (α : Type) where
  | ok (v : α)
  | fail (err : GoError)
deriving DecidableEq, Repr

/-- The record `Batch` of `batch.go`. A map is the list of its entries, `nil` is the empty
list, and an element of `Traceability` (a Go `interface{}`) is kept as its JSON text. -/
structure Batch where
  DocType : GoString
  ID : GoString
  BatchType : GoString
  ProductionUnitID : GoString
  BatchInternalID : GoString
  SupplierID : GoString
  IsInTransit : Bool
  Quantity : F32
  Unit : GoString
  ECS : F32
  SES : F32
  BatchComposition : List (GoString × F32)
  Traceability : List GoString
deriving DecidableEq, Repr

/-- The zero value of `Batch`. -/
def Batch.zero : Batch :=
  { DocType := [], ID := [], BatchType := [], ProductionUnitID := [], BatchInternalID := [],
    SupplierID := [], IsInTransit := false, Quantity := .fin 0, Unit := [], ECS := .fin 0,
    SES := .fin 0, BatchComposition := [], Traceability := [] }

/-- A `timestamppb.Timestamp`: seconds since the Unix epoch (`int64`) and nanoseconds
(`int32`). -/
structure Timestamp where
  seconds : Int
  nanos : Int
deriving DecidableEq, Repr

/-- A `time.Time` in UTC: the second since the Unix epoch and the nanosecond within it. -/
structure Time where
  sec : Int
  nsec : Int
deriving DecidableEq, Repr

/-- Wrap-around of `int64` arithmetic. -/
def wrap64 (z : Int) : Int := (z + 2 ^ 63) % 2 ^ 64 - 2 ^ 63

/-- The function `time.Unix(sec, nsec)`: nanoseconds outside `[0, 999999999]` are carried
into the seconds. -/
def timeUnix (sec nsec : Int) : Time :=
  if nsec < 0 ∨ 10 ^ 9 ≤ nsec then
    let n := Int.tdiv nsec (10 ^ 9)
    let sec1 := wrap64 (sec + n)
    let nsec1 := nsec - n * 10 ^ 9
    if nsec1 < 0 then { sec := wrap64 (sec1 - 1), nsec := nsec1 + 10 ^ 9 }
    else { sec := sec1, nsec := nsec1 }
  else { sec := sec, nsec := nsec }

/-- The method `AsTime` of a `*timestamppb.Timestamp`; the getters read a nil pointer as
zero. -/
def Timestamp.AsTime (x : Option Timestamp) : Time :=
  match x with
  | none => timeUnix 0 0
  | some ts => timeUnix ts.seconds ts.nanos

/-- The function `timestamppb.New`. -/
def Timestamp.New (t : Time) : Option Timestamp := some { seconds := t.sec, nanos := t.nsec }

/-- Whether `CheckValid` returns nil: the pointer is not nil, the seconds lie between
0001-01-01T00:00:00Z and 9999-12-31T23:59:59Z, and the nanoseconds in `[0, 999999999]`. -/
def Timestamp.CheckValid (x : Option Timestamp) : Bool :=
  match x with
  | none => false
  | some ts =>
    decide (-62135596800 ≤ ts.seconds ∧ ts.seconds ≤ 253402300799 ∧
      0 ≤ ts.nanos ∧ ts.nanos < 10 ^ 9)

/-- A `queryresult.KeyModification`, one entry of the history of a key. -/
structure KeyModification where
  TxId : GoString
  Value : List Byte
  Timestamp : Option Timestamp
  IsDelete : Bool
deriving DecidableEq, Repr

/-- A `queryresult.KV`, one result of a rich query. -/
structure KV where
  Key : GoString
  Value : List Byte
deriving DecidableEq, Repr

/-- The structure `HistoryQueryResult` of `utils.go`. -/
structure HistoryQueryResult where
  Record : Batch
  TxId : GoString
  Timestamp : Time
  IsDelete : Bool
deriving DecidableEq, Repr

/-! ## The chaincode stub -/

/-- A call on the chaincode stub. -/
inductive StubCall where
  | GetState (key : GoString)
  | PutState (key : GoString) (value : List Byte)
  | DelState (key : GoString)
  | GetHistoryForKey (key : GoString)
  | GetQueryResult (query : GoString)
  | Next
  | Close
deriving DecidableEq, Repr

/-- The stub behind `ctx.GetStub()`, the store the chaincode runs against (an interface of
the Fabric shim; the repository's test replaces it by `MockStub`): the world state
(`get`/`put`/`delete` by key), the failures the store reports (`fault history call` is the
error with which `call` fails after the calls of `history`, if it fails), and the log of the
calls issued so far, oldest first. `historyOf key` is what the iterator of
`GetHistoryForKey(key)` delivers, one outcome per call of `Next`, oldest entry first, and
`queryOf query` what the iterator of `GetQueryResult(query)` delivers; the calls `Next` and
`Close` on an iterator are logged with the calls on the stub. -/
structure Stub where
  world : List (GoString × List Byte)
  fault : List StubCall → StubCall → Option GoError
  calls : List StubCall
  historyOf : GoString → List (Result KeyModification) := fun _ => []
  queryOf : GoString → List (Result KV) := fun _ => []

/-- The call `stub.GetState(key)`: `(nil, err)` when the read fails, else the value at `key`
(`nil` when there is none) and a nil error. The world state is not changed. -/
def Stub.GetState (stub : Stub) (key : GoString) : (Option (List Byte) × Option GoError) × Stub :=
  let stub1 : Stub := { stub with calls := stub.calls ++ [StubCall.GetState key] }
  match stub.fault stub.calls (StubCall.GetState key) with
  | some err => ((none, some err), stub1)
  | none => ((stub.world.lookup key, none), stub1)

/-- The call `stub.PutState(key, value)`. -/
def Stub.PutState (stub : Stub) (key : GoString) (value : List Byte) : Option GoError × Stub :=
  let stub1 : Stub := { stub with calls := stub.calls ++ [StubCall.PutState key value] }
  match stub.fault stub.calls (StubCall.PutState key value) with
  | some err => (some err, stub1)
  | none => (none, { stub1 with world := (key, value) :: stub.world.filter (fun kv => kv.1 ≠ key) })

/-- The call `stub.DelState(key)`. -/
def Stub.DelState (stub : Stub) (key : GoString) : Option GoError × Stub :=
  let stub1 : Stub := { stub with calls := stub.calls ++ [StubCall.DelState key] }
  match stub.fault stub.calls (StubCall.DelState key) with
  | some err => (some err, stub1)
  | none => (none, { stub1 with world := stub.world.filter (fun kv => kv.1 ≠ key) })

/-- The call `stub.GetHistoryForKey(key)`: the error when the store fails to open the
iteration, else the iterator, given by the outcomes its calls of `Next` will deliver. -/
def Stub.GetHistoryForKey (stub : Stub) (key : GoString) :
    Result (List (Result KeyModification)) × Stub :=
  let stub1 : Stub := { stub with calls := stub.calls ++ [StubCall.GetHistoryForKey key] }
  match stub.fault stub.calls (StubCall.GetHistoryForKey key) with
  | some err => (.fail err, stub1)
  | none => (.ok (stub.historyOf key), stub1)

/-- The call `stub.GetQueryResult(query)`: the error when the store fails to open the
iteration, else the iterator, given by the outcomes its calls of `Next` will deliver. -/
def Stub.GetQueryResult (stub : Stub) (query : GoString) :
    Result (List (Result KV)) × Stub :=
  let stub1 : Stub := { stub with calls := stub.calls ++ [StubCall.GetQueryResult query] }
  match stub.fault stub.calls (StubCall.GetQueryResult query) with
  | some err => (.fail err, stub1)
  | none => (.ok (stub.queryOf query), stub1)

/-- One call of `Next` on an iterator, as the log records it. -/
def Stub.Next (stub : Stub) : Stub := { stub with calls := stub.calls ++ [StubCall.Next] }

/-- The call `Close` on an iterator, as the log records it (its error is not looked at by
the code below). -/
def Stub.Close (stub : Stub) : Stub := { stub with calls := stub.calls ++ [StubCall.Close] }

/-! ## `pkg/app/utils.go` -/

/-- Score validation (`validateScore`). -/
def validateScore (score : F32) : Bool × Option GoError :=
  if score.lt (F32.ofInt (-10)) || score.gt (F32.ofInt 10) then
    (false, some (errorf (str "invalid score")))
  else
    (true, none)

/-- Validation of the prefix of an activity id (`validateActivityType`). The three slice
expressions fault when the id is too short. An inner `switch` has no `default`, so when
none of its cases matches `activityPrefix` keeps its zero value `""` and control reaches the
final `return activityPrefix, nil`. -/
def validateActivityType (activityID : GoString) : Go (GoString × Option GoError) :=
  match slice activityID 0 1 with
  | none => .panic
  | some tag =>
    if tag = str "r" then
      match slice activityID 1 3 with
      | none => .panic
      | some rest =>
        let activityPrefix :=
          if rest = str "g-" then str "rg" else if rest = str "c-" then str "rc" else str ""
        .ret (activityPrefix, none)
    else if tag = str "p" then
      match slice activityID 1 2 with
      | none => .panic
      | some rest =>
        let activityPrefix := if rest = str "-" then str "p" else str ""
        .ret (activityPrefix, none)
    else if tag = str "t" then
      match slice activityID 1 2 with
      | none => .panic
      | some rest =>
        let activityPrefix := if rest = str "-" then str "t" else str ""
        .ret (activityPrefix, none)
    else .ret (str "", some (errorf (str "incorrect activity prefix")))

/-- The constants of `domain.BatchType` that `validateBatchType` returns; `zero` is the
value `""` of its `default` branch. -/
inductive BatchType where
  | zero | ConventionalCotton | OrganicCotton | RecycledCotton | Pes | PesRPet | Polypropylene
  | Polyamide6 | Polyamide66 | Pan | Viscose | Flax | Jute | Kenaf | Bamboo | Silk | Wool
  | Elastane | Yarn | RawFabric | DyedFabric | RawKnittedFabric | DyedKnittedFabric | Garment
deriving DecidableEq, Repr

/-- Batch type validation (`validateBatchType`). -/
def validateBatchType (batchTypeID : GoString) : BatchType × Option GoError :=
  if batchTypeID = str "CONVENTIONAL_COTTON" then (.ConventionalCotton, none)
  else if batchTypeID = str "ORGANIC_COTTON" then (.OrganicCotton, none)
  else if batchTypeID = str "RECYCLED_COTTON" then (.RecycledCotton, none)
  else if batchTypeID = str "PES" then (.Pes, none)
  else if batchTypeID = str "PES_RPET" then (.PesRPet, none)
  else if batchTypeID = str "POLYPROPYLENE" then (.Polypropylene, none)
  else if batchTypeID = str "POLYAMIDE_6" then (.Polyamide6, none)
  else if batchTypeID = str "POLYAMIDE_66" then (.Polyamide66, none)
  else if batchTypeID = str "PAN" then (.Pan, none)
  else if batchTypeID = str "VISCOSE" then (.Viscose, none)
  else if batchTypeID = str "FLAX" then (.Flax, none)
  else if batchTypeID = str "JUTE" then (.Jute, none)
  else if batchTypeID = str "KENAF" then (.Kenaf, none)
  else if batchTypeID = str "BAMBOO" then (.Bamboo, none)
  else if batchTypeID = str "SILK" then (.Silk, none)
  else if batchTypeID = str "WOOL" then (.Wool, none)
  else if batchTypeID = str "ELASTANE" then (.Elastane, none)
  else if batchTypeID = str "YARN" then (.Yarn, none)
  else if batchTypeID = str "RAW_FABRIC" then (.RawFabric, none)
  else if batchTypeID = str "DYED_FABRIC" then (.DyedFabric, none)
  else if batchTypeID = str "RAW_KNITTED_FABRIC" then (.RawKnittedFabric, none)
  else if batchTypeID = str "DYED_KNITTED_FABRIC" then (.DyedKnittedFabric, none)
  else if batchTypeID = str "GARMENT" then (.Garment, none)
  else (.zero, some (errorf (str "batch type not found")))

/-- The `switch batchType` of `validateBatch` (its cases have empty bodies): `true` when a
case matches, `false` when control reaches `default`. -/
def batchTypeSwitch (batchType : GoString) : Bool :=
  batchType == str "CONVENTIONAL_COTTON" || batchType == str "ORGANIC_COTTON" ||
  batchType == str "RECYCLED_COTTON" || batchType == str "PES" ||
  batchType == str "PES_RPET" || batchType == str "POLYPROPYLENE" ||
  batchType == str "POLYAMIDE_6" || batchType == str "POLYAMIDE_66" ||
  batchType == str "PAN" || batchType == str "VISCOSE" || batchType == str "FLAX" ||
  batchType == str "JUTE" || batchType == str "KENAF" || batchType == str "BAMBOO" ||
  batchType == str "SILK" || batchType == str "WOOL" || batchType == str "ELASTANE" ||
  batchType == str "YARN" || batchType == str "RAW_FABRIC" ||
  batchType == str "DYED_FABRIC" || batchType == str "RAW_KNITTED_FABRIC" ||
  batchType == str "DYED_KNITTED_FABRIC" || batchType == str "GARMENT"

/-- The loop `for _, percentage := range batchComposition` of `validateBatch`, started with
`percentageSum = acc` on the entries still to visit: `none` when the loop returns early
because `percentageSum > 100`, else the final `percentageSum`. -/
def sumLoop : F32 → List (GoString × F32) → Option F32
  | acc, [] => some acc
  | acc, (_, percentage) :: rest =>
    let percentageSum := acc.add percentage
    if percentageSum.gt (F32.ofInt 100) then none else sumLoop percentageSum rest

/-- The error of a bad batch id. -/
def errBatchID : GoError := errorf (str "incorrect batch prefix. (should be [b-...])")

/-- The error of both composition failures. -/
def errComposition : GoError :=
  errorf (str "batch composition percentage sum should be equal to 100")

/-- The call `fmt.Errorf(pre + "%w", err)` for an `err` that may be nil: a nil operand is
printed as `%!w(<nil>)` and nothing is wrapped. -/
def errorfWNil (pre : GoString) (err : Option GoError) : GoError :=
  match err with
  | some e => errorfW pre e
  | none => errorf (pre ++ str "%!w(<nil>)")

/-- Validation of a batch (`validateBatch`). `batchComposition` lists the entries of the Go
map in the order in which this call's `range` loop visits them (Go leaves that order
unspecified). The result is what the call returns, or a panic, and the stub after it. -/
def validateBatch (stub : Stub)
    (batchID productionUnitID batchInternalID supplierID batchType : GoString)
    (batchComposition : List (GoString × F32)) (quantity finalScore : F32)
    (isInTransit : Bool) : Go (Bool × Option GoError) × Stub :=
  let _ := productionUnitID
  if batchID = str "" then (.ret (false, some errBatchID), stub)
  else
    match slice batchID 0 2 with
    | none => (.panic, stub)
    | some head =>
      if head ≠ str "b-" then (.ret (false, some errBatchID), stub)
      else
        match stub.GetState batchID with
        | ((_, some err), stub1) =>
          (.ret (false, some (errorfW (str "could not read batch from world state: ") err)),
            stub1)
        | ((some _, none), stub1) =>
          (.ret (false, some (errorf (str "batch [" ++ batchID ++ str "] already exists"))),
            stub1)
        | ((none, none), stub1) =>
          if batchInternalID = str "" then
            (.ret (false, some (errorf (str "batch internal ID must not be empty"))), stub1)
          else if supplierID = str "" then
            (.ret (false, some (errorf (str "supplier ID must not be empty"))), stub1)
          else if isInTransit then
            (.ret (false, some (errorf (str "batch must not be in transit"))), stub1)
          else if !batchTypeSwitch batchType then
            (.ret (false, some (errorf (str "batch type is not valid"))), stub1)
          else
            match sumLoop (.fin 0) batchComposition with
            | none => (.ret (false, some errComposition), stub1)
            | some percentageSum =>
              if percentageSum.ne (F32.ofInt 100) then
                (.ret (false, some errComposition), stub1)
              else if quantity.lt (F32.ofInt 0) || decide (sprintfF quantity = str "") then
                (.ret (false, some (errorf (str "batch quantity should be 0+"))), stub1)
              else
                match validateScore finalScore with
                | (false, err) =>
                  (.ret (false, some (errorfWNil (str "invalid scores: ") err)), stub1)
                | (true, _) => (.ret (true, none), stub1)

/-! ## `batch.go` -/

/-- The constants of the enum `BatchType` declared in `batch.go` next to the `Batch`
record. -/
def batchGoBatchTypes : List GoString :=
  [str "FIBER", str "YARN", str "MESH", str "FABRIC", str "DYED_MESH", str "FINISHED_MESH",
   str "DYED_FABRIC", str "FINISHED_FABRIC", str "CUT", str "FINISHED_PIECE", str "OTHER"]

/-- The transaction `BatchExists`. -/
def BatchExists (stub : Stub) (batchID : GoString) : (Bool × Option GoError) × Stub :=
  match stub.GetState batchID with
  | ((_, some err), stub1) => ((false, some err), stub1)
  | ((data, none), stub1) => ((data.isSome, none), stub1)

/-! ## `pkg/app/utils.go`: rich queries -/

/-- The loop of `constructQueryResponseFromIteratorBatch` on the outcomes the iterator still
has to deliver, with the batches collected so far. `unmarshal` is the decoder
`json.Unmarshal(value, &batch)` into a fresh `Batch`. -/
def queryLoop (unmarshal : List Byte → Result Batch) :
    List (Result KV) → List Batch → Stub → (List Batch × Option GoError) × Stub
  | [], batches, stub => ((batches, none), stub)
  | next :: rest, batches, stub =>
    let stub1 := stub.Next
    match next with
    | .fail err => (([], some err), stub1)
    | .ok queryResult =>
      match unmarshal queryResult.Value with
      | .fail err => (([], some err), stub1)
      | .ok batch => queryLoop unmarshal rest (batches ++ [batch]) stub1

/-- The function `constructQueryResponseFromIteratorBatch`: a slice of batches from the
results of the iterator (the nil slice is the empty list). -/
def constructQueryResponseFromIteratorBatch (unmarshal : List Byte → Result Batch)
    (resultsIterator : List (Result KV)) (stub : Stub) :
    (List Batch × Option GoError) × Stub :=
  queryLoop unmarshal resultsIterator [] stub

/-- The function `getQueryResultForQueryStringBatch`; the deferred `Close` runs when the
function returns. -/
def getQueryResultForQueryStringBatch (unmarshal : List Byte → Result Batch) (stub : Stub)
    (queryString : GoString) : (List Batch × Option GoError) × Stub :=
  match stub.GetQueryResult queryString with
  | (.fail err, stub1) => (([], some err), stub1)
  | (.ok resultsIterator, stub1) =>
    match constructQueryResponseFromIteratorBatch unmarshal resultsIterator stub1 with
    | (result, stub2) => (result, stub2.Close)

/-! ## `batch.go`: the transactions -/

/-- The transaction `ReadBatch`; `none` is the nil `*Batch`. -/
def ReadBatch (unmarshal : List Byte → Result Batch) (stub : Stub) (batchID : GoString) :
    (Option Batch × Option GoError) × Stub :=
  match BatchExists stub batchID with
  | ((_, some err), stub1) =>
    ((none, some (errorf (str "could not read batch from world state. " ++ err.Error))),
      stub1)
  | ((false, none), stub1) =>
    ((none, some (errorf (str "[" ++ batchID ++ str "] does not exist"))), stub1)
  | ((true, none), stub1) =>
    match stub1.GetState batchID with
    | ((batchBytes, _), stub2) =>
      match unmarshal (batchBytes.getD []) with
      | .fail _ =>
        ((none, some (errorf (str "could not unmarshal world state data to type Batch"))),
          stub2)
      | .ok batch => ((some batch, none), stub2)

/-- The query text of `GetAvailableBatches`. -/
def availableQuery : GoString := str "\x7b\"selector\":\x7b\"docType\":\"b\"\x7d\x7d"

/-- The transaction `GetAvailableBatches`. -/
def GetAvailableBatches (unmarshal : List Byte → Result Batch) (stub : Stub) :
    (List Batch × Option GoError) × Stub :=
  getQueryResultForQueryStringBatch unmarshal stub availableQuery

/-- The loop of `GetBatchHistory` on the outcomes the iterator still has to deliver, with the
records collected so far. `err` is the loop's variable of that name at the point where the
timestamp is tested. -/
def historyLoop (unmarshal : List Byte → Result Batch) (batchID : GoString) :
    List (Result KeyModification) → List HistoryQueryResult → Stub →
      (List HistoryQueryResult × Option GoError) × Stub
  | [], records, stub => ((records, none), stub)
  | next :: rest, records, stub =>
    let stub1 := stub.Next
    match next with
    | .fail err => (([], some err), stub1)
    | .ok response =>
      let decoded : Result Batch × Option GoError :=
        if 0 < response.Value.length then
          match unmarshal response.Value with
          | .fail e => (.fail e, some e)
          | .ok batch => (.ok batch, none)
        else (.ok { Batch.zero with ID := batchID }, none)
      match decoded with
      | (.fail e, _) => (([], some e), stub1)
      | (.ok batch, err) =>
        let timestamp := Timestamp.New (Timestamp.AsTime response.Timestamp)
        if !Timestamp.CheckValid timestamp then (([], err), stub1)
        else
          let record : HistoryQueryResult :=
            { TxId := response.TxId, Timestamp := Timestamp.AsTime timestamp,
              Record := batch, IsDelete := response.IsDelete }
          historyLoop unmarshal batchID rest (records ++ [record]) stub1

/-- The transaction `GetBatchHistory`; the deferred `Close` runs when the function
returns. The call of `log.Printf` at its start writes to the process log only and is left
out. -/
def GetBatchHistory (unmarshal : List Byte → Result Batch) (stub : Stub)
    (batchID : GoString) : (List HistoryQueryResult × Option GoError) × Stub :=
  match stub.GetHistoryForKey batchID with
  | (.fail err, stub1) => (([], some err), stub1)
  | (.ok resultsIterator, stub1) =>
    match historyLoop unmarshal batchID resultsIterator [] stub1 with
    | (result, stub2) => (result, stub2.Close)

/-- The query text that `TraceBatchByInternalID` builds. -/
def traceQuery (batchInternalID : GoString) : GoString :=
  str "\x7b\"selector\":\x7b\"batchInternalID\":\"" ++ batchInternalID ++ str "\"\x7d\x7d"

/-- The transaction `TraceBatchByInternalID`. -/
def TraceBatchByInternalID (unmarshal : List Byte → Result Batch) (stub : Stub)
    (batchInternalID : GoString) : (List Batch × Option GoError) × Stub :=
  getQueryResultForQueryStringBatch unmarshal stub (traceQuery batchInternalID)

/-- The transaction `DeleteBatch`. -/
def DeleteBatch (stub : Stub) (batchID : GoString) : (GoString × Option GoError) × Stub :=
  match BatchExists stub batchID with
  | ((_, some err), stub1) =>
    ((str "", some (errorf (str "could not read batch from world state. " ++ err.Error))),
      stub1)
  | ((false, none), stub1) =>
    ((str "", some (errorf (str "[" ++ batchID ++ str "] does not exist"))), stub1)
  | ((true, none), stub1) =>
    match stub1.DelState batchID with
    | (some err, stub2) =>
      ((str "",
        some (errorf (str "could not delete batch from world state. " ++ err.Error))), stub2)
    | (none, stub2) => ((str "[" ++ batchID ++ str "] deleted successfully", none), stub2)

/-- The loop of `DeleteAllBatches` over the listed batches: the error of the delete that
failed, if one did. -/
def deleteLoop : List Batch → Stub → Option GoError × Stub
  | [], stub => (none, stub)
  | registration :: rest, stub =>
    match stub.DelState registration.ID with
    | (some err, stub1) => (some err, stub1)
    | (none, stub1) => deleteLoop rest stub1

/-- The transaction `DeleteAllBatches`. -/
def DeleteAllBatches (unmarshal : List Byte → Result Batch) (stub : Stub) :
    (GoString × Option GoError) × Stub :=
  match GetAvailableBatches unmarshal stub with
  | ((_, some err), stub1) =>
    ((str "",
      some (errorf (str "could not read registrations from world state. " ++ err.Error))),
      stub1)
  | ((registrations, none), stub1) =>
    if registrations.length = 0 then
      ((str "", some (errorf (str "there are no registrations in world state to delete"))),
        stub1)
    else
      match deleteLoop registrations stub1 with
      | (some err, stub2) =>
        ((str "",
          some (errorf (str "could not delete registrations from world state. " ++
            err.Error))), stub2)
      | (none, stub2) => ((str "all batches deleted successfully", none), stub2)

/-! ## Notions used to state the properties -/

/-- The statements of `validateBatch` that follow the store read, as a function of the
fields alone (`validateBatch_eq` proves that this is what `validateBatch` computes there; the
test of `fmt.Sprintf("%f", quantity)` against `""` is gone because it never holds). -/
def checkFields (batchInternalID supplierID batchType : GoString)
    (batchComposition : List (GoString × F32)) (quantity finalScore : F32)
    (isInTransit : Bool) : Bool × Option GoError :=
  if batchInternalID = str "" then
    (false, some (errorf (str "batch internal ID must not be empty")))
  else if supplierID = str "" then
    (false, some (errorf (str "supplier ID must not be empty")))
  else if isInTransit then
    (false, some (errorf (str "batch must not be in transit")))
  else if !batchTypeSwitch batchType then
    (false, some (errorf (str "batch type is not valid")))
  else
    match sumLoop (.fin 0) batchComposition with
    | none => (false, some errComposition)
    | some percentageSum =>
      if percentageSum.ne (F32.ofInt 100) then (false, some errComposition)
      else if quantity.lt (F32.ofInt 0) then
        (false, some (errorf (str "batch quantity should be 0+")))
      else
        match validateScore finalScore with
        | (false, err) => (false, some (errorfWNil (str "invalid scores: ") err))
        | (true, _) => (true, none)

/-- The sum of the percentages of `entries` accumulated in `float32`, in list order,
starting from `acc`. -/
def foldSum (acc : F32) (entries : List (GoString × F32)) : F32 :=
  entries.foldl (fun a e => a.add e.2) acc

/-- The running sum of a composition: its percentages accumulated from 0 in `float32`, in
the order of the entries. -/
def runningSum (entries : List (GoString × F32)) : F32 := foldSum (.fin 0) entries

/-- No prefix of the composition has a running sum greater than 100. -/
def NeverExceeds (entries : List (GoString × F32)) : Prop :=
  ∀ k, k ≤ entries.length → (runningSum (entries.take k)).gt (F32.ofInt 100) = false

instance (entries : List (GoString × F32)) : Decidable (NeverExceeds entries) := by
  unfold NeverExceeds
  infer_instance

/-- The exact sum of the percentages, in units of `2⁻¹⁴⁹` and without any rounding; `none`
when a percentage is NaN or infinite. -/
def exactSum : List (GoString × F32) → Option Int
  | [] => some 0
  | (_, .fin n) :: rest => (exactSum rest).map (fun t => n + t)
  | _ :: _ => none

/-- The batch id passes the first check of `validateBatch`: it has at least two bytes and
they are `b-`. -/
def IdOk (batchID : GoString) : Prop := 2 ≤ batchID.length ∧ batchID.take 2 = str "b-"

instance (batchID : GoString) : Decidable (IdOk batchID) := by
  unfold IdOk
  infer_instance

/-- The six checks of `validateBatch` that precede the composition check pass: the id is
`b-...`, the store read succeeds and finds no value, `batchInternalID` and `supplierID` are not
empty, the batch is not in transit and the type is known. -/
def EarlierChecksPass (stub : Stub) (batchID batchInternalID supplierID batchType : GoString)
    (isInTransit : Bool) : Prop :=
  IdOk batchID ∧ (stub.GetState batchID).1 = (none, none) ∧ batchInternalID ≠ str "" ∧
  supplierID ≠ str "" ∧ isInTransit = false ∧ batchTypeSwitch batchType = true

instance (stub : Stub) (batchID batchInternalID supplierID batchType : GoString)
    (isInTransit : Bool) :
    Decidable (EarlierChecksPass stub batchID batchInternalID supplierID batchType
      isInTransit) := by
  unfold EarlierChecksPass
  infer_instance

/-- The error of an unknown batch type. -/
def errBatchType : GoError := errorf (str "batch type is not valid")

/-- The error of a negative quantity. -/
def errQuantity : GoError := errorf (str "batch quantity should be 0+")

/-- The error of a rejected score: the error of `validateScore`, wrapped. -/
def errScores : GoError := errorfW (str "invalid scores: ") (errorf (str "invalid score"))

/-- Every check of `validateBatch` other than the composition check passes: the id is
`b-...`, the store read succeeds and finds no value, `batchInternalID` and `supplierID` are not
empty, the batch is not in transit, the type is known, `quantity < 0` is false and
`validateScore` accepts the score. -/
def OtherChecksPass (stub : Stub) (batchID batchInternalID supplierID batchType : GoString)
    (quantity finalScore : F32) (isInTransit : Bool) : Prop :=
  IdOk batchID ∧ (stub.GetState batchID).1 = (none, none) ∧ batchInternalID ≠ str "" ∧
  supplierID ≠ str "" ∧ isInTransit = false ∧ batchTypeSwitch batchType = true ∧
  quantity.lt (F32.ofInt 0) = false ∧ (validateScore finalScore).1 = true

instance (stub : Stub) (batchID batchInternalID supplierID batchType : GoString)
    (quantity finalScore : F32) (isInTransit : Bool) :
    Decidable (OtherChecksPass stub batchID batchInternalID supplierID batchType quantity
      finalScore isInTransit) := by
  unfold OtherChecksPass
  infer_instance

/-- The names in the `case` labels of `validateBatchType` and of the `switch` of
`validateBatch`, in source order. -/
def batchTypeNames : List GoString :=
  [str "CONVENTIONAL_COTTON", str "ORGANIC_COTTON", str "RECYCLED_COTTON", str "PES",
   str "PES_RPET", str "POLYPROPYLENE", str "POLYAMIDE_6", str "POLYAMIDE_66", str "PAN",
   str "VISCOSE", str "FLAX", str "JUTE", str "KENAF", str "BAMBOO", str "SILK", str "WOOL",
   str "ELASTANE", str "YARN", str "RAW_FABRIC", str "DYED_FABRIC", str "RAW_KNITTED_FABRIC",
   str "DYED_KNITTED_FABRIC", str "GARMENT"]

/-- A stub over an empty world state whose calls all succeed. -/
def emptyStub : Stub := { world := [], fault := fun _ _ => none, calls := [] }

/-- The stub of the repository's test (`configureLotStub`): reading `statebad` fails with
"world state get error", `missingkey` has no value, `existingkey` has one. -/
def testStub : Stub :=
  { world := [(str "existingkey", str "stored")]
    fault := fun _ call =>
      if call = StubCall.GetState (str "statebad") then
        some (errorf (str "world state get error"))
      else none
    calls := [] }


/-- The stub after the calls `cs` have been added to its log. -/
def Stub.logged (stub : Stub) (cs : List StubCall) : Stub :=
  { stub with calls := stub.calls ++ cs }

/-- The world state without the keys `keys`. -/
def removeKeys (keys : List GoString) (world : List (GoString × List Byte)) :
    List (GoString × List Byte) :=
  world.filter (fun kv => !keys.contains kv.1)

/-- The not-found error of `ReadBatch` and `DeleteBatch`. -/
def errNotFound (batchID : GoString) : GoError :=
  errorf (str "[" ++ batchID ++ str "] does not exist")

/-- The deserialization error of `ReadBatch`. -/
def errUnmarshal : GoError :=
  errorf (str "could not unmarshal world state data to type Batch")

/-- The error of `ReadBatch` and `DeleteBatch` for a failed store read: the text of the
store's error after a fixed text. -/
def errRead (err : GoError) : GoError :=
  errorf (str "could not read batch from world state. " ++ err.Error)

/-- The nothing-to-delete error of `DeleteAllBatches`. -/
def errNothingToDelete : GoError :=
  errorf (str "there are no registrations in world state to delete")

/-- The record `GetBatchHistory` builds from one entry of the history and the snapshot
`batch`. -/
def historyRecord (response : KeyModification) (batch : Batch) : HistoryQueryResult :=
  { TxId := response.TxId, Timestamp := Timestamp.AsTime response.Timestamp, Record := batch,
    IsDelete := response.IsDelete }

/-- The time stamp of a history entry passes the test of `GetBatchHistory`, which is
`CheckValid` on the time stamp rebuilt from `AsTime`. -/
def timestampAccepted (response : KeyModification) : Bool :=
  Timestamp.CheckValid (Timestamp.New (Timestamp.AsTime response.Timestamp))

/-- The snapshot `GetBatchHistory` takes of one history entry: the decoded value, or the
placeholder `Batch{ID: batchID}` when the value is empty. -/
def snapshot (unmarshal : List Byte → Result Batch) (batchID : GoString)
    (response : KeyModification) : Result Batch :=
  if 0 < response.Value.length then unmarshal response.Value
  else .ok { Batch.zero with ID := batchID }

/-- The record `r` is the one the contract of `GetBatchHistory` asks for the history entry
`e` of the key `batchID`: same transaction id, time stamp and delete flag, and as snapshot
the parsed value of the entry, or the placeholder with only the id when that value is
empty. -/
def RecordOf (unmarshal : List Byte → Result Batch) (batchID : GoString)
    (e : KeyModification) (r : HistoryQueryResult) : Prop :=
  r.TxId = e.TxId ∧ r.Timestamp = Timestamp.AsTime e.Timestamp ∧ r.IsDelete = e.IsDelete ∧
  (e.Value ≠ [] → unmarshal e.Value = .ok r.Record) ∧
  (e.Value = [] → r.Record = { Batch.zero with ID := batchID })

/-- The number of calls of `Close` issued between the state `before` of the stub and the
later state `after`. -/
def closes (before after : Stub) : Nat :=
  (after.calls.drop before.calls.length).count StubCall.Close

/-- What decoding makes of one outcome of a query iterator. -/
def decodeResult (unmarshal : List Byte → Result Batch) : Result KV → Result Batch
  | .ok queryResult => unmarshal queryResult.Value
  | .fail err => .fail err

/-- The raw text of a JSON string literal and what follows it: the bytes up to the first
double quote that no backslash escapes, and the bytes after that quote; `none` when the
literal is not closed. `escaped` tells that the byte before was an escaping backslash. -/
def readLiteralFrom : Bool → GoString → Option (GoString × GoString)
  | _, [] => none
  | true, c :: rest => (readLiteralFrom false rest).map (fun p => (c :: p.1, p.2))
  | false, c :: rest =>
    if c = 34 then some ([], rest)
    else if c = 92 then (readLiteralFrom true rest).map (fun p => (c :: p.1, p.2))
    else (readLiteralFrom false rest).map (fun p => (c :: p.1, p.2))

/-- The raw text of the JSON string literal at the start of `text` (after its opening
quote) and the rest of `text` after the closing quote. -/
def readLiteral (text : GoString) : Option (GoString × GoString) := readLiteralFrom false text

/-- The text of the query of `TraceBatchByInternalID` up to and including the quote that
opens the literal after the key `batchInternalID`. -/
def traceQueryHead : GoString := str "\x7b\"selector\":\x7b\"batchInternalID\":\""

/-- The JSON document of a batch with the given `ID` and no other field but `docType`. -/
def sampleDoc (id : GoString) : List Byte :=
  str "\x7b\"docType\":\"b\",\"ID\":\"" ++ id ++ str "\"\x7d"

/-- The batch that `json.Unmarshal` decodes from `sampleDoc id`, for an `id` of plain
letters, digits and hyphens. -/
def sampleBatch (id : GoString) : Batch := { Batch.zero with DocType := str "b", ID := id }

/-- A decoder for the examples. It agrees with `json.Unmarshal` into a `Batch` on the texts
the examples use: the empty text and the text `x` are rejected, the documents
`sampleDoc "b-100"` and `sampleDoc "b-200"` decode to their batches. On every other text it
fails, which the examples never rely on; the theorems hold for every decoder. -/
def sampleUnmarshal (data : List Byte) : Result Batch :=
  if data = [] then .fail (errorf (str "unexpected end of JSON input"))
  else if data = sampleDoc (str "b-100") then .ok (sampleBatch (str "b-100"))
  else if data = sampleDoc (str "b-200") then .ok (sampleBatch (str "b-200"))
  else .fail (errorf (str "invalid character 'x' looking for beginning of value"))

/-- A stub that holds the batch `b-100` and whose second read of that key fails. -/
def flakyStub : Stub :=
  { world := [(str "b-100", sampleDoc (str "b-100"))]
    fault := fun history call =>
      if history = [StubCall.GetState (str "b-100")] ∧
          call = StubCall.GetState (str "b-100") then
        some (errorf (str "world state get error"))
      else none
    calls := [] }

/-- The history entry of the creation of `b-100`. -/
def sampleCreated : KeyModification :=
  { TxId := str "tx1", Value := sampleDoc (str "b-100"),
    Timestamp := some { seconds := 1700000000, nanos := 5 }, IsDelete := false }

/-- The history entry of the deletion of `b-100`. -/
def sampleDeleted : KeyModification :=
  { TxId := str "tx2", Value := [],
    Timestamp := some { seconds := 1700000100, nanos := 0 }, IsDelete := true }

/-- A history entry whose value is the text `x`, which is no JSON. -/
def sampleBroken : KeyModification :=
  { TxId := str "tx3", Value := str "x",
    Timestamp := some { seconds := 1700000200, nanos := 0 }, IsDelete := false }

/-- A stub that holds the batches `b-100` and `b-200`, lists both for every query, and has
for `b-100` a history of a creation and a deletion, and for `b-200` a history whose only
entry does not parse. -/
def sampleStub : Stub :=
  { world := [(str "b-100", sampleDoc (str "b-100")), (str "b-200", sampleDoc (str "b-200"))]
    fault := fun _ _ => none
    calls := []
    historyOf := fun key =>
      if key = str "b-100" then [.ok sampleCreated, .ok sampleDeleted]
      else if key = str "b-200" then [.ok sampleBroken]
      else []
    queryOf := fun _ =>
      [.ok { Key := str "b-100", Value := sampleDoc (str "b-100") },
       .ok { Key := str "b-200", Value := sampleDoc (str "b-200") }] }

/-- The stub `sampleStub` with a store that refuses to delete `b-200`. -/
def refusingStub : Stub :=
  { sampleStub with
    fault := fun _ call =>
      if call = StubCall.DelState (str "b-200") then some (errorf (str "delete refused"))
      else none }

/-- A history entry that parses and whose time stamp is 10000-01-01T00:00:00Z, one second
past the last instant that `CheckValid` accepts. -/
def sampleLate : KeyModification :=
  { TxId := str "tx4", Value := sampleDoc (str "b-100"),
    Timestamp := some { seconds := 253402300800, nanos := 0 }, IsDelete := false }

/-- The stub `sampleStub` with a history of two entries for every key: the creation of
`b-100` and the entry with the late time stamp. -/
def lateStub : Stub :=
  { sampleStub with historyOf := fun _ => [.ok sampleCreated, .ok sampleLate] }

/-- The verdict of the composition statements of `validateBatch` alone: the loop runs to its
end without `percentageSum > 100`, and the test `percentageSum != 100` after it fails. -/
def compositionAccepted (batchComposition : List (GoString × F32)) : Bool :=
  match sumLoop (.fin 0) batchComposition with
  | none => false
  | some percentageSum => !percentageSum.ne (F32.ofInt 100)

/-- Every percentage is a number not below 0 (so none is NaN). -/
def NonNegative (entries : List (GoString × F32)) : Prop :=
  ∀ e ∈ entries, (F32.ofInt 0).le e.2 = true

instance (entries : List (GoString × F32)) : Decidable (NonNegative entries) := by
  unfold NonNegative
  infer_instance

/-- The arithmetic of the composition loop is exact on `entries`, visited in this order from
the accumulator `acc`: accumulator and percentages are finite, and each `float32` sum
`percentageSum + percentage` is the sum of the two numbers with no rounding. -/
def exactFrom : F32 → List (GoString × F32) → Bool
  | _, [] => true
  | .fin a, (_, .fin p) :: rest =>
    decide (F32.add (.fin a) (.fin p) = .fin (a + p)) && exactFrom (.fin (a + p)) rest
  | _, _ :: _ => false

/-- The arithmetic of the composition loop of `validateBatch` is exact on `entries` in this
order. -/
def Exact (entries : List (GoString × F32)) : Prop := exactFrom (.fin 0) entries = true

instance (entries : List (GoString × F32)) : Decidable (Exact entries) := by
  unfold Exact
  infer_instance

/-- The number 100 in units of `2⁻¹⁴⁹`. -/
def hundredUnits : Int := 100 * 2 ^ 149

/-- The composition loop carried out in exact arithmetic, for comparison with `sumLoop`: the
sum is kept as an exact number (in units of `2⁻¹⁴⁹`) and never rounded. `none` when the loop
returns early because the sum is greater than 100; a percentage that is NaN or infinite also
gives `none`, since the check then fails in any case. -/
def exactLoop : Int → List (GoString × F32) → Option Int
  | acc, [] => some acc
  | acc, (_, .fin p) :: rest =>
    let percentageSum := acc + p
    if hundredUnits < percentageSum then none else exactLoop percentageSum rest
  | _, _ :: _ => none

/-- The verdict of the composition check carried out in exact arithmetic. -/
def exactAccepted (batchComposition : List (GoString × F32)) : Bool :=
  match exactLoop 0 batchComposition with
  | none => false
  | some percentageSum => decide (percentageSum = hundredUnits)

/-- The condition of the composition check read with exact sums: no prefix of the entries has
a sum greater than 100, and the sum of all entries is exactly 100 (sums without rounding, in
units of `2⁻¹⁴⁹`; a percentage that is NaN or infinite has no such sum). -/
def ExactCondition (entries : List (GoString × F32)) : Prop :=
  (∀ k, k ≤ entries.length →
    ∃ t, exactSum (entries.take k) = some t ∧ t ≤ hundredUnits) ∧
  exactSum entries = some hundredUnits

/-- A composition of 100 and `2⁻¹⁹`: its sum is above 100, and the `float32` sum is 100. -/
def roundedAway : List (GoString × F32) :=
  [(str "m1", F32.ofInt 100), (str "m2", F32.fin (2 ^ 130))]

/-- A composition of 96, two times `3·2⁻²⁰` and `4 - 3·2⁻¹⁹`: its sum is exactly 100 and no
prefix is above 100, and the `float32` sum is `100 - 2⁻¹⁷`, since 96 plus `3·2⁻²⁰` is rounded
to 96. -/
def lostFraction : List (GoString × F32) :=
  [(str "m1", F32.ofInt 96), (str "m2", F32.fin (3 * 2 ^ 129)),
   (str "m3", F32.fin (3 * 2 ^ 129)), (str "m4", F32.fin (4 * 2 ^ 149 - 3 * 2 ^ 130))]

/-- A composition of 100 and two times 0.000003, visited with the large entry first. -/
def largeFirst : List (GoString × F32) :=
  [(str "m1", F32.ofInt 100), (str "m2", F32.ofDecimal 3 6), (str "m3", F32.ofDecimal 3 6)]

/-- The entries of `largeFirst`, visited with the large entry last. -/
def largeLast : List (GoString × F32) :=
  [(str "m2", F32.ofDecimal 3 6), (str "m3", F32.ofDecimal 3 6), (str "m1", F32.ofInt 100)]

/-! ## Basic facts -/

theorem str_empty : str "" = [] := rfl

theorem slice_zero_two (s : GoString) :
    slice s 0 2 = if 2 ≤ s.length then some (s.take 2) else none := by
  simp [slice]

theorem sprintfF_ne_empty (x : F32) : sprintfF x ≠ [] := by
  cases x with
  | nan => decide
  | inf neg => cases neg <;> decide
  | fin n =>
    have h : str "." = [46] := by decide
    simp [sprintfF, h]

theorem ofInt_hundred : F32.ofInt 100 = F32.fin (100 * 2 ^ 149) := by decide!

theorem zero_not_gt_hundred : (F32.fin 0).gt (F32.ofInt 100) = false := by decide!

theorem ne_hundred_eq_false (x : F32) :
    x.ne (F32.ofInt 100) = false ↔ x = F32.ofInt 100 := by
  rw [ofInt_hundred]
  cases x <;> simp [F32.ne]

theorem ne_hundred_eq_true (x : F32) :
    x.ne (F32.ofInt 100) = true ↔ x ≠ F32.ofInt 100 := by
  rw [ne_eq, ← ne_hundred_eq_false]
  cases x.ne (F32.ofInt 100) <;> simp

theorem GetState_stub (stub : Stub) (key : GoString) :
    (stub.GetState key).2 = { stub with calls := stub.calls ++ [StubCall.GetState key] } := by
  unfold Stub.GetState
  cases stub.fault stub.calls (StubCall.GetState key) <;> rfl

/-- The normal form of `validateBatch`: the id checks, the store read, then `checkFields`. -/
theorem validateBatch_eq (stub : Stub)
    (batchID productionUnitID batchInternalID supplierID batchType : GoString)
    (batchComposition : List (GoString × F32)) (quantity finalScore : F32)
    (isInTransit : Bool) :
    validateBatch stub batchID productionUnitID batchInternalID supplierID batchType
        batchComposition quantity finalScore isInTransit =
      if batchID = [] then (.ret (false, some errBatchID), stub)
      else if batchID.length < 2 then (.panic, stub)
      else if batchID.take 2 ≠ str "b-" then (.ret (false, some errBatchID), stub)
      else
        match (stub.GetState batchID).1 with
        | (_, some err) =>
          (.ret (false, some (errorfW (str "could not read batch from world state: ") err)),
            (stub.GetState batchID).2)
        | (some _, none) =>
          (.ret (false, some (errorf (str "batch [" ++ batchID ++ str "] already exists"))),
            (stub.GetState batchID).2)
        | (none, none) =>
          (.ret (checkFields batchInternalID supplierID batchType batchComposition
            quantity finalScore isInTransit), (stub.GetState batchID).2) := by
  unfold validateBatch
  simp only [str_empty, slice_zero_two]
  by_cases h0 : batchID = []
  · simp [h0]
  · by_cases h1 : batchID.length < 2
    · have : ¬ 2 ≤ batchID.length := by omega
      simp [h0, h1, this]
    · have h2 : 2 ≤ batchID.length := by omega
      simp only [h0, h1, h2, if_true, if_false]
      by_cases h3 : batchID.take 2 = str "b-"
      · simp only [h3, ne_eq, not_true_eq_false, if_false]
        rcases hg : stub.GetState batchID with ⟨⟨data, err⟩, stub1⟩
        cases err with
        | some e => simp
        | none =>
          cases data with
          | some d => simp
          | none =>
            simp only [checkFields, str_empty, sprintfF_ne_empty, decide_False, Bool.or_false]
            split_ifs <;> first
              | rfl
              | (cases sumLoop (F32.fin 0) batchComposition with
                 | none => rfl
                 | some acc =>
                   simp only []
                   split_ifs <;> first
                     | rfl
                     | (rcases validateScore finalScore with ⟨_ | _, e⟩ <;> rfl))
      · simp [h3]

/-- What `validateBatch` returns once the id check and the store read have passed. -/
theorem validateBatch_of_read (stub : Stub)
    (batchID productionUnitID batchInternalID supplierID batchType : GoString)
    (batchComposition : List (GoString × F32)) (quantity finalScore : F32)
    (isInTransit : Bool) (hid : IdOk batchID)
    (hread : (stub.GetState batchID).1 = (none, none)) :
    (validateBatch stub batchID productionUnitID batchInternalID supplierID batchType
        batchComposition quantity finalScore isInTransit).1 =
      .ret (checkFields batchInternalID supplierID batchType batchComposition quantity
        finalScore isInTransit) := by
  obtain ⟨hlen, htake⟩ := hid
  have h0 : batchID ≠ [] := by
    intro h
    rw [h] at hlen
    simp at hlen
  have h1 : ¬ batchID.length < 2 := by omega
  rw [validateBatch_eq]
  simp [h0, h1, htake, hread]

/-! ## The composition loop -/

theorem foldSum_cons (acc : F32) (e : GoString × F32) (rest : List (GoString × F32)) :
    foldSum acc (e :: rest) = foldSum (acc.add e.2) rest := rfl

/-- The loop runs to its end when no non-empty prefix overflows, and then returns the
accumulated sum. -/
theorem sumLoop_some (entries : List (GoString × F32)) :
    ∀ acc : F32,
      (∀ k, 1 ≤ k → k ≤ entries.length →
        (foldSum acc (entries.take k)).gt (F32.ofInt 100) = false) →
      sumLoop acc entries = some (foldSum acc entries) := by
  induction entries with
  | nil => intro acc _; rfl
  | cons e rest ih =>
    intro acc h
    have h1 := h 1 (le_refl 1) (by simp)
    simp only [List.take_succ_cons, List.take_zero, foldSum_cons] at h1
    have h1' : (acc.add e.2).gt (F32.ofInt 100) = false := h1
    rw [sumLoop, foldSum_cons]
    simp only [h1', Bool.false_eq_true, if_false]
    apply ih
    intro k hk1 hk2
    have := h (k + 1) (by omega) (by simp; omega)
    simpa [List.take_succ_cons, foldSum_cons] using this

/-- The loop returns early when some non-empty prefix overflows. -/
theorem sumLoop_none (entries : List (GoString × F32)) :
    ∀ acc : F32,
      (∃ k, 1 ≤ k ∧ k ≤ entries.length ∧
        (foldSum acc (entries.take k)).gt (F32.ofInt 100) = true) →
      sumLoop acc entries = none := by
  induction entries with
  | nil =>
    rintro acc ⟨k, hk1, hk2, _⟩
    simp at hk2
    omega
  | cons e rest ih =>
    rintro acc ⟨k, hk1, hk2, hk⟩
    rw [sumLoop]
    by_cases h1 : (acc.add e.2).gt (F32.ofInt 100) = true
    · simp [h1]
    · simp only [h1, if_false]
      apply ih
      obtain ⟨j, rfl⟩ : ∃ j, k = j + 1 := ⟨k - 1, by omega⟩
      simp only [List.take_succ_cons, foldSum_cons] at hk
      refine ⟨j, ?_, by simpa using hk2, hk⟩
      rcases Nat.eq_zero_or_pos j with hj | hj
      · subst hj
        simp [foldSum] at hk
        exact absurd hk h1
      · exact hj

theorem sumLoop_runningSum (entries : List (GoString × F32)) (h : NeverExceeds entries) :
    sumLoop (.fin 0) entries = some (runningSum entries) :=
  sumLoop_some entries (.fin 0) (fun k _ hk => h k hk)

theorem sumLoop_overflow (entries : List (GoString × F32)) (h : ¬ NeverExceeds entries) :
    sumLoop (.fin 0) entries = none := by
  apply sumLoop_none
  unfold NeverExceeds at h
  push_neg at h
  obtain ⟨k, hk, hgt⟩ := h
  refine ⟨k, ?_, hk, by simpa using hgt⟩
  rcases Nat.eq_zero_or_pos k with h0 | h0
  · subst h0
    simp [runningSum, foldSum, zero_not_gt_hundred] at hgt
  · exact h0

/-- The composition statements of `validateBatch` in terms of the running sum. -/
theorem checkFields_composition (batchInternalID supplierID batchType : GoString)
    (batchComposition : List (GoString × F32)) (quantity finalScore : F32)
    (hint : batchInternalID ≠ str "") (hsup : supplierID ≠ str "")
    (htype : batchTypeSwitch batchType = true) (hq : quantity.lt (F32.ofInt 0) = false)
    (hs : (validateScore finalScore).1 = true) :
    checkFields batchInternalID supplierID batchType batchComposition quantity finalScore
        false =
      if NeverExceeds batchComposition ∧ runningSum batchComposition = F32.ofInt 100 then
        (true, none)
      else (false, some errComposition) := by
  unfold checkFields
  simp only [hint, hsup, htype, hq, if_false, Bool.not_true, Bool.false_eq_true]
  by_cases hne : NeverExceeds batchComposition
  · rw [sumLoop_runningSum _ hne]
    by_cases hsum : runningSum batchComposition = F32.ofInt 100
    · rw [if_pos ⟨hne, hsum⟩]
      have hne100 := (ne_hundred_eq_false _).2 hsum
      simp only [hne100, if_false, Bool.false_eq_true]
      rcases hv : validateScore finalScore with ⟨b, e⟩
      rw [hv] at hs
      simp only at hs
      subst hs
      rfl
    · rw [if_neg (fun h => hsum h.2)]
      have hne100 := (ne_hundred_eq_true _).2 hsum
      simp only [hne100, if_true]
  · rw [sumLoop_overflow _ hne, if_neg (fun h => hne h.1)]

/-! ## Batch types -/

theorem batchTypeSwitch_iff (batchType : GoString) :
    batchTypeSwitch batchType = true ↔ batchType ∈ batchTypeNames := by
  simp only [batchTypeSwitch, batchTypeNames, Bool.or_eq_true, beq_iff_eq, List.mem_cons,
    List.not_mem_nil, or_false, or_assoc]

theorem ite_snd_none {α : Type} (p : Prop) [Decidable p] (a b : α × Option GoError)
    (q : Prop) (ha : a.2 = none) (hb : b.2 = none ↔ q) :
    (if p then a else b).2 = none ↔ p ∨ q := by
  by_cases hp : p
  · simp [hp, ha]
  · simp [hp, hb]

theorem validateBatchType_iff (batchTypeID : GoString) :
    (validateBatchType batchTypeID).2 = none ↔ batchTypeID ∈ batchTypeNames := by
  unfold validateBatchType
  simp only [batchTypeNames, List.mem_cons]
  repeat (refine ite_snd_none _ _ _ _ rfl ?_)
  simp

/-! ## Scores -/

theorem ofInt_ten : F32.ofInt 10 = F32.fin (10 * 2 ^ 149) := by decide!

theorem ofInt_neg_ten : F32.ofInt (-10) = F32.fin (-(10 * 2 ^ 149)) := by decide!

/-- On every score that is not NaN, `validateScore` accepts exactly the closed interval. -/
theorem validateScore_iff (score : F32) (h : score ≠ F32.nan) :
    validateScore score = (true, none) ↔
      (F32.le (F32.ofInt (-10)) score = true ∧ F32.le score (F32.ofInt 10) = true) := by
  unfold validateScore
  rw [ofInt_ten, ofInt_neg_ten]
  cases score with
  | nan => exact absurd rfl h
  | inf neg => cases neg <;> simp [F32.lt, F32.gt, F32.le]
  | fin n =>
    simp only [F32.lt, F32.gt, F32.le, Bool.or_eq_true, decide_eq_true_eq, F32.fin.injEq]
    split_ifs with hc
    · simp only [Prod.mk.injEq, Bool.false_eq_true, false_and, false_iff, not_and]
      omega
    · simp only [true_iff]
      omega

/-- Every rejection of `validateScore` carries the error "invalid score". -/
theorem validateScore_cases (score : F32) :
    validateScore score = (true, none) ∨
      validateScore score = (false, some (errorf (str "invalid score"))) := by
  unfold validateScore
  split_ifs
  · exact Or.inr rfl
  · exact Or.inl rfl


/-! ## `validateBatch`: general behaviour -/

theorem checkFields_cases (batchInternalID supplierID batchType : GoString)
    (batchComposition : List (GoString × F32)) (quantity finalScore : F32)
    (isInTransit : Bool) :
    checkFields batchInternalID supplierID batchType batchComposition quantity finalScore
        isInTransit = (true, none) ∨
    ∃ err, checkFields batchInternalID supplierID batchType batchComposition quantity
        finalScore isInTransit = (false, some err) := by
  unfold checkFields
  repeat' split
  all_goals simp

/-- The outcome of `validateBatch` by cases: a one-byte id panics, every other call returns
`(true, nil)` or `false` with an error. -/
theorem validateBatch_outcome (stub : Stub)
    (batchID productionUnitID batchInternalID supplierID batchType : GoString)
    (batchComposition : List (GoString × F32)) (quantity finalScore : F32)
    (isInTransit : Bool) :
    ((validateBatch stub batchID productionUnitID batchInternalID supplierID batchType
        batchComposition quantity finalScore isInTransit).1 = .panic ↔ batchID.length = 1) ∧
    (batchID.length ≠ 1 →
      (validateBatch stub batchID productionUnitID batchInternalID supplierID batchType
        batchComposition quantity finalScore isInTransit).1 = .ret (true, none) ∨
      ∃ err, (validateBatch stub batchID productionUnitID batchInternalID supplierID batchType
        batchComposition quantity finalScore isInTransit).1 = .ret (false, some err)) := by
  rw [validateBatch_eq]
  by_cases h0 : batchID = []
  · subst h0
    simp
  · have hpos : 0 < batchID.length := List.length_pos.2 h0
    by_cases h1 : batchID.length < 2
    · have : batchID.length = 1 := by omega
      simp [h0, h1, this]
    · have hne : batchID.length ≠ 1 := by omega
      simp only [h0, h1, if_false, hne, iff_false, ne_eq, not_false_eq_true, true_implies]
      by_cases h3 : batchID.take 2 = str "b-"
      · simp only [h3, not_true_eq_false, if_false]
        rcases stub.GetState batchID with ⟨⟨data, err⟩, stub1⟩
        cases err with
        | some e => simp
        | none =>
          cases data with
          | some d => simp
          | none =>
            simpa using checkFields_cases batchInternalID supplierID batchType
              batchComposition quantity finalScore isInTransit
      · simp [h3]

theorem checkFields_true_iff (batchInternalID supplierID batchType : GoString)
    (batchComposition : List (GoString × F32)) (quantity finalScore : F32)
    (isInTransit : Bool) :
    checkFields batchInternalID supplierID batchType batchComposition quantity finalScore
        isInTransit = (true, none) ↔
      (batchInternalID ≠ str "" ∧ supplierID ≠ str "" ∧ isInTransit = false ∧
        batchTypeSwitch batchType = true ∧ quantity.lt (F32.ofInt 0) = false ∧
        (validateScore finalScore).1 = true) ∧
      NeverExceeds batchComposition ∧ runningSum batchComposition = F32.ofInt 100 := by
  by_cases h1 : batchInternalID = str ""
  · simp [checkFields, h1]
  by_cases h2 : supplierID = str ""
  · simp [checkFields, h1, h2]
  cases isInTransit with
  | true => simp [checkFields, h1, h2]
  | false =>
    by_cases h4 : batchTypeSwitch batchType = true
    swap
    · simp [checkFields, h1, h2, h4]
    by_cases h5 : quantity.lt (F32.ofInt 0) = true
    · have hne : checkFields batchInternalID supplierID batchType batchComposition quantity
          finalScore false ≠ (true, none) := by
        unfold checkFields
        simp only [h1, h2, h4, h5, if_true, if_false, Bool.not_true, Bool.false_eq_true]
        repeat' split
        all_goals simp
      simp [hne, h5]
    by_cases h6 : (validateScore finalScore).1 = true
    · rw [checkFields_composition _ _ _ _ _ _ h1 h2 h4 (by simpa using h5) h6]
      split_ifs with h
      · simp [h1, h2, h4, h5, h6, h.1, h.2]
      · simp only [Prod.mk.injEq, Bool.false_eq_true, false_and, false_iff]
        intro hall
        exact h hall.2
    · have hne : checkFields batchInternalID supplierID batchType batchComposition quantity
          finalScore false ≠ (true, none) := by
        unfold checkFields
        simp only [h1, h2, h4, h5, if_true, if_false, Bool.not_true, Bool.false_eq_true]
        repeat' split
        all_goals first
          | (rename_i hv; rw [hv] at h6; simp at h6; done)
          | simp
      simp [hne, h6]

/-- `validateBatch` returns `(true, nil)` exactly when every check, as the code performs it,
passes. -/
theorem validateBatch_true_iff (stub : Stub)
    (batchID productionUnitID batchInternalID supplierID batchType : GoString)
    (batchComposition : List (GoString × F32)) (quantity finalScore : F32)
    (isInTransit : Bool) :
    (validateBatch stub batchID productionUnitID batchInternalID supplierID batchType
        batchComposition quantity finalScore isInTransit).1 = .ret (true, none) ↔
      (OtherChecksPass stub batchID batchInternalID supplierID batchType quantity finalScore
        isInTransit ∧
       NeverExceeds batchComposition ∧ runningSum batchComposition = F32.ofInt 100) := by
  by_cases hid : IdOk batchID
  · by_cases hread : (stub.GetState batchID).1 = (none, none)
    · rw [validateBatch_of_read _ _ _ _ _ _ _ _ _ _ hid hread]
      simp only [Go.ret.injEq, checkFields_true_iff, OtherChecksPass, hid, hread, true_and]
    · have hne : (validateBatch stub batchID productionUnitID batchInternalID supplierID
          batchType batchComposition quantity finalScore isInTransit).1 ≠ .ret (true, none) := by
        rw [validateBatch_eq]
        split_ifs <;> try simp
        rcases hg : (stub.GetState batchID).1 with ⟨data, err⟩
        cases err with
        | some e => simp
        | none =>
          cases data with
          | some d => simp
          | none => exact absurd hg hread
      simp [hne, OtherChecksPass, hread]
  · have hne : (validateBatch stub batchID productionUnitID batchInternalID supplierID
        batchType batchComposition quantity finalScore isInTransit).1 ≠ .ret (true, none) := by
      rw [validateBatch_eq]
      split_ifs with h0 h1 h2 <;> try simp
      exact absurd ⟨by omega, not_not.1 h2⟩ hid
    simp [hne, OtherChecksPass, hid]


/-- The checks of `validateBatch` in source order: the first one that fails decides the
error, whatever the later fields are. Ids of one byte are not covered: they panic. -/
theorem validateBatch_first_failure (stub : Stub)
    (batchID productionUnitID batchInternalID supplierID batchType : GoString)
    (batchComposition : List (GoString × F32)) (quantity finalScore : F32)
    (isInTransit : Bool) (r : Go (Bool × Option GoError))
    (hr : r = (validateBatch stub batchID productionUnitID batchInternalID supplierID
      batchType batchComposition quantity finalScore isInTransit).1) :
    (batchID = [] ∨ (2 ≤ batchID.length ∧ batchID.take 2 ≠ str "b-") →
      r = .ret (false, some errBatchID)) ∧
    (IdOk batchID → ∀ data err, (stub.GetState batchID).1 = (data, some err) →
      r = .ret (false,
        some (errorfW (str "could not read batch from world state: ") err))) ∧
    (IdOk batchID → ∀ data, (stub.GetState batchID).1 = (some data, none) →
      r = .ret (false, some (errorf (str "batch [" ++ batchID ++ str "] already exists")))) ∧
    (IdOk batchID → (stub.GetState batchID).1 = (none, none) →
      (batchInternalID = str "" →
        r = .ret (false, some (errorf (str "batch internal ID must not be empty")))) ∧
      (batchInternalID ≠ str "" → supplierID = str "" →
        r = .ret (false, some (errorf (str "supplier ID must not be empty")))) ∧
      (batchInternalID ≠ str "" → supplierID ≠ str "" → isInTransit = true →
        r = .ret (false, some (errorf (str "batch must not be in transit")))) ∧
      (batchInternalID ≠ str "" → supplierID ≠ str "" → isInTransit = false →
        (batchTypeSwitch batchType = false →
          r = .ret (false, some (errorf (str "batch type is not valid")))) ∧
        (batchTypeSwitch batchType = true →
          (¬ (NeverExceeds batchComposition ∧
              runningSum batchComposition = F32.ofInt 100) →
            r = .ret (false, some errComposition)) ∧
          (NeverExceeds batchComposition → runningSum batchComposition = F32.ofInt 100 →
            (quantity.lt (F32.ofInt 0) = true →
              r = .ret (false, some (errorf (str "batch quantity should be 0+")))) ∧
            (quantity.lt (F32.ofInt 0) = false → validateScore finalScore ≠ (true, none) →
              r = .ret (false, some (errorfW (str "invalid scores: ")
                (errorf (str "invalid score"))))))))) := by
  subst hr
  refine ⟨?_, ?_, ?_, ?_⟩
  · rintro (h | ⟨hlen, htake⟩)
    · rw [validateBatch_eq]
      simp [h]
    · have h0 : batchID ≠ [] := by
        intro h
        rw [h] at hlen
        simp at hlen
      have h1 : ¬ batchID.length < 2 := by omega
      rw [validateBatch_eq]
      simp [h0, h1, htake]
  · rintro ⟨hlen, htake⟩ data err hread
    have h0 : batchID ≠ [] := by
      intro h
      rw [h] at hlen
      simp at hlen
    have h1 : ¬ batchID.length < 2 := by omega
    rw [validateBatch_eq]
    simp [h0, h1, htake, hread]
  · rintro ⟨hlen, htake⟩ data hread
    have h0 : batchID ≠ [] := by
      intro h
      rw [h] at hlen
      simp at hlen
    have h1 : ¬ batchID.length < 2 := by omega
    rw [validateBatch_eq]
    simp [h0, h1, htake, hread]
  · intro hid hread
    rw [validateBatch_of_read _ _ _ _ _ _ _ _ _ _ hid hread]
    refine ⟨?_, ?_, ?_, ?_⟩
    · intro h1
      simp [checkFields, h1]
    · intro h1 h2
      simp [checkFields, h1, h2]
    · intro h1 h2 h3
      simp [checkFields, h1, h2, h3]
    · intro h1 h2 h3
      subst h3
      refine ⟨?_, ?_⟩
      · intro h4
        simp [checkFields, h1, h2, h4]
      · intro h4
        refine ⟨?_, ?_⟩
        · intro hc
          by_cases hne : NeverExceeds batchComposition
          · have hsum : runningSum batchComposition ≠ F32.ofInt 100 := fun h => hc ⟨hne, h⟩
            have hne100 := (ne_hundred_eq_true _).2 hsum
            unfold checkFields
            simp only [h1, h2, h4, if_false, Bool.not_true, Bool.false_eq_true,
              sumLoop_runningSum _ hne, hne100, if_true]
          · unfold checkFields
            simp only [h1, h2, h4, if_false, Bool.not_true, Bool.false_eq_true,
              sumLoop_overflow _ hne]
        · intro hne hsum
          have hne100 := (ne_hundred_eq_false _).2 hsum
          refine ⟨?_, ?_⟩
          · intro h5
            unfold checkFields
            simp only [h1, h2, h4, if_false, Bool.not_true, Bool.false_eq_true,
              sumLoop_runningSum _ hne, hne100, h5, if_true]
          · intro h5 h6
            unfold checkFields
            simp only [h1, h2, h4, if_false, Bool.not_true, Bool.false_eq_true,
              sumLoop_runningSum _ hne, hne100, h5]
            rcases validateScore_cases finalScore with hv | hv
            · exact absurd hv h6
            · rw [hv]
              rfl


/-- The statements of `validateBatch` from the composition loop on, once the six earlier
checks have passed. -/
theorem checkFields_of_earlier (batchInternalID supplierID batchType : GoString)
    (batchComposition : List (GoString × F32)) (quantity finalScore : F32)
    (hint : batchInternalID ≠ str "") (hsup : supplierID ≠ str "")
    (htype : batchTypeSwitch batchType = true) :
    checkFields batchInternalID supplierID batchType batchComposition quantity finalScore
        false =
      if NeverExceeds batchComposition ∧ runningSum batchComposition = F32.ofInt 100 then
        if quantity.lt (F32.ofInt 0) = true then (false, some errQuantity)
        else if validateScore finalScore = (true, none) then (true, none)
        else (false, some errScores)
      else (false, some errComposition) := by
  unfold checkFields
  simp only [hint, hsup, htype, if_false, Bool.not_true, Bool.false_eq_true]
  by_cases hne : NeverExceeds batchComposition
  · rw [sumLoop_runningSum _ hne]
    by_cases hsum : runningSum batchComposition = F32.ofInt 100
    · have hne100 : (F32.ofInt 100).ne (F32.ofInt 100) = false :=
        (ne_hundred_eq_false _).2 rfl
      simp only [hne100, hne, hsum, and_self, if_true, if_false, Bool.false_eq_true]
      by_cases hq : quantity.lt (F32.ofInt 0) = true
      · simp only [hq, if_true]
        rfl
      · simp only [hq, if_false]
        rcases validateScore_cases finalScore with hv | hv
        · rw [hv]
          simp
        · rw [hv]
          simp [errScores, errorfWNil]
    · have hne100 := (ne_hundred_eq_true _).2 hsum
      simp only [hne100, hsum, and_false, if_true, if_false]
  · rw [sumLoop_overflow _ hne]
    simp only [hne, false_and, if_false]

theorem validateBatch_of_earlier (stub : Stub)
    (batchID productionUnitID batchInternalID supplierID batchType : GoString)
    (batchComposition : List (GoString × F32)) (quantity finalScore : F32)
    (isInTransit : Bool)
    (h : EarlierChecksPass stub batchID batchInternalID supplierID batchType isInTransit) :
    (validateBatch stub batchID productionUnitID batchInternalID supplierID batchType
        batchComposition quantity finalScore isInTransit).1 =
      .ret (if NeverExceeds batchComposition ∧
            runningSum batchComposition = F32.ofInt 100 then
          if quantity.lt (F32.ofInt 0) = true then (false, some errQuantity)
          else if validateScore finalScore = (true, none) then (true, none)
          else (false, some errScores)
        else (false, some errComposition)) := by
  obtain ⟨hid, hread, hint, hsup, htr, htype⟩ := h
  subst htr
  rw [validateBatch_of_read _ _ _ _ _ _ _ _ _ _ hid hread,
    checkFields_of_earlier _ _ _ _ _ _ hint hsup htype]

theorem errQuantity_ne_errComposition : errQuantity ≠ errComposition := by decide

theorem errScores_ne_errComposition : errScores ≠ errComposition := by decide


/-- Every result of the statements after the store read. -/
theorem checkFields_mem (batchInternalID supplierID batchType : GoString)
    (batchComposition : List (GoString × F32)) (quantity finalScore : F32)
    (isInTransit : Bool) :
    checkFields batchInternalID supplierID batchType batchComposition quantity finalScore
        isInTransit ∈
      [(true, none),
       (false, some (errorf (str "batch internal ID must not be empty"))),
       (false, some (errorf (str "supplier ID must not be empty"))),
       (false, some (errorf (str "batch must not be in transit"))),
       (false, some errBatchType), (false, some errComposition), (false, some errQuantity),
       (false, some errScores)] := by
  unfold checkFields
  repeat' split
  all_goals first
    | (rename_i hv
       rcases validateScore_cases finalScore with h | h
       · rw [h] at hv
         simp at hv
       · rw [h] at hv
         simp only [Prod.mk.injEq, true_and] at hv
         subst hv
         simp [errScores, errorfWNil])
    | simp [errBatchType, errQuantity]

theorem errorfW_read_ne_errBatchID (err : GoError) :
    errorfW (str "could not read batch from world state: ") err ≠ errBatchID := by
  simp [errorfW, errBatchID, errorf]

theorem str_batch_bracket : str "batch [" = [98, 97, 116, 99, 104, 32, 91] := by decide

theorem exists_ne_errBatchID (batchID : GoString) :
    errorf (str "batch [" ++ batchID ++ str "] already exists") ≠ errBatchID := by
  intro h
  have h2 : (errorf (str "batch [" ++ batchID ++ str "] already exists")).Error.head? =
      errBatchID.Error.head? := by rw [h]
  have h3 : errBatchID.Error.head? = some 105 := by decide
  have h4 : (errorf (str "batch [" ++ batchID ++ str "] already exists")).Error.head? =
      some 98 := by
    simp [errorf, GoError.Error, str_batch_bracket]
  rw [h3, h4] at h2
  exact absurd h2 (by decide)

theorem str_could_not_read :
    (str "could not read batch from world state: ").head? = some 99 := by decide

theorem errorfW_read_ne_errScores (err : GoError) :
    errorfW (str "could not read batch from world state: ") err ≠ errScores := by
  intro h
  simp only [errorfW, errScores, GoError.wrapError.injEq] at h
  have h2 := congrArg List.head? h.1
  have h3 : (str "could not read batch from world state: " ++ err.Error).head? = some 99 := by
    rw [List.head?_append_of_ne_nil _ (by decide)]
    exact str_could_not_read
  have h4 : (str "invalid scores: " ++ (errorf (str "invalid score")).Error).head? =
      some 105 := by decide
  rw [h3, h4] at h2
  exact absurd h2 (by decide)

theorem exists_ne_errScores (batchID : GoString) :
    errorf (str "batch [" ++ batchID ++ str "] already exists") ≠ errScores := by
  simp [errorfW, errScores, errorf]

/-- The id check of `validateBatch` on ids that are empty or have at least two bytes: the
bad-id error is returned for the empty id and for every id that does not begin with `b-`, and
never for an id that begins with `b-`. -/
theorem validateBatch_id_check (stub : Stub)
    (batchID productionUnitID batchInternalID supplierID batchType : GoString)
    (batchComposition : List (GoString × F32)) (quantity finalScore : F32)
    (isInTransit : Bool) :
    (batchID = [] ∨ (2 ≤ batchID.length ∧ batchID.take 2 ≠ str "b-") →
      (validateBatch stub batchID productionUnitID batchInternalID supplierID batchType
        batchComposition quantity finalScore isInTransit).1 =
        .ret (false, some errBatchID)) ∧
    (IdOk batchID →
      (validateBatch stub batchID productionUnitID batchInternalID supplierID batchType
        batchComposition quantity finalScore isInTransit).1 ≠
        .ret (false, some errBatchID)) := by
  refine ⟨(validateBatch_first_failure stub batchID productionUnitID batchInternalID
    supplierID batchType batchComposition quantity finalScore isInTransit _ rfl).1, ?_⟩
  rintro ⟨hlen, htake⟩
  have h0 : batchID ≠ [] := by
    intro h
    rw [h] at hlen
    simp at hlen
  have h1 : ¬ batchID.length < 2 := by omega
  rw [validateBatch_eq]
  simp only [h0, h1, htake, if_false, ne_eq, not_true_eq_false]
  rcases (stub.GetState batchID).1 with ⟨data, err⟩
  cases err with
  | some e => simpa using errorfW_read_ne_errBatchID e
  | none =>
    cases data with
    | some d => simpa using exists_ne_errBatchID batchID
    | none =>
      have hm := checkFields_mem batchInternalID supplierID batchType batchComposition
        quantity finalScore isInTransit
      simp only [Go.ret.injEq]
      intro heq
      rw [heq] at hm
      exact absurd hm (by decide)

/-- The score check of `validateBatch`: the score error is returned exactly when all eight
earlier checks pass and `validateScore` rejects the score. -/
theorem validateBatch_score_error_iff (stub : Stub)
    (batchID productionUnitID batchInternalID supplierID batchType : GoString)
    (batchComposition : List (GoString × F32)) (quantity finalScore : F32)
    (isInTransit : Bool) :
    (validateBatch stub batchID productionUnitID batchInternalID supplierID batchType
        batchComposition quantity finalScore isInTransit).1 = .ret (false, some errScores) ↔
      (EarlierChecksPass stub batchID batchInternalID supplierID batchType isInTransit ∧
        (NeverExceeds batchComposition ∧ runningSum batchComposition = F32.ofInt 100) ∧
        quantity.lt (F32.ofInt 0) = false ∧ validateScore finalScore ≠ (true, none)) := by
  have e1 : errQuantity ≠ errScores := by decide
  have e2 : errComposition ≠ errScores := by decide
  by_cases h : EarlierChecksPass stub batchID batchInternalID supplierID batchType isInTransit
  · rw [validateBatch_of_earlier _ _ _ _ _ _ _ _ _ _ h]
    split_ifs <;> simp [*, e1, e2]
  · simp only [h, false_and, iff_false]
    intro heq
    apply h
    by_cases hid : IdOk batchID
    · obtain ⟨hlen, htake⟩ := hid
      have h0 : batchID ≠ [] := by
        intro h
        rw [h] at hlen
        simp at hlen
      have h1 : ¬ batchID.length < 2 := by omega
      rw [validateBatch_eq] at heq
      simp only [h0, h1, htake, if_false, ne_eq, not_true_eq_false] at heq
      rcases hg : (stub.GetState batchID).1 with ⟨data, err⟩
      rw [hg] at heq
      cases err with
      | some e =>
        simp only [Go.ret.injEq, Prod.mk.injEq, true_and, Option.some.injEq] at heq
        exact absurd heq (errorfW_read_ne_errScores e)
      | none =>
        cases data with
        | some d =>
          simp only [Go.ret.injEq, Prod.mk.injEq, true_and, Option.some.injEq] at heq
          exact absurd heq (exists_ne_errScores batchID)
        | none =>
          simp only [Go.ret.injEq] at heq
          refine ⟨⟨hlen, htake⟩, hg, ?_⟩
          unfold checkFields at heq
          by_cases c1 : batchInternalID = str ""
          · rw [if_pos c1] at heq
            exact absurd heq (by decide)
          by_cases c2 : supplierID = str ""
          · rw [if_neg c1, if_pos c2] at heq
            exact absurd heq (by decide)
          cases isInTransit with
          | true =>
            rw [if_neg c1, if_neg c2, if_pos rfl] at heq
            exact absurd heq (by decide)
          | false =>
            by_cases c4 : batchTypeSwitch batchType = true
            · exact ⟨c1, c2, rfl, c4⟩
            · have c4f : (!batchTypeSwitch batchType) = true := by simpa using c4
              rw [if_neg c1, if_neg c2, if_neg (by simp), if_pos c4f] at heq
              exact absurd heq (by decide)
    · exfalso
      have e3 : errBatchID ≠ errScores := by decide
      rw [validateBatch_eq] at heq
      by_cases g0 : batchID = []
      · rw [if_pos g0] at heq
        simp only [Go.ret.injEq, Prod.mk.injEq, true_and, Option.some.injEq] at heq
        exact e3 heq
      · rw [if_neg g0] at heq
        by_cases g1 : batchID.length < 2
        · rw [if_pos g1] at heq
          simp at heq
        · rw [if_neg g1] at heq
          by_cases g2 : batchID.take 2 = str "b-"
          · exact hid ⟨by omega, g2⟩
          · rw [if_pos g2] at heq
            simp only [Go.ret.injEq, Prod.mk.injEq, true_and, Option.some.injEq] at heq
            exact e3 heq

/-! ## The claims -/

/-- C1 (fails on the code): `validateBatch` neither returns `(true, nil)` nor `false` with an
error on the one-byte id `b`, it panics on `batchID[0:2]`; and it returns `(true, nil)` for a
NaN quantity and a NaN score, for which `quantity >= 0` and `-10 <= score <= 10` are false. -/
theorem validateBatch_contract_fails :
    (validateBatch emptyStub (str "b") (str "pu-1") (str "int-1") (str "sup-1") (str "YARN")
      [(str "m1", F32.ofInt 60), (str "m2", F32.ofInt 40)] (F32.ofInt 5) (F32.ofInt 10)
      false).1 = Go.panic ∧
    (validateBatch emptyStub (str "b-001") (str "pu-1") (str "int-1") (str "sup-1")
      (str "YARN") [(str "m1", F32.ofInt 60), (str "m2", F32.ofInt 40)] F32.nan F32.nan
      false).1 = Go.ret (true, none) ∧
    F32.le (F32.ofInt 0) F32.nan = false ∧
    F32.le (F32.ofInt (-10)) F32.nan = false ∧ F32.le F32.nan (F32.ofInt 10) = false := by
  decide!

/-- C3 (counterexample): the percentages 150 and -50 sum to exactly 100, with and without
rounding, and every other field is valid, yet `validateBatch` rejects the composition visited
in that order, because the first partial sum exceeds 100. -/
theorem sum_hundred_rejected :
    runningSum [(str "m1", F32.ofInt 150), (str "m2", F32.ofInt (-50))] = F32.ofInt 100 ∧
    exactSum [(str "m1", F32.ofInt 150), (str "m2", F32.ofInt (-50))] = some (100 * 2 ^ 149) ∧
    OtherChecksPass emptyStub (str "b-001") (str "int-1") (str "sup-1") (str "YARN")
      (F32.ofInt 5) (F32.ofInt 10) false ∧
    (validateBatch emptyStub (str "b-001") (str "pu-1") (str "int-1") (str "sup-1")
      (str "YARN") [(str "m1", F32.ofInt 150), (str "m2", F32.ofInt (-50))] (F32.ofInt 5)
      (F32.ofInt 10) false).1 = .ret (false, some errComposition) := by
  decide!

/-- C3 (amended): a composition whose running sum never exceeds 100 at any prefix and is
exactly 100 at the end is accepted when every other check passes. -/
theorem composition_accepted (stub : Stub)
    (batchID productionUnitID batchInternalID supplierID batchType : GoString)
    (batchComposition : List (GoString × F32)) (quantity finalScore : F32)
    (isInTransit : Bool)
    (h : OtherChecksPass stub batchID batchInternalID supplierID batchType quantity finalScore
      isInTransit)
    (hpre : NeverExceeds batchComposition)
    (hsum : runningSum batchComposition = F32.ofInt 100) :
    (validateBatch stub batchID productionUnitID batchInternalID supplierID batchType
      batchComposition quantity finalScore isInTransit).1 = .ret (true, none) :=
  (validateBatch_true_iff stub batchID productionUnitID batchInternalID supplierID batchType
    batchComposition quantity finalScore isInTransit).2 ⟨h, hpre, hsum⟩

/-- Witness of C3 (amended): the composition `m1: 60, m2: 40` never exceeds 100, ends at 100
and is accepted. -/
theorem composition_accepted_witness :
    NeverExceeds [(str "m1", F32.ofInt 60), (str "m2", F32.ofInt 40)] ∧
    runningSum [(str "m1", F32.ofInt 60), (str "m2", F32.ofInt 40)] = F32.ofInt 100 ∧
    (validateBatch emptyStub (str "b-001") (str "pu-1") (str "int-1") (str "sup-1")
      (str "YARN") [(str "m1", F32.ofInt 60), (str "m2", F32.ofInt 40)] (F32.ofInt 5)
      (F32.ofInt 10) false).1 = .ret (true, none) :=
  ⟨by decide!, by decide!,
   composition_accepted emptyStub (str "b-001") (str "pu-1") (str "int-1") (str "sup-1")
    (str "YARN") [(str "m1", F32.ofInt 60), (str "m2", F32.ofInt 40)] (F32.ofInt 5)
    (F32.ofInt 10) false (by decide!) (by decide!) (by decide!)⟩

/-- The running sum is a `float32` sum: 100 plus 2⁻¹⁹ rounds to 100, so this composition is
accepted although its exact sum is above 100. -/
theorem running_sum_rounds :
    F32.isFloat32 (F32.fin (2 ^ 130)) = true ∧
    exactSum [(str "m1", F32.ofInt 100), (str "m2", F32.fin (2 ^ 130))] =
      some (100 * 2 ^ 149 + 2 ^ 130) ∧
    runningSum [(str "m1", F32.ofInt 100), (str "m2", F32.fin (2 ^ 130))] = F32.ofInt 100 ∧
    (validateBatch emptyStub (str "b-001") (str "pu-1") (str "int-1") (str "sup-1")
      (str "YARN") [(str "m1", F32.ofInt 100), (str "m2", F32.fin (2 ^ 130))] (F32.ofInt 5)
      (F32.ofInt 10) false).1 = .ret (true, none) := by
  decide!

/-- C4 (fails on the code): the id `x` violates the first check, and `validateBatch` returns
no error for it, bad-id-format or other: it panics. -/
theorem validateBatch_order_fails :
    (validateBatch emptyStub (str "x") (str "pu-1") (str "int-1") (str "") (str "YARN")
      [(str "m1", F32.ofInt 60), (str "m2", F32.ofInt 40)] (F32.ofInt 5) (F32.ofInt 10)
      false).1 = Go.panic ∧
    (validateBatch emptyStub (str "x") (str "pu-1") (str "int-1") (str "") (str "YARN")
      [(str "m1", F32.ofInt 60), (str "m2", F32.ofInt 40)] (F32.ofInt 5) (F32.ofInt 10)
      false).1 ≠ Go.ret (false, some errBatchID) ∧
    (validateBatch emptyStub (str "x-001") (str "pu-1") (str "int-1") (str "") (str "YARN")
      [(str "m1", F32.ofInt 60), (str "m2", F32.ofInt 40)] (F32.ofInt 5) (F32.ofInt 10)
      false).1 = Go.ret (false, some errBatchID) := by
  decide!

/-- C5 (fails on the code): on every id of exactly one byte, such as `b` or `x`,
`validateBatch` panics on the slice `batchID[0:2]` and returns no error at all. -/
theorem validateBatch_one_byte_id (stub : Stub) (b : Byte)
    (productionUnitID batchInternalID supplierID batchType : GoString)
    (batchComposition : List (GoString × F32)) (quantity finalScore : F32)
    (isInTransit : Bool) :
    (validateBatch stub [b] productionUnitID batchInternalID supplierID batchType
      batchComposition quantity finalScore isInTransit).1 = Go.panic := by
  rw [validateBatch_eq]
  simp

/-- C6 (counterexample): `FIBER` is a member of the enum `BatchType` of `batch.go`, and
`validateBatch` rejects it as an unknown type; `GARMENT` is no member of that enum, and
`validateBatch` accepts it. -/
theorem fiber_rejected_garment_accepted :
    str "FIBER" ∈ batchGoBatchTypes ∧
    (validateBatch emptyStub (str "b-001") (str "pu-1") (str "int-1") (str "sup-1")
      (str "FIBER") [(str "m1", F32.ofInt 60), (str "m2", F32.ofInt 40)] (F32.ofInt 5)
      (F32.ofInt 10) false).1 = .ret (false, some errBatchType) ∧
    str "GARMENT" ∉ batchGoBatchTypes ∧
    (validateBatch emptyStub (str "b-001") (str "pu-1") (str "int-1") (str "sup-1")
      (str "GARMENT") [(str "m1", F32.ofInt 60), (str "m2", F32.ofInt 40)] (F32.ofInt 5)
      (F32.ofInt 10) false).1 = .ret (true, none) := by
  decide!

/-- C6 (amended): once the five earlier checks have passed, `validateBatch` returns the
unknown-type error if and only if `batchType` is none of the 23 names `CONVENTIONAL_COTTON`,
..., `GARMENT`; these are exactly the names that `validateBatchType` maps to a constant of
`domain.BatchType`, and of the enum of `batch.go` they contain only `YARN` and
`DYED_FABRIC`. -/
theorem batchType_check (stub : Stub)
    (batchID productionUnitID batchInternalID supplierID batchType : GoString)
    (batchComposition : List (GoString × F32)) (quantity finalScore : F32)
    (isInTransit : Bool) (hid : IdOk batchID)
    (hread : (stub.GetState batchID).1 = (none, none))
    (hint : batchInternalID ≠ str "") (hsup : supplierID ≠ str "")
    (htr : isInTransit = false) :
    ((validateBatch stub batchID productionUnitID batchInternalID supplierID batchType
        batchComposition quantity finalScore isInTransit).1 =
        .ret (false, some errBatchType) ↔ batchType ∉ batchTypeNames) ∧
    (batchType ∈ batchTypeNames ↔ (validateBatchType batchType).2 = none) ∧
    (∀ t ∈ batchGoBatchTypes, t ∈ batchTypeNames → t = str "YARN" ∨ t = str "DYED_FABRIC") := by
  refine ⟨?_, (validateBatchType_iff batchType).symm, by decide!⟩
  rw [← batchTypeSwitch_iff]
  by_cases htype : batchTypeSwitch batchType = true
  · rw [validateBatch_of_earlier _ _ _ _ _ _ _ _ _ _ ⟨hid, hread, hint, hsup, htr, htype⟩]
    have e1 : errQuantity ≠ errBatchType := by decide
    have e2 : errScores ≠ errBatchType := by decide
    have e3 : errComposition ≠ errBatchType := by decide
    split_ifs <;> simp [htype, e1, e2, e3]
  · have hf : batchTypeSwitch batchType = false := by simpa using htype
    have := ((validateBatch_first_failure stub batchID productionUnitID batchInternalID
      supplierID batchType batchComposition quantity finalScore isInTransit _ rfl).2.2.2
      hid hread).2.2.2 hint hsup htr
    rw [this.1 hf]
    simp [htype, errBatchType]

/-- Witness of C6 (amended): `MESH`, a name of the enum of `batch.go`, is rejected. -/
theorem batchType_check_witness :
    (validateBatch emptyStub (str "b-001") (str "pu-1") (str "int-1") (str "sup-1")
      (str "MESH") [(str "m1", F32.ofInt 60), (str "m2", F32.ofInt 40)] (F32.ofInt 5)
      (F32.ofInt 10) false).1 = .ret (false, some errBatchType) :=
  (batchType_check emptyStub (str "b-001") (str "pu-1") (str "int-1") (str "sup-1")
    (str "MESH") [(str "m1", F32.ofInt 60), (str "m2", F32.ofInt 40)] (F32.ofInt 5)
    (F32.ofInt 10) false (by decide) (by decide) (by decide) (by decide) rfl).1.2 (by decide)

/-- C7 (fails on the code): `validateScore` returns `(true, nil)` for the score NaN, which
does not satisfy `-10 <= s` nor `s <= 10`, and `validateBatch` accepts a batch with that
score. -/
theorem validateScore_accepts_nan :
    validateScore F32.nan = (true, none) ∧
    F32.le (F32.ofInt (-10)) F32.nan = false ∧ F32.le F32.nan (F32.ofInt 10) = false ∧
    (validateBatch emptyStub (str "b-001") (str "pu-1") (str "int-1") (str "sup-1")
      (str "YARN") [(str "m1", F32.ofInt 60), (str "m2", F32.ofInt 40)] (F32.ofInt 5)
      F32.nan false).1 = .ret (true, none) := by
  decide!

/-- The bounds of `validateScore` are inclusive: 10 and -10 are accepted, the `float32`
values of 10.0001 and -10.0001 are rejected. -/
theorem validateScore_bounds :
    validateScore (F32.ofInt 10) = (true, none) ∧
    validateScore (F32.ofInt (-10)) = (true, none) ∧
    validateScore (F32.ofDecimal 100001 4) = (false, some (errorf (str "invalid score"))) ∧
    validateScore (F32.ofDecimal (-100001) 4) =
      (false, some (errorf (str "invalid score"))) := by
  decide!

/-- C8 (counterexample): the composition `m1: 60, m2: 50` overflows at 110, the composition
`m1: 60, m2: 30` never exceeds 100 and ends at 90, and `validateBatch` returns the same result
for both, with the same error. -/
theorem composition_errors_equal :
    ¬ NeverExceeds [(str "m1", F32.ofInt 60), (str "m2", F32.ofInt 50)] ∧
    NeverExceeds [(str "m1", F32.ofInt 60), (str "m2", F32.ofInt 30)] ∧
    runningSum [(str "m1", F32.ofInt 60), (str "m2", F32.ofInt 30)] ≠ F32.ofInt 100 ∧
    (validateBatch emptyStub (str "b-001") (str "pu-1") (str "int-1") (str "sup-1")
      (str "YARN") [(str "m1", F32.ofInt 60), (str "m2", F32.ofInt 50)] (F32.ofInt 5)
      (F32.ofInt 10) false).1 =
    (validateBatch emptyStub (str "b-001") (str "pu-1") (str "int-1") (str "sup-1")
      (str "YARN") [(str "m1", F32.ofInt 60), (str "m2", F32.ofInt 30)] (F32.ofInt 5)
      (F32.ofInt 10) false).1 := by
  decide!

/-- C8 (amended): for every composition with a prefix whose running sum exceeds 100 and every
composition that never exceeds 100 but does not end at exactly 100, `validateBatch` returns
`false` with one and the same error, whose text is "batch composition percentage sum should
be equal to 100", once the six earlier checks have passed. -/
theorem composition_errors_same (stub : Stub)
    (batchID productionUnitID batchInternalID supplierID batchType : GoString)
    (overflowing mismatching : List (GoString × F32)) (quantity finalScore : F32)
    (isInTransit : Bool)
    (h : EarlierChecksPass stub batchID batchInternalID supplierID batchType isInTransit)
    (hover : ¬ NeverExceeds overflowing) (hnever : NeverExceeds mismatching)
    (hsum : runningSum mismatching ≠ F32.ofInt 100) :
    (validateBatch stub batchID productionUnitID batchInternalID supplierID batchType
        overflowing quantity finalScore isInTransit).1 = .ret (false, some errComposition) ∧
    (validateBatch stub batchID productionUnitID batchInternalID supplierID batchType
        mismatching quantity finalScore isInTransit).1 = .ret (false, some errComposition) ∧
    errComposition.Error = str "batch composition percentage sum should be equal to 100" := by
  have _ := hnever
  refine ⟨?_, ?_, rfl⟩
  · rw [validateBatch_of_earlier _ _ _ _ _ _ _ _ _ _ h, if_neg (fun hc => hover hc.1)]
  · rw [validateBatch_of_earlier _ _ _ _ _ _ _ _ _ _ h, if_neg (fun hc => hsum hc.2)]

/-- Witness of C8 (amended) on `m1: 70, m2: 40` (overflow) and `m1: 10` (mismatch). -/
theorem composition_errors_same_witness :
    (validateBatch emptyStub (str "b-001") (str "pu-1") (str "int-1") (str "sup-1")
      (str "YARN") [(str "m1", F32.ofInt 70), (str "m2", F32.ofInt 40)] (F32.ofInt 5)
      (F32.ofInt 10) false).1 = .ret (false, some errComposition) ∧
    (validateBatch emptyStub (str "b-001") (str "pu-1") (str "int-1") (str "sup-1")
      (str "YARN") [(str "m1", F32.ofInt 10)] (F32.ofInt 5) (F32.ofInt 10) false).1 =
      .ret (false, some errComposition) :=
  have h := composition_errors_same emptyStub (str "b-001") (str "pu-1") (str "int-1")
    (str "sup-1") (str "YARN") [(str "m1", F32.ofInt 70), (str "m2", F32.ofInt 40)]
    [(str "m1", F32.ofInt 10)] (F32.ofInt 5) (F32.ofInt 10) false (by decide!) (by decide!)
    (by decide!) (by decide!)
  ⟨h.1, h.2.1⟩

/-- C9: `validateBatch` leaves the store as it found it, whatever it returns: the world state
and the store's failure behaviour after the call are those before it, and the call issues
either no stub call at all or the single read `GetState(batchID)`, never a put or a delete. -/
theorem validateBatch_store_unchanged (stub : Stub)
    (batchID productionUnitID batchInternalID supplierID batchType : GoString)
    (batchComposition : List (GoString × F32)) (quantity finalScore : F32)
    (isInTransit : Bool) :
    (validateBatch stub batchID productionUnitID batchInternalID supplierID batchType
        batchComposition quantity finalScore isInTransit).2.world = stub.world ∧
    (validateBatch stub batchID productionUnitID batchInternalID supplierID batchType
        batchComposition quantity finalScore isInTransit).2.fault = stub.fault ∧
    ((validateBatch stub batchID productionUnitID batchInternalID supplierID batchType
        batchComposition quantity finalScore isInTransit).2.calls = stub.calls ∨
     (validateBatch stub batchID productionUnitID batchInternalID supplierID batchType
        batchComposition quantity finalScore isInTransit).2.calls =
        stub.calls ++ [StubCall.GetState batchID]) := by
  rw [validateBatch_eq]
  split_ifs
  · exact ⟨rfl, rfl, Or.inl rfl⟩
  · exact ⟨rfl, rfl, Or.inl rfl⟩
  · exact ⟨rfl, rfl, Or.inl rfl⟩
  · rcases (stub.GetState batchID).1 with ⟨data, err⟩
    cases err with
    | some e => simp [GetState_stub]
    | none => cases data <;> simp [GetState_stub]

/-- C10: `BatchExists` returns `(true, nil)` exactly when the store read succeeds with a
value, `(false, nil)` when the read succeeds without a value, and `false` with the store's own
error when the read fails; it issues that one read and leaves the world state as it was. -/
theorem BatchExists_spec (stub : Stub) (batchID : GoString) :
    ((BatchExists stub batchID).1 = (true, none) ↔
      ∃ data, (stub.GetState batchID).1 = (some data, none)) ∧
    ((stub.GetState batchID).1 = (none, none) → (BatchExists stub batchID).1 = (false, none)) ∧
    (∀ data err, (stub.GetState batchID).1 = (data, some err) →
      (BatchExists stub batchID).1 = (false, some err)) ∧
    (BatchExists stub batchID).2 = (stub.GetState batchID).2 ∧
    (BatchExists stub batchID).2.world = stub.world := by
  unfold BatchExists
  rcases hg : stub.GetState batchID with ⟨⟨data, err⟩, stub1⟩
  have hw : stub1.world = stub.world := by
    have := GetState_stub stub batchID
    rw [hg] at this
    simp only at this
    rw [this]
  cases err with
  | some e => simp [hw]
  | none => cases data <;> simp [hw]

/-- The three cases of the repository's test of the existence check, on the stub of that
test. -/
theorem BatchExists_test :
    (BatchExists testStub (str "statebad")).1 =
      (false, some (errorf (str "world state get error"))) ∧
    (BatchExists testStub (str "missingkey")).1 = (false, none) ∧
    (BatchExists testStub (str "existingkey")).1 = (true, none) := by
  decide


/-! ## The registry: `BatchExists`, `ReadBatch`, `DeleteBatch` -/

theorem BatchExists_eq (stub : Stub) (batchID : GoString) :
    BatchExists stub batchID =
      (match stub.fault stub.calls (StubCall.GetState batchID) with
        | some err => (false, some err)
        | none => ((stub.world.lookup batchID).isSome, none),
       stub.logged [StubCall.GetState batchID]) := by
  unfold BatchExists Stub.GetState Stub.logged
  cases stub.fault stub.calls (StubCall.GetState batchID) <;> rfl

theorem lookup_filter_ne (world : List (GoString × List Byte)) (key : GoString) :
    (world.filter (fun kv => kv.1 ≠ key)).lookup key = none := by
  induction world with
  | nil => rfl
  | cons kv rest ih =>
    obtain ⟨k, v⟩ := kv
    rw [List.filter_cons]
    by_cases h : k = key
    · have hd : decide ((k, v).1 ≠ key) = false := by simp [h]
      simp only [hd, Bool.false_eq_true, if_false]
      exact ih
    · have hd : decide ((k, v).1 ≠ key) = true := by simp [h]
      have hb : (key == k) = false := by
        simpa using fun h2 => h h2.symm
      simp only [hd, if_true, List.lookup, hb]
      exact ih

theorem lookup_filter_other (world : List (GoString × List Byte)) (key other : GoString)
    (h : other ≠ key) :
    (world.filter (fun kv => kv.1 ≠ key)).lookup other = world.lookup other := by
  induction world with
  | nil => rfl
  | cons kv rest ih =>
    obtain ⟨k, v⟩ := kv
    rw [List.filter_cons]
    by_cases hk : k = key
    · have hd : decide ((k, v).1 ≠ key) = false := by simp [hk]
      have hb : (other == k) = false := by
        simpa [hk] using h
      simp only [hd, Bool.false_eq_true, if_false, List.lookup, hb]
      exact ih
    · have hd : decide ((k, v).1 ≠ key) = true := by simp [hk]
      simp only [hd, if_true, List.lookup]
      cases other == k
      · exact ih
      · rfl

/-- The normal form of `ReadBatch`: the existence read, then a second read whose error is
dropped, then the decoder. -/
theorem ReadBatch_eq (unmarshal : List Byte → Result Batch) (stub : Stub)
    (batchID : GoString) :
    ReadBatch unmarshal stub batchID =
      match stub.fault stub.calls (StubCall.GetState batchID) with
      | some err => ((none, some (errRead err)), stub.logged [StubCall.GetState batchID])
      | none =>
        match stub.world.lookup batchID with
        | none => ((none, some (errNotFound batchID)), stub.logged [StubCall.GetState batchID])
        | some value =>
          ((match unmarshal
              (match stub.fault (stub.calls ++ [StubCall.GetState batchID])
                  (StubCall.GetState batchID) with
                | some _ => []
                | none => value) with
            | .fail _ => (none, some errUnmarshal)
            | .ok batch => (some batch, none)),
           stub.logged [StubCall.GetState batchID, StubCall.GetState batchID]) := by
  unfold ReadBatch
  rw [BatchExists_eq]
  cases h1 : stub.fault stub.calls (StubCall.GetState batchID) with
  | some err => rfl
  | none =>
    cases h2 : stub.world.lookup batchID with
    | none => rfl
    | some value =>
      simp only [Option.isSome_some, Stub.GetState, Stub.logged]
      cases h3 : stub.fault (stub.calls ++ [StubCall.GetState batchID])
          (StubCall.GetState batchID) with
      | some e =>
        simp only [Option.getD_none]
        cases unmarshal [] <;> simp [errUnmarshal]
      | none =>
        simp only [h2, Option.getD_some]
        cases unmarshal value <;> simp [errUnmarshal]

/-- The contract of `ReadBatch` on a store whose second read of the key fails or succeeds
as the first did: the four outcomes of the claim, and an unchanged world state. -/
theorem ReadBatch_spec (unmarshal : List Byte → Result Batch) (stub : Stub)
    (batchID : GoString)
    (hstable : stub.fault (stub.calls ++ [StubCall.GetState batchID])
        (StubCall.GetState batchID) =
      stub.fault stub.calls (StubCall.GetState batchID)) :
    (∀ err, stub.fault stub.calls (StubCall.GetState batchID) = some err →
      (ReadBatch unmarshal stub batchID).1 = (none, some (errRead err))) ∧
    (stub.fault stub.calls (StubCall.GetState batchID) = none →
      ((ReadBatch unmarshal stub batchID).1 = (none, some (errNotFound batchID)) ↔
        stub.world.lookup batchID = none) ∧
      (∀ value, stub.world.lookup batchID = some value →
        (∀ e, unmarshal value = .fail e →
          (ReadBatch unmarshal stub batchID).1 = (none, some errUnmarshal)) ∧
        (∀ batch, unmarshal value = .ok batch →
          (ReadBatch unmarshal stub batchID).1 = (some batch, none)))) ∧
    (ReadBatch unmarshal stub batchID).2.world = stub.world := by
  have e1 : errUnmarshal ≠ errNotFound batchID := by
    intro h
    have h2 := congrArg (fun e => e.Error.head?) h
    have h3 : (errNotFound batchID).Error.head? = some 91 := by
      have : str "[" = [91] := by decide
      simp [errNotFound, errorf, GoError.Error, this]
    have h4 : errUnmarshal.Error.head? = some 99 := by decide
    simp only [h3, h4] at h2
    exact absurd h2 (by decide)
  rw [ReadBatch_eq]
  refine ⟨?_, ?_, ?_⟩
  · intro err h
    simp [h]
  · intro h
    simp only [h, hstable]
    refine ⟨?_, ?_⟩
    · cases h2 : stub.world.lookup batchID with
      | none => simp
      | some value =>
        simp only [reduceCtorEq, iff_false]
        cases unmarshal value with
        | ok b => simp
        | fail e => simpa using e1
    · intro value hv
      simp only [hv]
      refine ⟨?_, ?_⟩
      · intro e he
        simp [he]
      · intro batch hb
        simp [hb]
  · cases stub.fault stub.calls (StubCall.GetState batchID) with
    | some err => rfl
    | none =>
      cases stub.world.lookup batchID with
      | none => rfl
      | some value => rfl

/-- The normal form of `DeleteBatch`. -/
theorem DeleteBatch_eq (stub : Stub) (batchID : GoString) :
    DeleteBatch stub batchID =
      match stub.fault stub.calls (StubCall.GetState batchID) with
      | some err => ((str "", some (errRead err)), stub.logged [StubCall.GetState batchID])
      | none =>
        match stub.world.lookup batchID with
        | none =>
          ((str "", some (errNotFound batchID)), stub.logged [StubCall.GetState batchID])
        | some _ =>
          match stub.fault (stub.calls ++ [StubCall.GetState batchID])
              (StubCall.DelState batchID) with
          | some err =>
            ((str "",
              some (errorf (str "could not delete batch from world state. " ++ err.Error))),
             stub.logged [StubCall.GetState batchID, StubCall.DelState batchID])
          | none =>
            ((str "[" ++ batchID ++ str "] deleted successfully", none),
             { stub.logged [StubCall.GetState batchID, StubCall.DelState batchID] with
               world := stub.world.filter (fun kv => kv.1 ≠ batchID) }) := by
  unfold DeleteBatch
  rw [BatchExists_eq]
  cases h1 : stub.fault stub.calls (StubCall.GetState batchID) with
  | some err => rfl
  | none =>
    cases h2 : stub.world.lookup batchID with
    | none => rfl
    | some value =>
      simp only [Option.isSome_some, Stub.DelState, Stub.logged]
      cases h3 : stub.fault (stub.calls ++ [StubCall.GetState batchID])
          (StubCall.DelState batchID) with
      | some e => simp
      | none => simp


theorem GetState_fst (stub : Stub) (key : GoString) :
    (stub.GetState key).1 =
      match stub.fault stub.calls (StubCall.GetState key) with
      | some err => (none, some err)
      | none => (stub.world.lookup key, none) := by
  unfold Stub.GetState
  cases stub.fault stub.calls (StubCall.GetState key) <;> rfl

/-- Whenever the second read of `ReadBatch` fails, the stored value is not looked at: the
result is that of decoding the empty text, so with a decoder that rejects the empty text it is
the deserialization error. -/
theorem ReadBatch_second_read_fails (unmarshal : List Byte → Result Batch) (stub : Stub)
    (batchID : GoString) (value : List Byte) (err e : GoError)
    (hfirst : (stub.GetState batchID).1 = (some value, none))
    (hsecond : ((stub.GetState batchID).2.GetState batchID).1 = (none, some err))
    (hempty : unmarshal [] = .fail e) :
    (ReadBatch unmarshal stub batchID).1 = (none, some errUnmarshal) := by
  rw [GetState_fst] at hfirst
  rw [GetState_stub, GetState_fst] at hsecond
  rw [ReadBatch_eq]
  cases h1 : stub.fault stub.calls (StubCall.GetState batchID) with
  | some e1 =>
    rw [h1] at hfirst
    simp at hfirst
  | none =>
    rw [h1] at hfirst
    simp only [Prod.mk.injEq, and_true] at hfirst
    simp only [hfirst]
    cases h2 : stub.fault (stub.calls ++ [StubCall.GetState batchID])
        (StubCall.GetState batchID) with
    | some e2 => simp [hempty]
    | none =>
      simp only [h2] at hsecond
      simp at hsecond

/-! ## The claims on the registry -/

/-- C11 (fails on the code): the store holds at `b-100` a value that parses, the first read
of it succeeds and the second fails; `ReadBatch` drops the error of that read and returns the
deserialization error, neither the batch nor an error that carries the store's error. -/
theorem ReadBatch_drops_read_error :
    (flakyStub.GetState (str "b-100")).1 = (some (sampleDoc (str "b-100")), none) ∧
    sampleUnmarshal (sampleDoc (str "b-100")) = .ok (sampleBatch (str "b-100")) ∧
    ((flakyStub.GetState (str "b-100")).2.GetState (str "b-100")).1 =
      (none, some (errorf (str "world state get error"))) ∧
    (ReadBatch sampleUnmarshal flakyStub (str "b-100")).1 = (none, some errUnmarshal) := by
  decide

/-- C12: after a successful `DeleteBatch(id)`, in every later state of the store with the
same world state, `BatchExists(id)` returns false, and when the store's read does not fail
`BatchExists(id)` returns `(false, nil)` and `ReadBatch(id)` fails with the not-found
error. -/
theorem delete_then_read (unmarshal : List Byte → Result Batch) (stub later : Stub)
    (batchID : GoString)
    (hdel : (DeleteBatch stub batchID).1.2 = none)
    (hlater : later.world = (DeleteBatch stub batchID).2.world) :
    (BatchExists later batchID).1.1 = false ∧
    (later.fault later.calls (StubCall.GetState batchID) = none →
      (BatchExists later batchID).1 = (false, none) ∧
      (ReadBatch unmarshal later batchID).1 = (none, some (errNotFound batchID))) := by
  have hlook : later.world.lookup batchID = none := by
    rw [hlater, DeleteBatch_eq]
    rw [DeleteBatch_eq] at hdel
    cases h1 : stub.fault stub.calls (StubCall.GetState batchID) with
    | some err =>
      rw [h1] at hdel
      simp at hdel
    | none =>
      rw [h1] at hdel
      cases h2 : stub.world.lookup batchID with
      | none =>
        rw [h2] at hdel
        simp at hdel
      | some value =>
        rw [h2] at hdel
        cases h3 : stub.fault (stub.calls ++ [StubCall.GetState batchID])
            (StubCall.DelState batchID) with
        | some e =>
          rw [h3] at hdel
          simp at hdel
        | none => exact lookup_filter_ne stub.world batchID
  rw [BatchExists_eq, ReadBatch_eq]
  refine ⟨?_, ?_⟩
  · cases later.fault later.calls (StubCall.GetState batchID) with
    | some err => rfl
    | none => simp [hlook]
  · intro hok
    simp [hok, hlook]

/-- Witness of C12: deleting `b-100` from the sample store, then reading it. -/
theorem delete_then_read_witness :
    (DeleteBatch sampleStub (str "b-100")).1 =
      (str "[b-100] deleted successfully", none) ∧
    (BatchExists (DeleteBatch sampleStub (str "b-100")).2 (str "b-100")).1 = (false, none) ∧
    (ReadBatch sampleUnmarshal (DeleteBatch sampleStub (str "b-100")).2 (str "b-100")).1 =
      (none, some (errNotFound (str "b-100"))) :=
  have h := delete_then_read sampleUnmarshal sampleStub (DeleteBatch sampleStub (str "b-100")).2
    (str "b-100") (by decide) rfl
  ⟨by decide, (h.2 (by decide)).1, (h.2 (by decide)).2⟩

/-- C13: when the store has no value at the id, `DeleteBatch` fails with the not-found error,
and when the existence read fails it fails with an error made of the store's error; in both
cases the only call it issues is that read, no delete, and the world state is unchanged. Every
failing `DeleteBatch` leaves the world state unchanged. -/
theorem DeleteBatch_atomic_on_failure (stub : Stub) (batchID : GoString) :
    ((stub.GetState batchID).1 = (none, none) →
      (DeleteBatch stub batchID).1 = (str "", some (errNotFound batchID)) ∧
      (DeleteBatch stub batchID).2 = stub.logged [StubCall.GetState batchID]) ∧
    (∀ data err, (stub.GetState batchID).1 = (data, some err) →
      (DeleteBatch stub batchID).1 = (str "", some (errRead err)) ∧
      (DeleteBatch stub batchID).2 = stub.logged [StubCall.GetState batchID]) ∧
    (stub.logged [StubCall.GetState batchID]).world = stub.world ∧
    ((DeleteBatch stub batchID).1.2 ≠ none →
      (DeleteBatch stub batchID).2.world = stub.world) := by
  rw [GetState_fst, DeleteBatch_eq]
  refine ⟨?_, ?_, rfl, ?_⟩
  · intro h
    cases h1 : stub.fault stub.calls (StubCall.GetState batchID) with
    | some err =>
      rw [h1] at h
      simp at h
    | none =>
      rw [h1] at h
      simp only [Prod.mk.injEq, and_true] at h
      simp [h]
  · intro data err h
    cases h1 : stub.fault stub.calls (StubCall.GetState batchID) with
    | some e =>
      rw [h1] at h
      simp only [Prod.mk.injEq, Option.some.injEq] at h
      simp [h.2]
    | none =>
      rw [h1] at h
      simp at h
  · intro h
    cases h1 : stub.fault stub.calls (StubCall.GetState batchID) with
    | some e => rfl
    | none =>
      rw [h1] at h
      cases h2 : stub.world.lookup batchID with
      | none => rfl
      | some value =>
        rw [h2] at h
        cases h3 : stub.fault (stub.calls ++ [StubCall.GetState batchID])
            (StubCall.DelState batchID) with
        | some e => rfl
        | none =>
          rw [h3] at h
          simp at h


/-! ## Iterators: the query loop -/

theorem logged_logged (stub : Stub) (cs ds : List StubCall) :
    (stub.logged cs).logged ds = stub.logged (cs ++ ds) := by
  simp [Stub.logged, List.append_assoc]

theorem logged_nil (stub : Stub) : stub.logged [] = stub := by
  simp [Stub.logged]

theorem Next_eq (stub : Stub) : stub.Next = stub.logged [StubCall.Next] := rfl

theorem Close_eq (stub : Stub) : stub.Close = stub.logged [StubCall.Close] := rfl

/-- The query loop only adds calls of `Next` to the log, at most one per outcome of the
iterator, and one per outcome when it ends without error. -/
theorem queryLoop_stub (unmarshal : List Byte → Result Batch) (it : List (Result KV)) :
    ∀ (batches : List Batch) (stub : Stub),
      ∃ n, n ≤ it.length ∧
        (queryLoop unmarshal it batches stub).2 =
          stub.logged (List.replicate n StubCall.Next) ∧
        ((queryLoop unmarshal it batches stub).1.2 = none → n = it.length) := by
  induction it with
  | nil =>
    intro batches stub
    exact ⟨0, le_refl _, by simp [queryLoop, logged_nil], fun _ => rfl⟩
  | cons next rest ih =>
    intro batches stub
    cases next with
    | fail err =>
      refine ⟨1, by simp, by simp [queryLoop, Next_eq], ?_⟩
      simp [queryLoop]
    | ok queryResult =>
      cases hu : unmarshal queryResult.Value with
      | fail err =>
        refine ⟨1, by simp, by simp [queryLoop, hu, Next_eq], ?_⟩
        simp [queryLoop, hu]
      | ok batch =>
        obtain ⟨n, hn, hstub, hlen⟩ := ih (batches ++ [batch]) stub.Next
        refine ⟨n + 1, by simpa using hn, ?_, ?_⟩
        · simp only [queryLoop, hu]
          rw [hstub, Next_eq, logged_logged]
          rfl
        · simp only [queryLoop, hu]
          intro h
          rw [hlen h]
          rfl

/-- When every outcome of the iterator is a result whose value parses, the query loop returns
the batches collected before followed by one batch per outcome, in order, and no error. -/
theorem queryLoop_ok (unmarshal : List Byte → Result Batch) (it : List (Result KV)) :
    ∀ (batches : List Batch) (stub : Stub),
      (∀ o ∈ it, ∃ b, decodeResult unmarshal o = .ok b) →
      ∃ bs, (queryLoop unmarshal it batches stub).1 = (batches ++ bs, none) ∧
        bs.map Result.ok = it.map (decodeResult unmarshal) := by
  induction it with
  | nil =>
    intro batches stub _
    exact ⟨[], by simp [queryLoop], rfl⟩
  | cons next rest ih =>
    intro batches stub h
    obtain ⟨b, hb⟩ := h next (List.mem_cons_self _ _)
    cases next with
    | fail err => simp [decodeResult] at hb
    | ok queryResult =>
      simp only [decodeResult] at hb
      obtain ⟨bs, hbs, hmap⟩ := ih (batches ++ [b]) stub.Next
        (fun o ho => h o (List.mem_cons_of_mem _ ho))
      refine ⟨b :: bs, ?_, ?_⟩
      · simp only [queryLoop, hb]
        rw [hbs]
        simp
      · simp [hmap, decodeResult, hb]

/-- When some outcome of the iterator is an iteration error or a result whose value does not
parse, the query loop returns the nil slice and the error of the first such outcome. -/
theorem queryLoop_fail (unmarshal : List Byte → Result Batch) (it : List (Result KV)) :
    ∀ (batches : List Batch) (stub : Stub),
      (∃ o ∈ it, ∃ e, decodeResult unmarshal o = .fail e) →
      ∃ before failing after err, it = before ++ failing :: after ∧
        (∀ o ∈ before, ∃ b, decodeResult unmarshal o = .ok b) ∧
        decodeResult unmarshal failing = .fail err ∧
        (queryLoop unmarshal it batches stub).1 = ([], some err) := by
  induction it with
  | nil =>
    rintro batches stub ⟨o, ho, _⟩
    simp at ho
  | cons next rest ih =>
    rintro batches stub ⟨o, ho, e, he⟩
    cases hd : decodeResult unmarshal next with
    | fail err =>
      refine ⟨[], next, rest, err, rfl, by simp, hd, ?_⟩
      cases next with
      | fail err2 =>
        simp only [decodeResult, Result.fail.injEq] at hd
        simp [queryLoop, hd]
      | ok queryResult =>
        simp only [decodeResult] at hd
        simp [queryLoop, hd]
    | ok b =>
      have hrest : ∃ o ∈ rest, ∃ e, decodeResult unmarshal o = .fail e := by
        rcases List.mem_cons.1 ho with h | h
        · subst h
          rw [hd] at he
          simp at he
        · exact ⟨o, h, e, he⟩
      cases next with
      | fail err2 => simp [decodeResult] at hd
      | ok queryResult =>
        simp only [decodeResult] at hd
        obtain ⟨before, failing, after, err, hsplit, hbefore, hfail, hres⟩ :=
          ih (batches ++ [b]) stub.Next hrest
        refine ⟨Result.ok queryResult :: before, failing, after, err, by simp [hsplit], ?_,
          hfail, ?_⟩
        · intro o2 ho2
          rcases List.mem_cons.1 ho2 with h | h
          · subst h
            exact ⟨b, by simp [decodeResult, hd]⟩
          · exact hbefore o2 h
        · simp only [queryLoop, hd]
          exact hres


/-- The normal form of `getQueryResultForQueryStringBatch`. -/
theorem getQueryResult_eq (unmarshal : List Byte → Result Batch) (stub : Stub)
    (queryString : GoString) :
    getQueryResultForQueryStringBatch unmarshal stub queryString =
      match stub.fault stub.calls (StubCall.GetQueryResult queryString) with
      | some err => (([], some err), stub.logged [StubCall.GetQueryResult queryString])
      | none =>
        ((queryLoop unmarshal (stub.queryOf queryString) []
            (stub.logged [StubCall.GetQueryResult queryString])).1,
         (queryLoop unmarshal (stub.queryOf queryString) []
            (stub.logged [StubCall.GetQueryResult queryString])).2.Close) := by
  unfold getQueryResultForQueryStringBatch Stub.GetQueryResult
    constructQueryResponseFromIteratorBatch
  cases stub.fault stub.calls (StubCall.GetQueryResult queryString) <;> rfl

/-- The stub after `getQueryResultForQueryStringBatch`: the world state and the failure
behaviour are unchanged, and the log has grown by the opening call alone when that call
fails, else by the opening call, calls of `Next`, and one `Close` at the end. -/
theorem getQueryResult_stub (unmarshal : List Byte → Result Batch) (stub : Stub)
    (queryString : GoString) :
    (stub.fault stub.calls (StubCall.GetQueryResult queryString) ≠ none →
      (getQueryResultForQueryStringBatch unmarshal stub queryString).2 =
        stub.logged [StubCall.GetQueryResult queryString]) ∧
    (stub.fault stub.calls (StubCall.GetQueryResult queryString) = none →
      ∃ n, n ≤ (stub.queryOf queryString).length ∧
        (getQueryResultForQueryStringBatch unmarshal stub queryString).2 =
          stub.logged ([StubCall.GetQueryResult queryString] ++
            List.replicate n StubCall.Next ++ [StubCall.Close])) := by
  rw [getQueryResult_eq]
  refine ⟨?_, ?_⟩
  · intro h
    cases hf : stub.fault stub.calls (StubCall.GetQueryResult queryString) with
    | some err => rfl
    | none => exact absurd hf h
  · intro h
    simp only [h]
    obtain ⟨n, hn, hstub, _⟩ := queryLoop_stub unmarshal (stub.queryOf queryString) []
      (stub.logged [StubCall.GetQueryResult queryString])
    refine ⟨n, hn, ?_⟩
    rw [hstub, Close_eq, logged_logged, logged_logged, List.append_assoc]

theorem getQueryResult_world (unmarshal : List Byte → Result Batch) (stub : Stub)
    (queryString : GoString) :
    (getQueryResultForQueryStringBatch unmarshal stub queryString).2.world = stub.world ∧
    (getQueryResultForQueryStringBatch unmarshal stub queryString).2.fault = stub.fault ∧
    ∃ cs, (getQueryResultForQueryStringBatch unmarshal stub queryString).2.calls =
        stub.calls ++ cs ∧ ∀ key, StubCall.DelState key ∉ cs := by
  obtain ⟨h1, h2⟩ := getQueryResult_stub unmarshal stub queryString
  cases hf : stub.fault stub.calls (StubCall.GetQueryResult queryString) with
  | some err =>
    rw [h1 (by simp [hf])]
    exact ⟨rfl, rfl, _, rfl, by simp⟩
  | none =>
    obtain ⟨n, _, hn⟩ := h2 hf
    rw [hn]
    refine ⟨rfl, rfl, _, rfl, ?_⟩
    intro key
    simp [List.mem_replicate]

/-! ## The delete loop -/

theorem removeKeys_nil (world : List (GoString × List Byte)) : removeKeys [] world = world := by
  simp [removeKeys]

theorem removeKeys_cons (key : GoString) (keys : List GoString)
    (world : List (GoString × List Byte)) :
    removeKeys (key :: keys) world = removeKeys keys (world.filter (fun kv => kv.1 ≠ key)) := by
  unfold removeKeys
  rw [List.filter_filter]
  congr 1
  funext kv
  by_cases h : kv.1 = key
  · simp [h]
  · simp [h]

theorem lookup_removeKeys (keys : List GoString) (key : GoString) (h : key ∈ keys) :
    ∀ world : List (GoString × List Byte), (removeKeys keys world).lookup key = none := by
  intro world
  induction world with
  | nil => rfl
  | cons kv rest ih =>
    obtain ⟨k, v⟩ := kv
    unfold removeKeys at ih ⊢
    rw [List.filter_cons]
    by_cases hk : k ∈ keys
    · have hd : (!keys.contains (k, v).1) = false := by simp [hk]
      simp only [hd, Bool.false_eq_true, if_false]
      exact ih
    · have hd : (!keys.contains (k, v).1) = true := by simp [hk]
      have hb : (key == k) = false := by
        simpa using fun h2 : key = k => hk (h2 ▸ h)
      simp only [hd, if_true, List.lookup, hb]
      exact ih

theorem DelState_eq (stub : Stub) (key : GoString) :
    stub.DelState key =
      match stub.fault stub.calls (StubCall.DelState key) with
      | some err => (some err, stub.logged [StubCall.DelState key])
      | none =>
        (none, { stub.logged [StubCall.DelState key] with
                 world := stub.world.filter (fun kv => kv.1 ≠ key) }) := by
  unfold Stub.DelState Stub.logged
  cases stub.fault stub.calls (StubCall.DelState key) <;> rfl

/-- The delete loop that ends without error has issued one delete per listed batch, in
listing order, each of which succeeded, and has removed every listed id. -/
theorem deleteLoop_success (registrations : List Batch) :
    ∀ stub : Stub, (deleteLoop registrations stub).1 = none →
      (deleteLoop registrations stub).2 =
        { stub.logged (registrations.map (fun r => StubCall.DelState r.ID)) with
          world := removeKeys (registrations.map (fun r => r.ID)) stub.world } := by
  induction registrations with
  | nil =>
    intro stub _
    simp [deleteLoop, removeKeys_nil, logged_nil]
  | cons r rest ih =>
    intro stub h
    rw [deleteLoop, DelState_eq] at h ⊢
    cases hf : stub.fault stub.calls (StubCall.DelState r.ID) with
    | some err =>
      rw [hf] at h
      simp at h
    | none =>
      rw [hf] at h
      simp only at h ⊢
      rw [ih _ h]
      simp [Stub.logged, removeKeys_cons]

/-- The delete loop that ends with an error has stopped at the first delete that failed: the
deletes before it succeeded and their ids are removed, the failing delete is the last call
issued, and no delete is issued for the batches listed after it. -/
theorem deleteLoop_failure (registrations : List Batch) :
    ∀ (stub : Stub) (err : GoError), (deleteLoop registrations stub).1 = some err →
      ∃ before failing after, registrations = before ++ failing :: after ∧
        stub.fault (stub.calls ++ before.map (fun r => StubCall.DelState r.ID))
          (StubCall.DelState failing.ID) = some err ∧
        (deleteLoop registrations stub).2 =
          { stub.logged ((before ++ [failing]).map (fun r => StubCall.DelState r.ID)) with
            world := removeKeys (before.map (fun r => r.ID)) stub.world } := by
  induction registrations with
  | nil =>
    intro stub err h
    simp [deleteLoop] at h
  | cons r rest ih =>
    intro stub err h
    rw [deleteLoop, DelState_eq] at h ⊢
    cases hf : stub.fault stub.calls (StubCall.DelState r.ID) with
    | some e =>
      rw [hf] at h
      simp only [Option.some.injEq] at h
      subst h
      refine ⟨[], r, rest, rfl, by simpa using hf, ?_⟩
      simp [Stub.logged, removeKeys_nil]
    | none =>
      rw [hf] at h
      simp only at h ⊢
      obtain ⟨before, failing, after, hsplit, hfault, hstub⟩ := ih _ err h
      refine ⟨r :: before, failing, after, by simp [hsplit], ?_, ?_⟩
      · simpa [Stub.logged, List.append_assoc] using hfault
      · rw [hstub]
        simp [Stub.logged, removeKeys_cons]


theorem errorf_ne_of_head (pre suffix other : GoString) (a b : Byte)
    (ha : pre.head? = some a) (hb : other.head? = some b) (hab : a ≠ b) :
    errorf (pre ++ suffix) ≠ errorf other := by
  intro h
  have h2 : (pre ++ suffix).head? = other.head? := by
    have := congrArg GoError.Error h
    simpa [errorf, GoError.Error] using congrArg List.head? this
  have hpre : pre ≠ [] := by
    intro hnil
    rw [hnil] at ha
    simp at ha
  rw [List.head?_append_of_ne_nil _ hpre, ha, hb] at h2
  exact hab (by simpa using h2)

/-! ## The claims on `DeleteAllBatches` and the query functions -/

/-- C14: when the listing of available batches succeeds and is empty, `DeleteAllBatches`
fails with the nothing-to-delete error, issues no call beyond those of the listing, in
particular no delete, and leaves the world state unchanged; and it returns that error in no
other case, so not when the listing is non-empty. -/
theorem DeleteAllBatches_nothing_to_delete (unmarshal : List Byte → Result Batch)
    (stub : Stub) :
    ((GetAvailableBatches unmarshal stub).1 = ([], none) →
      (DeleteAllBatches unmarshal stub).1 = (str "", some errNothingToDelete) ∧
      (DeleteAllBatches unmarshal stub).2 = (GetAvailableBatches unmarshal stub).2 ∧
      (DeleteAllBatches unmarshal stub).2.world = stub.world ∧
      ∃ cs, (DeleteAllBatches unmarshal stub).2.calls = stub.calls ++ cs ∧
        ∀ key, StubCall.DelState key ∉ cs) ∧
    ((DeleteAllBatches unmarshal stub).1.2 = some errNothingToDelete ↔
      (GetAvailableBatches unmarshal stub).1 = ([], none)) := by
  have hw := getQueryResult_world unmarshal stub availableQuery
  have e1 : ∀ err : GoError,
      errorf (str "could not read registrations from world state. " ++ err.Error) ≠
        errNothingToDelete := fun err =>
    errorf_ne_of_head _ _ _ 99 116 (by decide) (by decide) (by decide)
  have e2 : ∀ err : GoError,
      errorf (str "could not delete registrations from world state. " ++ err.Error) ≠
        errNothingToDelete := fun err =>
    errorf_ne_of_head _ _ _ 99 116 (by decide) (by decide) (by decide)
  unfold DeleteAllBatches
  unfold GetAvailableBatches at hw ⊢
  rcases hg : getQueryResultForQueryStringBatch unmarshal stub availableQuery with
    ⟨⟨registrations, err⟩, stub1⟩
  rw [hg] at hw
  cases err with
  | some e =>
    simp only [reduceCtorEq, Prod.mk.injEq, and_false, false_implies, true_and,
      Option.some.injEq, iff_false]
    exact e1 e
  | none =>
    cases registrations with
    | nil =>
      simp only [List.length_nil, if_true, true_implies, true_and, iff_true, and_true]
      exact ⟨⟨rfl, hw.1, hw.2.2⟩, rfl⟩
    | cons r rest =>
      simp only [List.length_cons, Nat.add_one_ne_zero, if_false, Prod.mk.injEq,
        reduceCtorEq, false_and, false_implies, true_and, iff_false]
      rcases deleteLoop (r :: rest) stub1 with ⟨e | e, stub2⟩
      · simp
      · simpa using e2 e

/-- C15: on a non-empty listing, `DeleteAllBatches` issues its deletes one by one in listing
order. If it returns no error it has issued one delete per listed batch, returns the success
text, and no listed id has a value any more. If it returns an error, a delete failed, the
error carries that delete's error, the deletes issued are those of the batches listed before
the failing one and the failing one, none after it, and the ids listed before the failing one
have no value any more. If no delete fails, it returns no error. -/
theorem DeleteAllBatches_sequential (unmarshal : List Byte → Result Batch) (stub : Stub)
    (registrations : List Batch)
    (hlist : (GetAvailableBatches unmarshal stub).1 = (registrations, none))
    (hne : registrations ≠ []) :
    ((DeleteAllBatches unmarshal stub).1.2 = none →
      (DeleteAllBatches unmarshal stub).1.1 = str "all batches deleted successfully" ∧
      (DeleteAllBatches unmarshal stub).2.calls =
        (GetAvailableBatches unmarshal stub).2.calls ++
          registrations.map (fun r => StubCall.DelState r.ID) ∧
      (DeleteAllBatches unmarshal stub).2.world =
        removeKeys (registrations.map (fun r => r.ID)) stub.world ∧
      ∀ r ∈ registrations, (DeleteAllBatches unmarshal stub).2.world.lookup r.ID = none) ∧
    ((DeleteAllBatches unmarshal stub).1.2 ≠ none →
      ∃ before failing after err, registrations = before ++ failing :: after ∧
        stub.fault ((GetAvailableBatches unmarshal stub).2.calls ++
            before.map (fun r => StubCall.DelState r.ID))
          (StubCall.DelState failing.ID) = some err ∧
        (DeleteAllBatches unmarshal stub).1 =
          (str "", some (errorf
            (str "could not delete registrations from world state. " ++ err.Error))) ∧
        (DeleteAllBatches unmarshal stub).2.calls =
          (GetAvailableBatches unmarshal stub).2.calls ++
            (before ++ [failing]).map (fun r => StubCall.DelState r.ID) ∧
        (DeleteAllBatches unmarshal stub).2.world =
          removeKeys (before.map (fun r => r.ID)) stub.world ∧
        ∀ r ∈ before, (DeleteAllBatches unmarshal stub).2.world.lookup r.ID = none) ∧
    ((∀ before failing after, registrations = before ++ failing :: after →
        stub.fault ((GetAvailableBatches unmarshal stub).2.calls ++
            before.map (fun r => StubCall.DelState r.ID))
          (StubCall.DelState failing.ID) = none) →
      (DeleteAllBatches unmarshal stub).1.2 = none) := by
  have hw := getQueryResult_world unmarshal stub availableQuery
  have hlen : registrations.length ≠ 0 := by
    intro h
    exact hne (List.length_eq_zero.1 h)
  have key : (DeleteAllBatches unmarshal stub).1.2 ≠ none →
      ∃ before failing after err, registrations = before ++ failing :: after ∧
        stub.fault ((GetAvailableBatches unmarshal stub).2.calls ++
            before.map (fun r => StubCall.DelState r.ID))
          (StubCall.DelState failing.ID) = some err ∧
        (DeleteAllBatches unmarshal stub).1 =
          (str "", some (errorf
            (str "could not delete registrations from world state. " ++ err.Error))) ∧
        (DeleteAllBatches unmarshal stub).2.calls =
          (GetAvailableBatches unmarshal stub).2.calls ++
            (before ++ [failing]).map (fun r => StubCall.DelState r.ID) ∧
        (DeleteAllBatches unmarshal stub).2.world =
          removeKeys (before.map (fun r => r.ID)) stub.world ∧
        ∀ r ∈ before, (DeleteAllBatches unmarshal stub).2.world.lookup r.ID = none := by
    unfold DeleteAllBatches
    unfold GetAvailableBatches at hw hlist ⊢
    rcases hg : getQueryResultForQueryStringBatch unmarshal stub availableQuery with
      ⟨⟨regs, err⟩, stub1⟩
    rw [hg] at hw hlist
    simp only [Prod.mk.injEq] at hlist
    obtain ⟨rfl, rfl⟩ := hlist
    simp only [hlen, if_false]
    intro hres
    rcases hd : deleteLoop regs stub1 with ⟨e | e, stub2⟩
    · rw [hd] at hres
      simp at hres
    · obtain ⟨before, failing, after, hsplit, hfault, hstub⟩ :=
        deleteLoop_failure regs stub1 e (by rw [hd])
      rw [hd] at hstub
      simp only at hstub
      refine ⟨before, failing, after, e, hsplit, ?_, rfl, ?_, ?_, ?_⟩
      · rw [← hw.2.1]
        exact hfault
      · simp only [hstub]
        rfl
      · simp only [hstub]
        rw [← hw.1]
      · intro r hr
        simp only [hstub]
        exact lookup_removeKeys _ _ (List.mem_map_of_mem _ hr) _
  refine ⟨?_, key, ?_⟩
  · unfold DeleteAllBatches
    unfold GetAvailableBatches at hw hlist ⊢
    rcases hg : getQueryResultForQueryStringBatch unmarshal stub availableQuery with
      ⟨⟨regs, err⟩, stub1⟩
    rw [hg] at hw hlist
    simp only [Prod.mk.injEq] at hlist
    obtain ⟨rfl, rfl⟩ := hlist
    simp only [hlen, if_false]
    rcases hd : deleteLoop regs stub1 with ⟨e | e, stub2⟩
    · intro _
      have hstub := deleteLoop_success regs stub1 (by rw [hd])
      rw [hd] at hstub
      simp only at hstub
      refine ⟨rfl, ?_, ?_, ?_⟩
      · simp only [hstub]
        rfl
      · simp only [hstub]
        rw [← hw.1]
      · intro r hr
        simp only [hstub]
        exact lookup_removeKeys _ _ (List.mem_map_of_mem _ hr) _
    · intro h
      simp at h
  · intro hall
    by_contra hres
    obtain ⟨before, failing, after, err, hsplit, hfault, _⟩ := key hres
    rw [hall before failing after hsplit] at hfault
    simp at hfault

/-- Witness of C15: the store refuses to delete `b-200`, the second of the two listed
batches. -/
theorem DeleteAllBatches_sequential_witness :
    (GetAvailableBatches sampleUnmarshal refusingStub).1 =
      ([sampleBatch (str "b-100"), sampleBatch (str "b-200")], none) ∧
    ((DeleteAllBatches sampleUnmarshal refusingStub).1.2 ≠ none →
      ∃ before failing after err,
        [sampleBatch (str "b-100"), sampleBatch (str "b-200")] = before ++ failing :: after ∧
        refusingStub.fault ((GetAvailableBatches sampleUnmarshal refusingStub).2.calls ++
            before.map (fun r => StubCall.DelState r.ID))
          (StubCall.DelState failing.ID) = some err ∧
        (DeleteAllBatches sampleUnmarshal refusingStub).1 =
          (str "", some (errorf
            (str "could not delete registrations from world state. " ++ err.Error))) ∧
        (DeleteAllBatches sampleUnmarshal refusingStub).2.calls =
          (GetAvailableBatches sampleUnmarshal refusingStub).2.calls ++
            (before ++ [failing]).map (fun r => StubCall.DelState r.ID) ∧
        (DeleteAllBatches sampleUnmarshal refusingStub).2.world =
          removeKeys (before.map (fun r => r.ID)) refusingStub.world ∧
        ∀ r ∈ before,
          (DeleteAllBatches sampleUnmarshal refusingStub).2.world.lookup r.ID = none) :=
  ⟨by decide,
   (DeleteAllBatches_sequential sampleUnmarshal refusingStub
      [sampleBatch (str "b-100"), sampleBatch (str "b-200")] (by decide) (by decide)).2.1⟩

/-- The run of `DeleteAllBatches` against the store that refuses to delete `b-200`: the
calls issued, the error, and the world state left behind, in which `b-100` is gone. -/
theorem DeleteAllBatches_refused :
    (DeleteAllBatches sampleUnmarshal refusingStub).1 =
      (str "", some (errorf
        (str "could not delete registrations from world state. delete refused"))) ∧
    (DeleteAllBatches sampleUnmarshal refusingStub).2.calls =
      [StubCall.GetQueryResult availableQuery, StubCall.Next, StubCall.Next, StubCall.Close,
       StubCall.DelState (str "b-100"), StubCall.DelState (str "b-200")] ∧
    (DeleteAllBatches sampleUnmarshal refusingStub).2.world =
      [(str "b-200", sampleDoc (str "b-200"))] := by
  decide

/-- C19: `constructQueryResponseFromIteratorBatch` is all-or-nothing and keeps the order.
When every outcome of the iterator is a result whose value parses, it returns no error and
one batch per result, the i-th batch being the parse of the i-th value. When some outcome is
an iteration error or a value that does not parse, it returns the nil slice together with the
error of the first such outcome. -/
theorem constructQueryResponse_all_or_nothing (unmarshal : List Byte → Result Batch)
    (resultsIterator : List (Result KV)) (stub : Stub) :
    ((∀ o ∈ resultsIterator, ∃ b, decodeResult unmarshal o = .ok b) →
      (constructQueryResponseFromIteratorBatch unmarshal resultsIterator stub).1.2 = none ∧
      (constructQueryResponseFromIteratorBatch unmarshal resultsIterator stub).1.1.map
          Result.ok = resultsIterator.map (decodeResult unmarshal) ∧
      (constructQueryResponseFromIteratorBatch unmarshal resultsIterator stub).1.1.length =
        resultsIterator.length) ∧
    ((∃ o ∈ resultsIterator, ∃ e, decodeResult unmarshal o = .fail e) →
      ∃ before failing after err, resultsIterator = before ++ failing :: after ∧
        (∀ o ∈ before, ∃ b, decodeResult unmarshal o = .ok b) ∧
        decodeResult unmarshal failing = .fail err ∧
        (constructQueryResponseFromIteratorBatch unmarshal resultsIterator stub).1 =
          ([], some err)) := by
  unfold constructQueryResponseFromIteratorBatch
  refine ⟨?_, queryLoop_fail unmarshal resultsIterator [] stub⟩
  intro h
  obtain ⟨bs, hbs, hmap⟩ := queryLoop_ok unmarshal resultsIterator [] stub h
  rw [hbs]
  refine ⟨rfl, by simpa using hmap, ?_⟩
  have := congrArg List.length hmap
  simpa using this


/-! ## Iterators: the history loop -/

theorem AsTime_New (t : Time) (h : Timestamp.CheckValid (Timestamp.New t) = true) :
    Timestamp.AsTime (Timestamp.New t) = t := by
  simp only [Timestamp.New, Timestamp.CheckValid, decide_eq_true_eq] at h
  obtain ⟨_, _, h0, h1⟩ := h
  have hno : ¬ (t.nsec < 0 ∨ 10 ^ 9 ≤ t.nsec) := by omega
  simp only [Timestamp.New, Timestamp.AsTime, timeUnix, if_neg hno]

/-- A time stamp that `CheckValid` accepts passes the test of `GetBatchHistory`, and its
`AsTime` is the instant it names. -/
theorem valid_timestamp (e : KeyModification)
    (h : Timestamp.CheckValid e.Timestamp = true) :
    timestampAccepted e = true ∧
    ∃ ts, e.Timestamp = some ts ∧
      Timestamp.AsTime e.Timestamp = { sec := ts.seconds, nsec := ts.nanos } := by
  cases hts : e.Timestamp with
  | none =>
    rw [hts] at h
    simp [Timestamp.CheckValid] at h
  | some ts =>
    rw [hts] at h
    have h' := h
    simp only [Timestamp.CheckValid, decide_eq_true_eq] at h
    obtain ⟨_, _, h0, h1⟩ := h
    have hno : ¬ (ts.nanos < 0 ∨ 10 ^ 9 ≤ ts.nanos) := by omega
    have has : Timestamp.AsTime (some ts) = { sec := ts.seconds, nsec := ts.nanos } := by
      simp only [Timestamp.AsTime, timeUnix, if_neg hno]
    refine ⟨?_, ts, rfl, has⟩
    unfold timestampAccepted
    rw [hts, has]
    exact h'

/-- One turn of the loop of `GetBatchHistory` on an entry the iterator delivers. -/
theorem historyLoop_cons_ok (unmarshal : List Byte → Result Batch) (batchID : GoString)
    (e : KeyModification) (rest : List (Result KeyModification))
    (records : List HistoryQueryResult) (stub : Stub) :
    historyLoop unmarshal batchID (.ok e :: rest) records stub =
      match snapshot unmarshal batchID e with
      | .fail err => (([], some err), stub.Next)
      | .ok batch =>
        if timestampAccepted e = true then
          historyLoop unmarshal batchID rest (records ++ [historyRecord e batch]) stub.Next
        else (([], none), stub.Next) := by
  rw [historyLoop]
  unfold snapshot
  by_cases hlen : 0 < e.Value.length
  · simp only [hlen, if_true]
    cases unmarshal e.Value with
    | fail err => rfl
    | ok batch =>
      simp only []
      by_cases hts : timestampAccepted e = true
      · have hts2 := hts
        unfold timestampAccepted at hts2
        simp only [hts, hts2, Bool.not_true, Bool.false_eq_true, if_false, if_true,
          AsTime_New _ hts2]
        rfl
      · have hts2 := hts
        unfold timestampAccepted at hts2
        simp only [hts, hts2, if_false, Bool.not_eq_true', Bool.not_eq_true, if_true,
          Bool.false_eq_true]
  · simp only [hlen, if_false]
    by_cases hts : timestampAccepted e = true
    · have hts2 := hts
      unfold timestampAccepted at hts2
      simp only [hts, hts2, Bool.not_true, Bool.false_eq_true, if_false, if_true,
        AsTime_New _ hts2]
      rfl
    · have hts2 := hts
      unfold timestampAccepted at hts2
      simp only [hts, hts2, if_false, Bool.not_eq_true', Bool.not_eq_true, if_true,
          Bool.false_eq_true]

theorem historyLoop_cons_fail (unmarshal : List Byte → Result Batch) (batchID : GoString)
    (err : GoError) (rest : List (Result KeyModification))
    (records : List HistoryQueryResult) (stub : Stub) :
    historyLoop unmarshal batchID (.fail err :: rest) records stub =
      (([], some err), stub.Next) := by
  rw [historyLoop]

/-- The history loop only adds calls of `Next` to the log, at most one per outcome of the
iterator. -/
theorem historyLoop_stub (unmarshal : List Byte → Result Batch) (batchID : GoString)
    (it : List (Result KeyModification)) :
    ∀ (records : List HistoryQueryResult) (stub : Stub),
      ∃ n, n ≤ it.length ∧
        (historyLoop unmarshal batchID it records stub).2 =
          stub.logged (List.replicate n StubCall.Next) := by
  induction it with
  | nil =>
    intro records stub
    exact ⟨0, le_refl _, by simp [historyLoop, logged_nil]⟩
  | cons next rest ih =>
    intro records stub
    cases next with
    | fail err =>
      exact ⟨1, by simp, by simp [historyLoop_cons_fail, Next_eq]⟩
    | ok e =>
      rw [historyLoop_cons_ok]
      cases snapshot unmarshal batchID e with
      | fail err => exact ⟨1, by simp, by simp [Next_eq]⟩
      | ok batch =>
        by_cases hts : timestampAccepted e = true
        · obtain ⟨n, hn, hstub⟩ := ih (records ++ [historyRecord e batch]) stub.Next
          refine ⟨n + 1, by simpa using hn, ?_⟩
          simp only [hts, if_true]
          rw [hstub, Next_eq, logged_logged]
          rfl
        · exact ⟨1, by simp, by simp [hts, Next_eq]⟩

/-- When the iterator delivers only entries whose snapshot can be taken and whose time stamp
passes the test, the history loop returns the records collected before followed by one record
per entry, in order, and no error. -/
theorem historyLoop_ok (unmarshal : List Byte → Result Batch) (batchID : GoString)
    (entries : List KeyModification) :
    ∀ (records : List HistoryQueryResult) (stub : Stub),
      (∀ e ∈ entries, (e.Value ≠ [] → ∃ b, unmarshal e.Value = .ok b) ∧
        timestampAccepted e = true) →
      ∃ recs, (historyLoop unmarshal batchID (entries.map Result.ok) records stub).1 =
          (records ++ recs, none) ∧
        List.Forall₂ (RecordOf unmarshal batchID) entries recs := by
  induction entries with
  | nil =>
    intro records stub _
    exact ⟨[], by simp [historyLoop], List.Forall₂.nil⟩
  | cons e rest ih =>
    intro records stub h
    obtain ⟨hparse, hts⟩ := h e (List.mem_cons_self _ _)
    have hsnap : ∃ b, snapshot unmarshal batchID e = .ok b ∧
        RecordOf unmarshal batchID e (historyRecord e b) := by
      unfold snapshot
      by_cases hlen : 0 < e.Value.length
      · have hne : e.Value ≠ [] := by
          intro h0
          rw [h0] at hlen
          simp at hlen
        obtain ⟨b, hb⟩ := hparse hne
        refine ⟨b, by simp [hlen, hb], rfl, rfl, rfl, fun _ => hb, fun h0 => absurd h0 hne⟩
      · have h0 : e.Value = [] := by
          cases hv : e.Value with
          | nil => rfl
          | cons x xs =>
            rw [hv] at hlen
            simp at hlen
        refine ⟨_, by simp [hlen], rfl, rfl, rfl, fun hne => absurd h0 hne, fun _ => rfl⟩
    obtain ⟨b, hb, hrec⟩ := hsnap
    obtain ⟨recs, hrecs, hall⟩ := ih (records ++ [historyRecord e b]) stub.Next
      (fun e2 he2 => h e2 (List.mem_cons_of_mem _ he2))
    refine ⟨historyRecord e b :: recs, ?_, List.Forall₂.cons hrec hall⟩
    rw [List.map_cons, historyLoop_cons_ok, hb]
    simp only [hts, if_true]
    rw [hrecs]
    simp

/-- When the iterator delivers an iteration error, or an entry whose non-empty value does
not parse, and the entries before pass the time stamp test, the history loop returns the nil
slice and an error. -/
theorem historyLoop_fail (unmarshal : List Byte → Result Batch) (batchID : GoString)
    (it : List (Result KeyModification)) :
    ∀ (records : List HistoryQueryResult) (stub : Stub),
      (∀ e, Result.ok e ∈ it → timestampAccepted e = true) →
      (∃ o ∈ it, (∃ err, o = .fail err) ∨
        ∃ e err, o = .ok e ∧ e.Value ≠ [] ∧ unmarshal e.Value = .fail err) →
      ∃ err, (historyLoop unmarshal batchID it records stub).1 = ([], some err) := by
  induction it with
  | nil =>
    rintro records stub _ ⟨o, ho, _⟩
    simp at ho
  | cons next rest ih =>
    rintro records stub hts ⟨o, ho, hbad⟩
    cases next with
    | fail err => exact ⟨err, by rw [historyLoop_cons_fail]⟩
    | ok e =>
      rw [historyLoop_cons_ok]
      cases hs : snapshot unmarshal batchID e with
      | fail err => exact ⟨err, rfl⟩
      | ok batch =>
        have hacc := hts e (List.mem_cons_self _ _)
        simp only [hacc, if_true]
        apply ih _ _ (fun e2 he2 => hts e2 (List.mem_cons_of_mem _ he2))
        rcases List.mem_cons.1 ho with h | h
        · exfalso
          subst h
          rcases hbad with ⟨err, herr⟩ | ⟨e2, err, he2, hne, hfail⟩
          · simp at herr
          · simp only [Result.ok.injEq] at he2
            subst he2
            unfold snapshot at hs
            have hlen : 0 < e.Value.length := List.length_pos.2 hne
            simp [hlen, hfail] at hs
        · exact ⟨o, h, hbad⟩

/-- The normal form of `GetBatchHistory`. -/
theorem GetBatchHistory_eq (unmarshal : List Byte → Result Batch) (stub : Stub)
    (batchID : GoString) :
    GetBatchHistory unmarshal stub batchID =
      match stub.fault stub.calls (StubCall.GetHistoryForKey batchID) with
      | some err => (([], some err), stub.logged [StubCall.GetHistoryForKey batchID])
      | none =>
        ((historyLoop unmarshal batchID (stub.historyOf batchID) []
            (stub.logged [StubCall.GetHistoryForKey batchID])).1,
         (historyLoop unmarshal batchID (stub.historyOf batchID) []
            (stub.logged [StubCall.GetHistoryForKey batchID])).2.Close) := by
  unfold GetBatchHistory Stub.GetHistoryForKey
  cases stub.fault stub.calls (StubCall.GetHistoryForKey batchID) <;> rfl

theorem GetHistoryForKey_fst (stub : Stub) (key : GoString) :
    (stub.GetHistoryForKey key).1 =
      match stub.fault stub.calls (StubCall.GetHistoryForKey key) with
      | some err => .fail err
      | none => .ok (stub.historyOf key) := by
  unfold Stub.GetHistoryForKey
  cases stub.fault stub.calls (StubCall.GetHistoryForKey key) <;> rfl

theorem GetQueryResult_fst (stub : Stub) (query : GoString) :
    (stub.GetQueryResult query).1 =
      match stub.fault stub.calls (StubCall.GetQueryResult query) with
      | some err => .fail err
      | none => .ok (stub.queryOf query) := by
  unfold Stub.GetQueryResult
  cases stub.fault stub.calls (StubCall.GetQueryResult query) <;> rfl


/-! ## The claims on `GetBatchHistory`, the iterators and the trace query -/

theorem map_ok_of_all_ok (it : List (Result KeyModification))
    (h : ∀ o ∈ it, ∃ e, o = Result.ok e) :
    ∃ entries : List KeyModification, it = entries.map Result.ok := by
  induction it with
  | nil => exact ⟨[], rfl⟩
  | cons o rest ih =>
    obtain ⟨e, he⟩ := h o (List.mem_cons_self _ _)
    obtain ⟨entries, hentries⟩ := ih (fun o2 ho2 => h o2 (List.mem_cons_of_mem _ ho2))
    exact ⟨e :: entries, by simp [he, hentries]⟩

/-- C16: when the store opens the history of the key and delivers the entries `entries`, each
non-empty value of which parses and each time stamp of which is valid, `GetBatchHistory`
returns no error and one record per entry, in the order of the entries; each record has its
entry's transaction id, time stamp and delete flag, and as snapshot the parsed value, or the
placeholder that holds only the queried id when the value is empty. An empty history gives the
empty sequence and no error. -/
theorem GetBatchHistory_records (unmarshal : List Byte → Result Batch) (stub : Stub)
    (batchID : GoString) (entries : List KeyModification)
    (hopen : (stub.GetHistoryForKey batchID).1 = .ok (entries.map Result.ok))
    (hparse : ∀ e ∈ entries, e.Value ≠ [] → ∃ b, unmarshal e.Value = .ok b)
    (hvalid : ∀ e ∈ entries, Timestamp.CheckValid e.Timestamp = true) :
    ∃ recs, (GetBatchHistory unmarshal stub batchID).1 = (recs, none) ∧
      List.Forall₂ (RecordOf unmarshal batchID) entries recs ∧
      recs.length = entries.length ∧ (entries = [] → recs = []) := by
  rw [GetHistoryForKey_fst] at hopen
  rw [GetBatchHistory_eq]
  cases hf : stub.fault stub.calls (StubCall.GetHistoryForKey batchID) with
  | some err =>
    rw [hf] at hopen
    simp at hopen
  | none =>
    rw [hf] at hopen
    simp only [Result.ok.injEq] at hopen
    simp only [hopen]
    obtain ⟨recs, hrecs, hall⟩ := historyLoop_ok unmarshal batchID entries []
      (stub.logged [StubCall.GetHistoryForKey batchID])
      (fun e he => ⟨hparse e he, (valid_timestamp e (hvalid e he)).1⟩)
    refine ⟨recs, by simpa using hrecs, hall, hall.length_eq.symm, ?_⟩
    intro h0
    subst h0
    cases hall
    rfl

/-- Witness of C16: the history of `b-100` in the sample store, a creation and a
deletion. -/
theorem GetBatchHistory_records_witness :
    ∃ recs, (GetBatchHistory sampleUnmarshal sampleStub (str "b-100")).1 = (recs, none) ∧
      List.Forall₂ (RecordOf sampleUnmarshal (str "b-100")) [sampleCreated, sampleDeleted]
        recs ∧
      recs.length = 2 :=
  have h := GetBatchHistory_records sampleUnmarshal sampleStub (str "b-100")
    [sampleCreated, sampleDeleted] (by decide)
    (by
      intro e he hne
      simp only [List.mem_cons, List.mem_singleton, List.not_mem_nil, or_false] at he
      rcases he with rfl | rfl
      · exact ⟨sampleBatch (str "b-100"), by decide⟩
      · exact absurd rfl hne)
    (by decide)
  h.imp (fun _ hr => ⟨hr.1, hr.2.1, hr.2.2.1⟩)

/-- The records `GetBatchHistory` returns for `b-100` in the sample store. -/
theorem GetBatchHistory_sample :
    (GetBatchHistory sampleUnmarshal sampleStub (str "b-100")).1 =
      ([{ Record := sampleBatch (str "b-100"), TxId := str "tx1",
          Timestamp := { sec := 1700000000, nsec := 5 }, IsDelete := false },
        { Record := { Batch.zero with ID := str "b-100" }, TxId := str "tx2",
          Timestamp := { sec := 1700000100, nsec := 0 }, IsDelete := true }], none) := by
  decide

/-- C17 (counterexample): the store opens the history of `b-200` and delivers its one entry
without any iteration error; the value of the entry is the text `x`, which does not parse, and
`GetBatchHistory` returns an error. -/
theorem GetBatchHistory_unparsable_value :
    (sampleStub.GetHistoryForKey (str "b-200")).1 = .ok [.ok sampleBroken] ∧
    sampleBroken.Value = str "x" ∧
    (GetBatchHistory sampleUnmarshal sampleStub (str "b-200")).1 =
      ([], some (errorf (str "invalid character 'x' looking for beginning of value"))) := by
  decide

/-- An error that the history loop returns is an iteration error that the iterator
delivered, or the error of the decoder on a non-empty value of a delivered entry. -/
theorem historyLoop_error (unmarshal : List Byte → Result Batch) (batchID : GoString)
    (it : List (Result KeyModification)) :
    ∀ (records : List HistoryQueryResult) (stub : Stub) (err : GoError),
      (historyLoop unmarshal batchID it records stub).1.2 = some err →
      Result.fail err ∈ it ∨
        ∃ e, Result.ok e ∈ it ∧ e.Value ≠ [] ∧ unmarshal e.Value = .fail err := by
  induction it with
  | nil =>
    intro records stub err h
    simp [historyLoop] at h
  | cons o rest ih =>
    intro records stub err h
    cases o with
    | fail err2 =>
      rw [historyLoop_cons_fail] at h
      simp only [Option.some.injEq] at h
      subst h
      exact Or.inl (List.mem_cons_self _ _)
    | ok e =>
      rw [historyLoop_cons_ok] at h
      cases hs : snapshot unmarshal batchID e with
      | fail err2 =>
        rw [hs] at h
        simp only [Option.some.injEq] at h
        subst h
        right
        refine ⟨e, List.mem_cons_self _ _, ?_⟩
        unfold snapshot at hs
        by_cases hlen : 0 < e.Value.length
        · simp only [hlen, if_true] at hs
          exact ⟨List.ne_nil_of_length_pos hlen, hs⟩
        · simp [hlen] at hs
      | ok batch =>
        rw [hs] at h
        simp only at h
        by_cases hts : timestampAccepted e = true
        · simp only [hts, if_true] at h
          rcases ih _ _ err h with hm | ⟨e2, he2, hp⟩
          · exact Or.inl (List.mem_cons_of_mem _ hm)
          · exact Or.inr ⟨e2, List.mem_cons_of_mem _ he2, hp⟩
        · have hf : timestampAccepted e = false := by simpa using hts
          simp [hf] at h

/-- C17 (amended): `GetBatchHistory` returns an error only if the store reports an error when
opening or advancing the history iteration, or the decoder rejects a non-empty stored value;
the error returned is then that error of the store or of the decoder, and an error of the
store on opening is always returned. For every history that the store delivers without an
iteration error and in which every non-empty value parses as a `Batch`, `GetBatchHistory`
returns no error. -/
theorem GetBatchHistory_error_source (unmarshal : List Byte → Result Batch) (stub : Stub)
    (batchID : GoString) :
    (∀ err, (GetBatchHistory unmarshal stub batchID).1.2 = some err →
      (stub.GetHistoryForKey batchID).1 = .fail err ∨
      ∃ it, (stub.GetHistoryForKey batchID).1 = .ok it ∧
        (Result.fail err ∈ it ∨
          ∃ e, Result.ok e ∈ it ∧ e.Value ≠ [] ∧ unmarshal e.Value = .fail err)) ∧
    (∀ err, (stub.GetHistoryForKey batchID).1 = .fail err →
      (GetBatchHistory unmarshal stub batchID).1 = ([], some err)) ∧
    (∀ it, (stub.GetHistoryForKey batchID).1 = .ok it →
      (∀ o ∈ it, ∃ e, o = .ok e ∧ (e.Value ≠ [] → ∃ b, unmarshal e.Value = .ok b)) →
      (GetBatchHistory unmarshal stub batchID).1.2 = none) := by
  rw [GetHistoryForKey_fst, GetBatchHistory_eq]
  cases hf : stub.fault stub.calls (StubCall.GetHistoryForKey batchID) with
  | some err0 =>
    refine ⟨?_, ?_, ?_⟩
    · intro err h
      simp only [Option.some.injEq] at h
      subst h
      exact Or.inl rfl
    · intro err h
      simp only [Result.fail.injEq] at h
      subst h
      rfl
    · intro it h
      simp at h
  | none =>
    refine ⟨?_, ?_, ?_⟩
    · intro err h
      exact Or.inr ⟨stub.historyOf batchID, rfl,
        historyLoop_error unmarshal batchID (stub.historyOf batchID) []
          (stub.logged [StubCall.GetHistoryForKey batchID]) err h⟩
    · intro err h
      simp at h
    · intro it h hall
      simp only [Result.ok.injEq] at h
      subst h
      cases hres : (historyLoop unmarshal batchID (stub.historyOf batchID) []
          (stub.logged [StubCall.GetHistoryForKey batchID])).1.2 with
      | none => rfl
      | some err =>
        exfalso
        rcases historyLoop_error unmarshal batchID (stub.historyOf batchID) []
          (stub.logged [StubCall.GetHistoryForKey batchID]) err hres with hm | ⟨e, he, hne, hp⟩
        · obtain ⟨e, he, _⟩ := hall _ hm
          simp at he
        · obtain ⟨e2, he2, hparse⟩ := hall _ he
          simp only [Result.ok.injEq] at he2
          subst he2
          obtain ⟨b, hb⟩ := hparse hne
          rw [hb] at hp
          simp at hp

/-- Witness of C17 (amended): the history of `b-100` in the sample store, whose values parse
or are empty, is returned without error. -/
theorem GetBatchHistory_error_source_witness :
    (sampleStub.GetHistoryForKey (str "b-100")).1 =
      .ok [.ok sampleCreated, .ok sampleDeleted] ∧
    (GetBatchHistory sampleUnmarshal sampleStub (str "b-100")).1.2 = none :=
  ⟨by decide,
   (GetBatchHistory_error_source sampleUnmarshal sampleStub (str "b-100")).2.2
    [.ok sampleCreated, .ok sampleDeleted] (by decide)
    (by
      intro o ho
      simp only [List.mem_cons, List.not_mem_nil, or_false] at ho
      rcases ho with rfl | rfl
      · exact ⟨sampleCreated, rfl, fun _ => ⟨sampleBatch (str "b-100"), by decide⟩⟩
      · exact ⟨sampleDeleted, rfl, fun h => absurd rfl h⟩)⟩

/-- A time stamp that fails the test hides a later value that does not parse: the history
with the late entry followed by the unparsable one is answered with the nil slice and a nil
error. -/
theorem historyLoop_late_then_broken :
    (historyLoop sampleUnmarshal (str "b-100") [.ok sampleLate, .ok sampleBroken] []
      emptyStub).1 = ([], none) := by
  decide

theorem closes_logged (stub : Stub) (cs : List StubCall) :
    closes stub (stub.logged cs) = cs.count StubCall.Close := by
  simp [closes, Stub.logged]

/-- The stub after `GetBatchHistory`. -/
theorem GetBatchHistory_stub (unmarshal : List Byte → Result Batch) (stub : Stub)
    (batchID : GoString) :
    (stub.fault stub.calls (StubCall.GetHistoryForKey batchID) ≠ none →
      (GetBatchHistory unmarshal stub batchID).2 =
        stub.logged [StubCall.GetHistoryForKey batchID]) ∧
    (stub.fault stub.calls (StubCall.GetHistoryForKey batchID) = none →
      ∃ n, n ≤ (stub.historyOf batchID).length ∧
        (GetBatchHistory unmarshal stub batchID).2 =
          stub.logged ([StubCall.GetHistoryForKey batchID] ++
            List.replicate n StubCall.Next ++ [StubCall.Close])) := by
  rw [GetBatchHistory_eq]
  refine ⟨?_, ?_⟩
  · intro h
    cases hf : stub.fault stub.calls (StubCall.GetHistoryForKey batchID) with
    | some err => rfl
    | none => exact absurd hf h
  · intro h
    simp only [h]
    obtain ⟨n, hn, hstub⟩ := historyLoop_stub unmarshal batchID (stub.historyOf batchID) []
      (stub.logged [StubCall.GetHistoryForKey batchID])
    refine ⟨n, hn, ?_⟩
    rw [hstub, Close_eq, logged_logged, logged_logged, List.append_assoc]

theorem count_close (first : StubCall) (n : Nat) (h : first ≠ StubCall.Close) :
    ([first] ++ List.replicate n StubCall.Next ++ [StubCall.Close]).count StubCall.Close =
      1 := by
  have h2 : (first == StubCall.Close) = false := by simpa using h
  simp [List.count_cons, List.count_replicate, h2]

/-- C18: when `GetBatchHistory` or `getQueryResultForQueryStringBatch` fails to acquire its
iterator, it issues no `Close`, and its only call is the one that tried to open the
iteration. When it acquires the iterator, the calls it issues are the opening call, calls of
`Next`, and then `Close`, once and last, on every path on which it returns: success,
iteration error, value that does not parse, time stamp that fails the test. -/
theorem iterator_closed_once (unmarshal : List Byte → Result Batch) (stub : Stub)
    (batchID queryString : GoString) :
    (∀ err, (stub.GetHistoryForKey batchID).1 = .fail err →
      (GetBatchHistory unmarshal stub batchID).2 =
        stub.logged [StubCall.GetHistoryForKey batchID] ∧
      closes stub (GetBatchHistory unmarshal stub batchID).2 = 0) ∧
    (∀ it, (stub.GetHistoryForKey batchID).1 = .ok it →
      (∃ n, n ≤ it.length ∧ (GetBatchHistory unmarshal stub batchID).2 =
        stub.logged ([StubCall.GetHistoryForKey batchID] ++
          List.replicate n StubCall.Next ++ [StubCall.Close])) ∧
      closes stub (GetBatchHistory unmarshal stub batchID).2 = 1) ∧
    (∀ err, (stub.GetQueryResult queryString).1 = .fail err →
      (getQueryResultForQueryStringBatch unmarshal stub queryString).2 =
        stub.logged [StubCall.GetQueryResult queryString] ∧
      closes stub (getQueryResultForQueryStringBatch unmarshal stub queryString).2 = 0) ∧
    (∀ it, (stub.GetQueryResult queryString).1 = .ok it →
      (∃ n, n ≤ it.length ∧
        (getQueryResultForQueryStringBatch unmarshal stub queryString).2 =
          stub.logged ([StubCall.GetQueryResult queryString] ++
            List.replicate n StubCall.Next ++ [StubCall.Close])) ∧
      closes stub (getQueryResultForQueryStringBatch unmarshal stub queryString).2 = 1) := by
  obtain ⟨hh1, hh2⟩ := GetBatchHistory_stub unmarshal stub batchID
  obtain ⟨hq1, hq2⟩ := getQueryResult_stub unmarshal stub queryString
  rw [GetHistoryForKey_fst, GetQueryResult_fst]
  refine ⟨?_, ?_, ?_, ?_⟩
  · intro err h
    cases hf : stub.fault stub.calls (StubCall.GetHistoryForKey batchID) with
    | none =>
      rw [hf] at h
      simp at h
    | some e =>
      rw [hh1 (by simp [hf]), closes_logged]
      exact ⟨rfl, by simp⟩
  · intro it h
    cases hf : stub.fault stub.calls (StubCall.GetHistoryForKey batchID) with
    | some e =>
      rw [hf] at h
      simp at h
    | none =>
      rw [hf] at h
      simp only [Result.ok.injEq] at h
      subst h
      obtain ⟨n, hn, hstub⟩ := hh2 hf
      refine ⟨⟨n, hn, hstub⟩, ?_⟩
      rw [hstub, closes_logged]
      exact count_close _ n (by simp)
  · intro err h
    cases hf : stub.fault stub.calls (StubCall.GetQueryResult queryString) with
    | none =>
      rw [hf] at h
      simp at h
    | some e =>
      rw [hq1 (by simp [hf]), closes_logged]
      exact ⟨rfl, by simp⟩
  · intro it h
    cases hf : stub.fault stub.calls (StubCall.GetQueryResult queryString) with
    | some e =>
      rw [hf] at h
      simp at h
    | none =>
      rw [hf] at h
      simp only [Result.ok.injEq] at h
      subst h
      obtain ⟨n, hn, hstub⟩ := hq2 hf
      refine ⟨⟨n, hn, hstub⟩, ?_⟩
      rw [hstub, closes_logged]
      exact count_close _ n (by simp)


theorem traceQuery_eq (batchInternalID : GoString) :
    traceQuery batchInternalID =
      traceQueryHead ++ (batchInternalID ++ str "\"\x7d\x7d") := by
  simp [traceQuery, traceQueryHead, List.append_assoc]

/-- For an id without double quote and without backslash, the literal that follows the key
`batchInternalID` in the query is the id, and nothing but the two closing braces follows
it. -/
theorem traceQuery_exact (batchInternalID : GoString)
    (h : ∀ c ∈ batchInternalID, c ≠ 34 ∧ c ≠ 92) :
    readLiteral (batchInternalID ++ str "\"\x7d\x7d") =
      some (batchInternalID, str "\x7d\x7d") := by
  unfold readLiteral
  induction batchInternalID with
  | nil => decide
  | cons c rest ih =>
    obtain ⟨h34, h92⟩ := h c (List.mem_cons_self _ _)
    have hrest := ih (fun d hd => h d (List.mem_cons_of_mem _ hd))
    have hrest2 : readLiteralFrom false (rest.append (str "\"\x7d\x7d")) =
        some (rest, str "\x7d\x7d") := hrest
    simp only [List.cons_append, readLiteralFrom, h34, h92, if_false, hrest2,
      Option.map_some']

/-- The query text `TraceBatchByInternalID` passes to the store is `traceQuery` of its
argument, in the first call it issues. -/
theorem TraceBatchByInternalID_query (unmarshal : List Byte → Result Batch) (stub : Stub)
    (batchInternalID : GoString) :
    ((TraceBatchByInternalID unmarshal stub batchInternalID).2.calls.drop
      stub.calls.length).head? =
      some (StubCall.GetQueryResult (traceQuery batchInternalID)) := by
  unfold TraceBatchByInternalID
  obtain ⟨h1, h2⟩ := getQueryResult_stub unmarshal stub (traceQuery batchInternalID)
  cases hf : stub.fault stub.calls (StubCall.GetQueryResult (traceQuery batchInternalID)) with
  | some err =>
    rw [h1 (by simp [hf])]
    simp [Stub.logged]
  | none =>
    obtain ⟨n, _, hn⟩ := h2 hf
    rw [hn]
    simp [Stub.logged]

/-- C20 (fails on the code): for the id `x","docType":"b` the query passed to the store is
`{"selector":{"batchInternalID":"x","docType":"b"}}`: the literal after the key
`batchInternalID` is `x`, not the id, and a second selector field follows it. -/
theorem traceQuery_injection :
    (TraceBatchByInternalID sampleUnmarshal emptyStub (str "x\",\"docType\":\"b")).2.calls =
      [StubCall.GetQueryResult
         (str "\x7b\"selector\":\x7b\"batchInternalID\":\"x\",\"docType\":\"b\"\x7d\x7d"),
       StubCall.Close] ∧
    traceQuery (str "x\",\"docType\":\"b") =
      traceQueryHead ++ str "x\",\"docType\":\"b\"\x7d\x7d" ∧
    readLiteral (str "x\",\"docType\":\"b\"\x7d\x7d") =
      some (str "x", str ",\"docType\":\"b\"\x7d\x7d") ∧
    str "x" ≠ str "x\",\"docType\":\"b" := by
  decide

/-! ## The activity prefix: `validateActivityType` -/

theorem slice_one (a : Byte) (rest : GoString) : slice (a :: rest) 0 1 = some [a] := by
  simp [slice]

theorem slice_one_three (a b c : Byte) (rest : GoString) :
    slice (a :: b :: c :: rest) 1 3 = some [b, c] := by
  simp [slice]

theorem slice_one_two (a b : Byte) (rest : GoString) :
    slice (a :: b :: rest) 1 2 = some [b] := by
  simp [slice]

/-- What `validateActivityType` returns on an id of at least three bytes `a`, `b`, `c`: it
never faults there, and the error is returned only when the first byte is none of `r`, `p`,
`t`. -/
theorem validateActivityType_long (a b c : Byte) (rest : GoString) :
    validateActivityType (a :: b :: c :: rest) =
      if [a] = str "r" then
        .ret (if [b, c] = str "g-" then str "rg" else if [b, c] = str "c-" then str "rc"
          else str "", none)
      else if [a] = str "p" then .ret (if [b] = str "-" then str "p" else str "", none)
      else if [a] = str "t" then .ret (if [b] = str "-" then str "t" else str "", none)
      else .ret (str "", some (errorf (str "incorrect activity prefix"))) := by
  unfold validateActivityType
  rw [slice_one, slice_one_three, slice_one_two]

/-- On an id of at least three bytes, `validateActivityType` returns each of the four
prefixes exactly when the id begins with that prefix and a hyphen. -/
theorem validateActivityType_prefixes (activityID : GoString) (h : 3 ≤ activityID.length) :
    (validateActivityType activityID = .ret (str "rg", none) ↔
      activityID.take 3 = str "rg-") ∧
    (validateActivityType activityID = .ret (str "rc", none) ↔
      activityID.take 3 = str "rc-") ∧
    (validateActivityType activityID = .ret (str "p", none) ↔
      activityID.take 2 = str "p-") ∧
    (validateActivityType activityID = .ret (str "t", none) ↔
      activityID.take 2 = str "t-") := by
  obtain ⟨a, b, c, rest, rfl⟩ : ∃ a b c rest, activityID = a :: b :: c :: rest := by
    match activityID, h with
    | a :: b :: c :: rest, _ => exact ⟨a, b, c, rest, rfl⟩
  rw [validateActivityType_long]
  have hr : str "r" = [114] := by decide
  have hp : str "p" = [112] := by decide
  have ht : str "t" = [116] := by decide
  have hg : str "g-" = [103, 45] := by decide
  have hc : str "c-" = [99, 45] := by decide
  have hh : str "-" = [45] := by decide
  have hrg : str "rg" = [114, 103] := by decide
  have hrc : str "rc" = [114, 99] := by decide
  have hrg3 : str "rg-" = [114, 103, 45] := by decide
  have hrc3 : str "rc-" = [114, 99, 45] := by decide
  have hp2 : str "p-" = [112, 45] := by decide
  have ht2 : str "t-" = [116, 45] := by decide
  have he : str "" = [] := rfl
  simp only [hr, hp, ht, hg, hc, hh, hrg, hrc, hrg3, hrc3, hp2, ht2, he, List.take_succ_cons,
    List.take_zero]
  refine ⟨?_, ?_, ?_, ?_⟩ <;> split_ifs <;> simp_all

/-- C22 (fails on the code): on the ids `rx-1` and `px1`, which begin with none of `rg-`,
`rc-`, `p-`, `t-`, `validateActivityType` returns the empty prefix and a nil error, not the
error "incorrect activity prefix". -/
theorem validateActivityType_nil_nil :
    validateActivityType (str "rx-1") = .ret (str "", none) ∧
    validateActivityType (str "px1") = .ret (str "", none) ∧
    validateActivityType (str "xx-1") =
      .ret (str "", some (errorf (str "incorrect activity prefix"))) := by
  decide

/-- C23 (fails on the code): on the empty id and on the ids `r`, `rg`, `p` and `t`,
`validateActivityType` faults on a slice expression that is out of range and returns
nothing. -/
theorem validateActivityType_faults :
    validateActivityType (str "") = Go.panic ∧
    validateActivityType (str "r") = Go.panic ∧
    validateActivityType (str "rg") = Go.panic ∧
    validateActivityType (str "p") = Go.panic ∧
    validateActivityType (str "t") = Go.panic := by
  decide

/-- An id faults in `validateActivityType` exactly when it is empty, or begins with `r` and
has fewer than three bytes, or is the one byte `p` or `t`. -/
theorem validateActivityType_panic_iff (activityID : GoString) :
    validateActivityType activityID = Go.panic ↔
      activityID = [] ∨ (activityID.take 1 = str "r" ∧ activityID.length < 3) ∨
      activityID = str "p" ∨ activityID = str "t" := by
  have hr : str "r" = [114] := by decide
  have hp : str "p" = [112] := by decide
  have ht : str "t" = [116] := by decide
  match activityID with
  | [] => simp [validateActivityType, slice]
  | [a] =>
    simp only [validateActivityType, slice_one, hr, hp, ht]
    split_ifs <;> simp_all [slice]
  | [a, b] =>
    simp only [validateActivityType, slice_one, slice_one_two, hr, hp, ht]
    split_ifs <;> simp_all [slice]
  | a :: b :: c :: rest =>
    rw [validateActivityType_long]
    simp only [hr, hp, ht]
    split_ifs <;> simp_all

/-! ## Success of `GetBatchHistory` and the number of records -/

/-- When the history loop returns a nil error, it returns one record more for every outcome
of the iterator, or it returns the nil slice because the time stamp of some entry failed the
test. -/
theorem historyLoop_nil_error (unmarshal : List Byte → Result Batch) (batchID : GoString)
    (it : List (Result KeyModification)) :
    ∀ (records : List HistoryQueryResult) (stub : Stub),
      (historyLoop unmarshal batchID it records stub).1.2 = none →
      (historyLoop unmarshal batchID it records stub).1.1.length =
          records.length + it.length ∨
        ((historyLoop unmarshal batchID it records stub).1.1 = [] ∧
          ∃ e, Result.ok e ∈ it ∧ timestampAccepted e = false) := by
  induction it with
  | nil =>
    intro records stub _
    left
    simp [historyLoop]
  | cons o rest ih =>
    intro records stub h
    cases o with
    | fail err =>
      rw [historyLoop_cons_fail] at h
      simp at h
    | ok e =>
      rw [historyLoop_cons_ok] at h ⊢
      cases hs : snapshot unmarshal batchID e with
      | fail err =>
        rw [hs] at h
        simp at h
      | ok batch =>
        rw [hs] at h
        simp only at h ⊢
        by_cases hts : timestampAccepted e = true
        · simp only [hts, if_true] at h ⊢
          rcases ih _ _ h with hl | ⟨hnil, e2, he2, hacc⟩
          · left
            rw [hl]
            simp
            omega
          · right
            exact ⟨hnil, e2, List.mem_cons_of_mem _ he2, hacc⟩
        · have hf : timestampAccepted e = false := by simpa using hts
          right
          simp only [hf, Bool.false_eq_true, if_false]
          exact ⟨trivial, e, List.mem_cons_self _ _, hf⟩

/-- When `GetBatchHistory` returns a nil error, the store opened the history, and either
the result has one record for every outcome of the iterator, or it is the nil slice and the
time stamp of some delivered entry failed the test. -/
theorem GetBatchHistory_nil_error (unmarshal : List Byte → Result Batch) (stub : Stub)
    (batchID : GoString) (h : (GetBatchHistory unmarshal stub batchID).1.2 = none) :
    (GetBatchHistory unmarshal stub batchID).1.1.length = (stub.historyOf batchID).length ∨
      ((GetBatchHistory unmarshal stub batchID).1.1 = [] ∧
        ∃ e, Result.ok e ∈ stub.historyOf batchID ∧ timestampAccepted e = false) := by
  rw [GetBatchHistory_eq] at h ⊢
  cases hf : stub.fault stub.calls (StubCall.GetHistoryForKey batchID) with
  | some err =>
    rw [hf] at h
    simp at h
  | none =>
    rw [hf] at h
    simp only at h ⊢
    have := historyLoop_nil_error unmarshal batchID (stub.historyOf batchID) []
      (stub.logged [StubCall.GetHistoryForKey batchID]) h
    simpa using this

/-- C21 (fails on the code): the store opens the history of `b-100` and delivers two entries
whose values parse, the second with a time stamp that fails the validity check;
`GetBatchHistory` returns the nil slice together with a nil error, so success is reported
with no record for a history of two entries. -/
theorem GetBatchHistory_invalid_timestamp :
    (lateStub.GetHistoryForKey (str "b-100")).1 = .ok [.ok sampleCreated, .ok sampleLate] ∧
    Timestamp.CheckValid (Timestamp.New (Timestamp.AsTime sampleLate.Timestamp)) = false ∧
    (GetBatchHistory sampleUnmarshal lateStub (str "b-100")).1 = ([], none) := by
  decide

/-! ## The frame of `DeleteBatch` -/

/-- The world state after `DeleteBatch`: unchanged, or without the entries of the key. -/
theorem DeleteBatch_world (stub : Stub) (batchID : GoString) :
    (DeleteBatch stub batchID).2.world = stub.world ∨
      (DeleteBatch stub batchID).2.world = stub.world.filter (fun kv => kv.1 ≠ batchID) := by
  rw [DeleteBatch_eq]
  cases stub.fault stub.calls (StubCall.GetState batchID) with
  | some err => exact Or.inl rfl
  | none =>
    cases stub.world.lookup batchID with
    | none => exact Or.inl rfl
    | some value =>
      cases stub.fault (stub.calls ++ [StubCall.GetState batchID])
          (StubCall.DelState batchID) with
      | some e => exact Or.inl rfl
      | none => exact Or.inr rfl

/-- The store's fault behaviour is no part of what `DeleteBatch` changes. -/
theorem DeleteBatch_fault (stub : Stub) (batchID : GoString) :
    (DeleteBatch stub batchID).2.fault = stub.fault := by
  rw [DeleteBatch_eq]
  cases stub.fault stub.calls (StubCall.GetState batchID) with
  | some err => rfl
  | none =>
    cases stub.world.lookup batchID with
    | none => rfl
    | some value =>
      cases stub.fault (stub.calls ++ [StubCall.GetState batchID])
          (StubCall.DelState batchID) with
      | some e => rfl
      | none => rfl

/-- The value at any other key is the same after `DeleteBatch` as before it. -/
theorem DeleteBatch_lookup_other (stub : Stub) (batchID k : GoString) (hk : k ≠ batchID) :
    (DeleteBatch stub batchID).2.world.lookup k = stub.world.lookup k := by
  rcases DeleteBatch_world stub batchID with h | h
  · rw [h]
  · rw [h, lookup_filter_other _ _ _ hk]

/-- What `BatchExists` and `ReadBatch` return for a key is determined by the value stored at
the key and by the fault behaviour and the log of the stub. -/
theorem reads_of_lookup (unmarshal : List Byte → Result Batch) (s1 s2 : Stub) (k : GoString)
    (hlook : s2.world.lookup k = s1.world.lookup k) (hfault : s2.fault = s1.fault)
    (hcalls : s2.calls = s1.calls) :
    (BatchExists s2 k).1 = (BatchExists s1 k).1 ∧
    (ReadBatch unmarshal s2 k).1 = (ReadBatch unmarshal s1 k).1 := by
  rw [BatchExists_eq, BatchExists_eq, ReadBatch_eq, ReadBatch_eq, hlook, hfault, hcalls]
  refine ⟨rfl, ?_⟩
  cases s1.fault s1.calls (StubCall.GetState k) with
  | some err => rfl
  | none =>
    cases s1.world.lookup k with
    | none => rfl
    | some value => rfl

/-- What `BatchExists` and `ReadBatch` return for a key when the store never fails to read
it. -/
theorem reads_without_fault (unmarshal : List Byte → Result Batch) (stub : Stub)
    (k : GoString) (h : ∀ cs, stub.fault cs (StubCall.GetState k) = none) :
    (BatchExists stub k).1 = ((stub.world.lookup k).isSome, none) ∧
    (ReadBatch unmarshal stub k).1 =
      match stub.world.lookup k with
      | none => (none, some (errNotFound k))
      | some value =>
        match unmarshal value with
        | .fail _ => (none, some errUnmarshal)
        | .ok batch => (some batch, none) := by
  rw [BatchExists_eq, ReadBatch_eq, h, h]
  refine ⟨rfl, ?_⟩
  cases stub.world.lookup k with
  | none => rfl
  | some value => rfl

/-- C24: a successful `DeleteBatch(id)` changes only the key `id`. For every key `k`
different from `id`, the value stored at `k` after the call is the value stored before it;
hence `BatchExists(k)` and `ReadBatch(k)` return the same on the world state after the call
as on the one before it, for any two states of the stub that carry these world states and
agree on the fault behaviour and the log, and in particular for the stub after and before
the call itself when the store never fails to read `k`. -/
theorem DeleteBatch_frame (unmarshal : List Byte → Result Batch) (stub : Stub)
    (batchID k : GoString)
    (hdel : (DeleteBatch stub batchID).1.2 = none) (hk : k ≠ batchID) :
    (DeleteBatch stub batchID).1.1 = str "[" ++ batchID ++ str "] deleted successfully" ∧
    (DeleteBatch stub batchID).2.world.lookup k = stub.world.lookup k ∧
    (∀ before after : Stub, before.world = stub.world →
      after.world = (DeleteBatch stub batchID).2.world →
      after.fault = before.fault → after.calls = before.calls →
      (BatchExists after k).1 = (BatchExists before k).1 ∧
      (ReadBatch unmarshal after k).1 = (ReadBatch unmarshal before k).1) ∧
    ((∀ cs, stub.fault cs (StubCall.GetState k) = none) →
      (BatchExists (DeleteBatch stub batchID).2 k).1 = (BatchExists stub k).1 ∧
      (ReadBatch unmarshal (DeleteBatch stub batchID).2 k).1 =
        (ReadBatch unmarshal stub k).1) := by
  have hlook := DeleteBatch_lookup_other stub batchID k hk
  refine ⟨?_, hlook, ?_, ?_⟩
  · rw [DeleteBatch_eq] at hdel ⊢
    cases h1 : stub.fault stub.calls (StubCall.GetState batchID) with
    | some err =>
      rw [h1] at hdel
      simp at hdel
    | none =>
      rw [h1] at hdel
      cases h2 : stub.world.lookup batchID with
      | none =>
        rw [h2] at hdel
        simp at hdel
      | some value =>
        rw [h2] at hdel
        cases h3 : stub.fault (stub.calls ++ [StubCall.GetState batchID])
            (StubCall.DelState batchID) with
        | some e =>
          rw [h3] at hdel
          simp at hdel
        | none => rfl
  · intro before after hb ha hf hc
    exact reads_of_lookup unmarshal before after k (by rw [ha, hb, hlook]) hf hc
  · intro hnf
    have h1 := reads_without_fault unmarshal stub k hnf
    have h2 := reads_without_fault unmarshal (DeleteBatch stub batchID).2 k
      (by rw [DeleteBatch_fault]; exact hnf)
    rw [h1.1, h1.2, h2.1, h2.2, hlook]
    exact ⟨rfl, rfl⟩

/-- Witness of C24: deleting `b-100` from the sample store leaves `b-200` as it was. -/
theorem DeleteBatch_frame_witness :
    (DeleteBatch sampleStub (str "b-100")).1.2 = none ∧ str "b-200" ≠ str "b-100" ∧
    (DeleteBatch sampleStub (str "b-100")).2.world.lookup (str "b-200") =
      some (sampleDoc (str "b-200")) ∧
    (BatchExists (DeleteBatch sampleStub (str "b-100")).2 (str "b-200")).1 = (true, none) ∧
    (ReadBatch sampleUnmarshal (DeleteBatch sampleStub (str "b-100")).2 (str "b-200")).1 =
      (some (sampleBatch (str "b-200")), none) :=
  have h := DeleteBatch_frame sampleUnmarshal sampleStub (str "b-100") (str "b-200")
    (by decide) (by decide)
  have hb : (BatchExists sampleStub (str "b-200")).1 = (true, none) := by decide
  have hr : (ReadBatch sampleUnmarshal sampleStub (str "b-200")).1 =
      (some (sampleBatch (str "b-200")), none) := by decide
  ⟨by decide, by decide, h.2.1.trans (by decide),
    (h.2.2.2 (fun _ => rfl)).1.trans hb, (h.2.2.2 (fun _ => rfl)).2.trans hr⟩

/-! ## The composition check and the order of the entries -/

theorem ofInt_zero : F32.ofInt 0 = F32.fin 0 := by decide!

theorem ofInt_hundredUnits : F32.ofInt 100 = F32.fin hundredUnits := ofInt_hundred

theorem hundredUnits_nonneg : 0 ≤ hundredUnits := by
  unfold hundredUnits
  positivity

theorem nonneg_of_le (p : Int) (h : (F32.ofInt 0).le (.fin p) = true) : 0 ≤ p := by
  rw [ofInt_zero] at h
  simp only [F32.le, F32.lt, Bool.or_eq_true, decide_eq_true_eq] at h
  rcases h with h | h
  · exact le_of_lt h
  · injection h with h
    omega

theorem NonNegative_cons (e : GoString × F32) (rest : List (GoString × F32))
    (h : NonNegative (e :: rest)) : (F32.ofInt 0).le e.2 = true ∧ NonNegative rest :=
  ⟨h e (List.mem_cons_self _ _), fun x hx => h x (List.mem_cons_of_mem _ hx)⟩

theorem NonNegative_perm (c1 c2 : List (GoString × F32)) (hperm : c1.Perm c2)
    (h : NonNegative c1) : NonNegative c2 :=
  fun e he => h e (hperm.mem_iff.2 he)

/-- The exact sum of percentages that are not below 0 is not below 0. -/
theorem exactSum_nonneg (entries : List (GoString × F32)) :
    NonNegative entries → ∀ t, exactSum entries = some t → 0 ≤ t := by
  induction entries with
  | nil =>
    intro _ t ht
    simp only [exactSum, Option.some.injEq] at ht
    omega
  | cons e rest ih =>
    intro hnn t ht
    obtain ⟨k, v⟩ := e
    obtain ⟨hv, hrest⟩ := NonNegative_cons _ _ hnn
    cases v with
    | nan => simp [exactSum] at ht
    | inf neg => simp [exactSum] at ht
    | fin p =>
      have hp := nonneg_of_le p hv
      cases hs : exactSum rest with
      | none => simp [exactSum, hs] at ht
      | some t2 =>
        have h2 := ih hrest t2 hs
        simp only [exactSum, hs, Option.map_some', Option.some.injEq] at ht
        omega

/-- The exact sum does not depend on the order of the entries. -/
theorem exactSum_perm (c1 c2 : List (GoString × F32)) (hperm : c1.Perm c2) :
    exactSum c1 = exactSum c2 := by
  induction hperm with
  | nil => rfl
  | cons x _ ih =>
    obtain ⟨k, v⟩ := x
    cases v <;> simp [exactSum, ih]
  | swap x y l =>
    obtain ⟨k, v⟩ := x
    obtain ⟨k2, v2⟩ := y
    cases v <;> cases v2 <;> cases hl : exactSum l <;> simp [exactSum, hl]
    omega
  | trans _ _ ih1 ih2 => exact ih1.trans ih2

/-- The loop in exact arithmetic, on percentages not below 0, in terms of the exact sum. -/
theorem exactLoop_eq (entries : List (GoString × F32)) :
    ∀ a : Int, a ≤ hundredUnits → NonNegative entries →
      exactLoop a entries =
        match exactSum entries with
        | none => none
        | some t => if a + t ≤ hundredUnits then some (a + t) else none := by
  induction entries with
  | nil =>
    intro a ha _
    simp [exactLoop, exactSum, ha]
  | cons e rest ih =>
    intro a ha hnn
    obtain ⟨k, v⟩ := e
    obtain ⟨hv, hrest⟩ := NonNegative_cons _ _ hnn
    cases v with
    | nan => simp [exactLoop, exactSum]
    | inf neg => simp [exactLoop, exactSum]
    | fin p =>
      have hp := nonneg_of_le p hv
      simp only [exactLoop, exactSum]
      by_cases hgt : hundredUnits < a + p
      · simp only [hgt, if_true]
        cases hs : exactSum rest with
        | none => rfl
        | some t2 =>
          have h2 := exactSum_nonneg rest hrest t2 hs
          have : ¬ a + (p + t2) ≤ hundredUnits := by omega
          simp [this]
      · simp only [hgt, if_false]
        rw [ih (a + p) (by omega) hrest]
        cases hs : exactSum rest with
        | none => rfl
        | some t2 => simp [add_assoc]

/-- The verdict in exact arithmetic, on percentages not below 0: the exact sum is 100. -/
theorem exactAccepted_eq (entries : List (GoString × F32)) (hnn : NonNegative entries) :
    exactAccepted entries = decide (exactSum entries = some hundredUnits) := by
  unfold exactAccepted
  rw [exactLoop_eq entries 0 hundredUnits_nonneg hnn]
  cases hs : exactSum entries with
  | none => simp
  | some t =>
    by_cases h : t ≤ hundredUnits
    · simp [h]
    · have : t ≠ hundredUnits := by omega
      simp [h, this]

theorem gt_hundred_fin (x : Int) :
    (F32.fin x).gt (F32.ofInt 100) = decide (hundredUnits < x) := by
  rw [ofInt_hundredUnits]
  rfl

theorem ne_hundred_fin (x : Int) :
    (F32.fin x).ne (F32.ofInt 100) = !decide (x = hundredUnits) := by
  rw [ofInt_hundredUnits]
  simp [F32.ne]

/-- Where the arithmetic of the loop is exact, the loop of the code computes what the loop
in exact arithmetic computes. -/
theorem sumLoop_of_exact (entries : List (GoString × F32)) :
    ∀ a : Int, exactFrom (.fin a) entries = true →
      sumLoop (.fin a) entries = (exactLoop a entries).map F32.fin := by
  induction entries with
  | nil =>
    intro a _
    rfl
  | cons e rest ih =>
    intro a hex
    obtain ⟨k, v⟩ := e
    cases v with
    | nan => simp [exactFrom] at hex
    | inf neg => simp [exactFrom] at hex
    | fin p =>
      simp only [exactFrom, Bool.and_eq_true, decide_eq_true_eq] at hex
      obtain ⟨hadd, hrest⟩ := hex
      simp only [sumLoop, exactLoop, hadd, gt_hundred_fin, decide_eq_true_eq]
      by_cases hgt : hundredUnits < a + p
      · simp [hgt]
      · simp only [hgt, if_false]
        exact ih (a + p) hrest

/-- Where the arithmetic of the loop is exact, the verdict of the code is the verdict in
exact arithmetic. -/
theorem compositionAccepted_of_exact (entries : List (GoString × F32))
    (hex : Exact entries) : compositionAccepted entries = exactAccepted entries := by
  unfold compositionAccepted exactAccepted
  rw [sumLoop_of_exact entries 0 hex]
  cases exactLoop 0 entries with
  | none => rfl
  | some s => simp [ne_hundred_fin]

/-- The statements of `validateBatch` after the store read look at the composition only
through the verdict of the composition check. -/
theorem checkFields_of_accepted (batchInternalID supplierID batchType : GoString)
    (c1 c2 : List (GoString × F32)) (quantity finalScore : F32) (isInTransit : Bool)
    (h : compositionAccepted c1 = compositionAccepted c2) :
    checkFields batchInternalID supplierID batchType c1 quantity finalScore isInTransit =
      checkFields batchInternalID supplierID batchType c2 quantity finalScore isInTransit := by
  unfold compositionAccepted at h
  unfold checkFields
  cases h1 : sumLoop (.fin 0) c1 with
  | none =>
    rw [h1] at h
    cases h2 : sumLoop (.fin 0) c2 with
    | none => rfl
    | some s2 =>
      rw [h2] at h
      have hne : s2.ne (F32.ofInt 100) = true := by simpa using h
      simp only [hne, if_true]
  | some s1 =>
    rw [h1] at h
    cases h2 : sumLoop (.fin 0) c2 with
    | none =>
      rw [h2] at h
      have hne : s1.ne (F32.ofInt 100) = true := by simpa using h
      simp only [hne, if_true]
    | some s2 =>
      rw [h2] at h
      have hne : s1.ne (F32.ofInt 100) = s2.ne (F32.ofInt 100) := by simpa using h
      simp only [hne]

/-- The result of `validateBatch` depends on the composition only through the verdict of the
composition check. -/
theorem validateBatch_of_accepted (stub : Stub)
    (batchID productionUnitID batchInternalID supplierID batchType : GoString)
    (c1 c2 : List (GoString × F32)) (quantity finalScore : F32) (isInTransit : Bool)
    (h : compositionAccepted c1 = compositionAccepted c2) :
    validateBatch stub batchID productionUnitID batchInternalID supplierID batchType
        c1 quantity finalScore isInTransit =
      validateBatch stub batchID productionUnitID batchInternalID supplierID batchType
        c2 quantity finalScore isInTransit := by
  rw [validateBatch_eq, validateBatch_eq,
    checkFields_of_accepted batchInternalID supplierID batchType c1 c2 quantity finalScore
      isInTransit h]

/-- C25 (fails on the code): the verdict of the composition check depends on the order in
which the entries of the map are visited, also when no percentage is below 0. The entries
100, 0.000003 and 0.000003 are accepted by `validateBatch` when 100 is visited first (each
small entry is rounded away) and rejected when it is visited last (the two small entries add
up to more than half a unit in the last place of 100, and the sum is greater than 100). -/
theorem composition_order_matters :
    largeFirst.Perm largeLast ∧ NonNegative largeFirst ∧
    compositionAccepted largeFirst = true ∧ compositionAccepted largeLast = false ∧
    ¬ Exact largeFirst ∧ ¬ Exact largeLast ∧
    (validateBatch emptyStub (str "b-1") (str "pu1") (str "i1") (str "s1") (str "YARN")
      largeFirst (F32.ofInt 1) (F32.ofInt 0) false).1 = .ret (true, none) ∧
    (validateBatch emptyStub (str "b-1") (str "pu1") (str "i1") (str "s1") (str "YARN")
      largeLast (F32.ofInt 1) (F32.ofInt 0) false).1 = .ret (false, some errComposition) := by
  refine ⟨?_, by decide!, by decide!, by decide!, by decide!, by decide!, by decide!,
    by decide!⟩
  exact (List.perm_append_comm :
    ([(str "m1", F32.ofInt 100)] ++
      [(str "m2", F32.ofDecimal 3 6), (str "m3", F32.ofDecimal 3 6)]).Perm _)

/-- Where no rounding occurs the order does not matter: for percentages that are all not
below 0 and any two orderings `c1`, `c2` of the entries, the composition check carried out in
exact arithmetic gives the same verdict on both; and where the `float32` arithmetic of the
loop is exact on both orderings, the check of the code gives that verdict on each, so both are
accepted or both rejected, and `validateBatch` returns the same on both. -/
theorem composition_order_independent (stub : Stub)
    (batchID productionUnitID batchInternalID supplierID batchType : GoString)
    (c1 c2 : List (GoString × F32)) (quantity finalScore : F32) (isInTransit : Bool)
    (hperm : c1.Perm c2) (hnn : NonNegative c1) :
    exactAccepted c1 = exactAccepted c2 ∧
    (Exact c1 → Exact c2 →
      compositionAccepted c1 = exactAccepted c1 ∧
      compositionAccepted c2 = exactAccepted c2 ∧
      compositionAccepted c1 = compositionAccepted c2 ∧
      validateBatch stub batchID productionUnitID batchInternalID supplierID batchType
          c1 quantity finalScore isInTransit =
        validateBatch stub batchID productionUnitID batchInternalID supplierID batchType
          c2 quantity finalScore isInTransit) := by
  have hex : exactAccepted c1 = exactAccepted c2 := by
    rw [exactAccepted_eq c1 hnn, exactAccepted_eq c2 (NonNegative_perm c1 c2 hperm hnn),
      exactSum_perm c1 c2 hperm]
  refine ⟨hex, fun h1 h2 => ?_⟩
  have e1 := compositionAccepted_of_exact c1 h1
  have e2 := compositionAccepted_of_exact c2 h2
  have hacc : compositionAccepted c1 = compositionAccepted c2 := by rw [e1, e2, hex]
  exact ⟨e1, e2, hacc, validateBatch_of_accepted stub batchID productionUnitID batchInternalID
    supplierID batchType c1 c2 quantity finalScore isInTransit hacc⟩

/-- The entries 60 and 40 in both orders: the arithmetic is exact on both, and both are
accepted. -/
theorem composition_order_independent_witness :
    [(str "m1", F32.ofInt 60), (str "m2", F32.ofInt 40)].Perm
      [(str "m2", F32.ofInt 40), (str "m1", F32.ofInt 60)] ∧
    NonNegative [(str "m1", F32.ofInt 60), (str "m2", F32.ofInt 40)] ∧
    Exact [(str "m1", F32.ofInt 60), (str "m2", F32.ofInt 40)] ∧
    Exact [(str "m2", F32.ofInt 40), (str "m1", F32.ofInt 60)] ∧
    compositionAccepted [(str "m1", F32.ofInt 60), (str "m2", F32.ofInt 40)] = true ∧
    compositionAccepted [(str "m2", F32.ofInt 40), (str "m1", F32.ofInt 60)] = true ∧
    validateBatch emptyStub (str "b-1") (str "pu1") (str "i1") (str "s1") (str "YARN")
        [(str "m1", F32.ofInt 60), (str "m2", F32.ofInt 40)] (F32.ofInt 1) (F32.ofInt 0)
        false =
      validateBatch emptyStub (str "b-1") (str "pu1") (str "i1") (str "s1") (str "YARN")
        [(str "m2", F32.ofInt 40), (str "m1", F32.ofInt 60)] (F32.ofInt 1) (F32.ofInt 0)
        false :=
  have hperm : [(str "m1", F32.ofInt 60), (str "m2", F32.ofInt 40)].Perm
      [(str "m2", F32.ofInt 40), (str "m1", F32.ofInt 60)] := List.Perm.swap _ _ _
  have hnn : NonNegative [(str "m1", F32.ofInt 60), (str "m2", F32.ofInt 40)] := by decide!
  have h1 : Exact [(str "m1", F32.ofInt 60), (str "m2", F32.ofInt 40)] := by decide!
  have h2 : Exact [(str "m2", F32.ofInt 40), (str "m1", F32.ofInt 60)] := by decide!
  have h := (composition_order_independent emptyStub (str "b-1") (str "pu1") (str "i1")
    (str "s1") (str "YARN") _ _ (F32.ofInt 1) (F32.ofInt 0) false hperm hnn).2 h1 h2
  ⟨hperm, hnn, h1, h2, by decide!, h.2.2.1 ▸ (by decide!), h.2.2.2⟩

/-! ## The composition check and exact sums -/

/-- The verdict of the composition check in terms of the running sum. -/
theorem compositionAccepted_iff (entries : List (GoString × F32)) :
    compositionAccepted entries = true ↔
      NeverExceeds entries ∧ runningSum entries = F32.ofInt 100 := by
  unfold compositionAccepted
  by_cases hne : NeverExceeds entries
  · rw [sumLoop_runningSum entries hne]
    simp only [Bool.not_eq_true', ne_hundred_eq_false]
    exact ⟨fun h => ⟨hne, h⟩, fun h => h.2⟩
  · rw [sumLoop_overflow entries hne]
    simp [hne]

/-- The loop in exact arithmetic runs to its end exactly when no non-empty prefix has a sum
above 100, and then returns the exact sum. -/
theorem exactLoop_some_iff (entries : List (GoString × F32)) :
    ∀ a r : Int, exactLoop a entries = some r ↔
      (∃ t, exactSum entries = some t ∧ r = a + t) ∧
      ∀ k, 1 ≤ k → k ≤ entries.length →
        ∃ s, exactSum (entries.take k) = some s ∧ a + s ≤ hundredUnits := by
  induction entries with
  | nil =>
    intro a r
    simp only [exactLoop, exactSum, Option.some.injEq, List.length_nil]
    constructor
    · intro h
      exact ⟨⟨0, rfl, by omega⟩, fun k hk1 hk2 => by omega⟩
    · rintro ⟨⟨t, ht, hr⟩, _⟩
      omega
  | cons e rest ih =>
    intro a r
    obtain ⟨k0, v⟩ := e
    cases v with
    | nan => simp [exactLoop, exactSum]
    | inf neg => simp [exactLoop, exactSum]
    | fin p =>
      by_cases hgt : hundredUnits < a + p
      · simp only [exactLoop, hgt, if_true]
        constructor
        · intro h
          simp at h
        · rintro ⟨_, hpre⟩
          obtain ⟨s, hs, hle⟩ := hpre 1 (le_refl 1) (by simp)
          simp [exactSum] at hs
          omega
      · simp only [exactLoop, hgt, if_false]
        rw [ih (a + p) r]
        constructor
        · rintro ⟨⟨t, ht, hr⟩, hpre⟩
          refine ⟨⟨p + t, by simp [exactSum, ht], by omega⟩, ?_⟩
          intro k hk1 hk2
          obtain ⟨j, rfl⟩ : ∃ j, k = j + 1 := ⟨k - 1, by omega⟩
          rcases Nat.eq_zero_or_pos j with hj | hj
          · subst hj
            exact ⟨p, by simp [exactSum], by omega⟩
          · obtain ⟨s, hs, hle⟩ := hpre j hj (by simpa using hk2)
            exact ⟨p + s, by simp [exactSum, hs], by omega⟩
        · rintro ⟨⟨t, ht, hr⟩, hpre⟩
          simp only [exactSum, Option.map_eq_some'] at ht
          obtain ⟨t2, ht2, rfl⟩ := ht
          refine ⟨⟨t2, ht2, by omega⟩, ?_⟩
          intro j hj1 hj2
          obtain ⟨s, hs, hle⟩ := hpre (j + 1) (by omega) (by simpa using hj2)
          simp only [List.take_succ_cons, exactSum, Option.map_eq_some'] at hs
          obtain ⟨s2, hs2, rfl⟩ := hs
          exact ⟨s2, hs2, by omega⟩

/-- The verdict in exact arithmetic is the condition read with exact sums. -/
theorem exactAccepted_iff (entries : List (GoString × F32)) :
    exactAccepted entries = true ↔ ExactCondition entries := by
  unfold exactAccepted ExactCondition
  constructor
  · intro h
    cases hl : exactLoop 0 entries with
    | none =>
      rw [hl] at h
      simp at h
    | some s =>
      rw [hl] at h
      simp only [decide_eq_true_eq] at h
      rw [h] at hl
      obtain ⟨⟨t, ht, hr⟩, hpre⟩ := (exactLoop_some_iff entries 0 hundredUnits).1 hl
      have htot : t = hundredUnits := by omega
      refine ⟨?_, by rw [ht, htot]⟩
      intro k hk
      rcases Nat.eq_zero_or_pos k with h0 | h0
      · subst h0
        exact ⟨0, by simp [exactSum], hundredUnits_nonneg⟩
      · obtain ⟨s, hs, hle⟩ := hpre k h0 hk
        exact ⟨s, hs, by omega⟩
  · rintro ⟨hpre, hsum⟩
    have hl := (exactLoop_some_iff entries 0 hundredUnits).2
      ⟨⟨hundredUnits, hsum, by omega⟩, fun k _ hk2 => by
        obtain ⟨s, hs, hle⟩ := hpre k hk2
        exact ⟨s, hs, by omega⟩⟩
    rw [hl]
    simp

/-- One step of the running sum on finite numbers: the exact sum of the running sum so far
and the next percentage, rounded to `float32`. -/
theorem runningSum_append (entries : List (GoString × F32)) (k : GoString) (a p : Int)
    (h : runningSum entries = .fin a) :
    runningSum (entries ++ [(k, .fin p)]) = F32.round (a + p) 1 := by
  unfold runningSum foldSum at h ⊢
  rw [List.foldl_append, h]
  rfl

/-- C2 (counterexample): with the sums read as exact sums the check is neither necessary nor
sufficient. The composition of 100 and `2⁻¹⁹` has a sum above 100, so the condition fails,
and `validateBatch` accepts it; the composition `lostFraction` of four `float32` numbers not
below 0 has a sum of exactly 100 and no prefix above 100, so the condition holds, and
`validateBatch` rejects it with the composition error. -/
theorem exact_sum_check_fails :
    (∀ e ∈ roundedAway, e.2.isFloat32 = true) ∧
    exactSum roundedAway = some (hundredUnits + 2 ^ 130) ∧
    ¬ ExactCondition roundedAway ∧
    (validateBatch emptyStub (str "b-001") (str "pu-1") (str "int-1") (str "sup-1")
      (str "YARN") roundedAway (F32.ofInt 5) (F32.ofInt 10) false).1 = .ret (true, none) ∧
    (∀ e ∈ lostFraction, e.2.isFloat32 = true) ∧ NonNegative lostFraction ∧
    ExactCondition lostFraction ∧
    runningSum lostFraction = F32.fin (hundredUnits - 2 ^ 132) ∧
    (validateBatch emptyStub (str "b-001") (str "pu-1") (str "int-1") (str "sup-1")
      (str "YARN") lostFraction (F32.ofInt 5) (F32.ofInt 10) false).1 =
      .ret (false, some errComposition) :=
  ⟨by decide!, by decide!, fun h => absurd h.2 (by decide!), by decide!, by decide!,
    by decide!, (exactAccepted_iff lostFraction).1 (by decide!), by decide!, by decide!⟩

/-- C2 (amended): once the six earlier checks have passed, `validateBatch` returns the
composition error if and only if some prefix of the composition has a running sum greater
than 100 or the running sum of the whole composition is not exactly 100, where the running
sum is the `float32` sum the loop accumulates in the order of the entries, each addition
rounded to `float32`; so the composition check succeeds exactly when no prefix exceeds 100
and the total is exactly 100, and then, if the later checks pass too, the batch is accepted.
In particular the empty composition is rejected, and so is every composition whose running
sum differs from 100. Where no addition is rounded, this is the condition on the exact
sums. -/
theorem composition_check_iff (stub : Stub)
    (batchID productionUnitID batchInternalID supplierID batchType : GoString)
    (batchComposition : List (GoString × F32)) (quantity finalScore : F32)
    (isInTransit : Bool)
    (h : EarlierChecksPass stub batchID batchInternalID supplierID batchType isInTransit) :
    ((validateBatch stub batchID productionUnitID batchInternalID supplierID batchType
        batchComposition quantity finalScore isInTransit).1 =
        .ret (false, some errComposition) ↔
      ¬ (NeverExceeds batchComposition ∧ runningSum batchComposition = F32.ofInt 100)) ∧
    (quantity.lt (F32.ofInt 0) = false → validateScore finalScore = (true, none) →
      ((validateBatch stub batchID productionUnitID batchInternalID supplierID batchType
        batchComposition quantity finalScore isInTransit).1 = .ret (true, none) ↔
      (NeverExceeds batchComposition ∧ runningSum batchComposition = F32.ofInt 100))) ∧
    (validateBatch stub batchID productionUnitID batchInternalID supplierID batchType
        [] quantity finalScore isInTransit).1 = .ret (false, some errComposition) ∧
    (runningSum batchComposition ≠ F32.ofInt 100 →
      (validateBatch stub batchID productionUnitID batchInternalID supplierID batchType
        batchComposition quantity finalScore isInTransit).1 =
        .ret (false, some errComposition)) ∧
    (∀ (k : GoString) (a p : Int), runningSum batchComposition = .fin a →
      runningSum (batchComposition ++ [(k, .fin p)]) = F32.round (a + p) 1) ∧
    (Exact batchComposition →
      ((NeverExceeds batchComposition ∧ runningSum batchComposition = F32.ofInt 100) ↔
        ExactCondition batchComposition)) := by
  have hempty : runningSum ([] : List (GoString × F32)) ≠ F32.ofInt 100 := by decide!
  refine ⟨?_, ?_, ?_, ?_, ?_, ?_⟩
  · rw [validateBatch_of_earlier _ _ _ _ _ _ _ _ _ _ h]
    split_ifs with hc hq hs
    · simp [hc, errQuantity_ne_errComposition]
    · simp [hc]
    · simp [hc, errScores_ne_errComposition]
    · simp [hc]
  · intro hq hs
    rw [validateBatch_of_earlier _ _ _ _ _ _ _ _ _ _ h]
    split_ifs with hc hq2
    · rw [hq] at hq2
      exact absurd hq2 (by simp)
    · simp [hc]
    · simp [hc]
  · rw [validateBatch_of_earlier _ _ _ _ _ _ _ _ _ _ h, if_neg (fun hc => hempty hc.2)]
  · intro hsum
    rw [validateBatch_of_earlier _ _ _ _ _ _ _ _ _ _ h, if_neg (fun hc => hsum hc.2)]
  · intro k a p ha
    exact runningSum_append batchComposition k a p ha
  · intro hex
    rw [← compositionAccepted_iff, compositionAccepted_of_exact batchComposition hex,
      exactAccepted_iff]

/-- Witness of C2 (amended): with the earlier and the later checks passing, the composition
`m1: 60, m2: 40` is accepted, its running sums being 60 and 100 with no rounding; the
composition `m1: 60, m2: 30`, whose running sum is 90, is rejected, and so is the empty one. -/
theorem composition_check_iff_witness :
    EarlierChecksPass emptyStub (str "b-001") (str "int-1") (str "sup-1") (str "YARN")
      false ∧
    Exact [(str "m1", F32.ofInt 60), (str "m2", F32.ofInt 40)] ∧
    ExactCondition [(str "m1", F32.ofInt 60), (str "m2", F32.ofInt 40)] ∧
    (validateBatch emptyStub (str "b-001") (str "pu-1") (str "int-1") (str "sup-1")
      (str "YARN") [(str "m1", F32.ofInt 60), (str "m2", F32.ofInt 40)] (F32.ofInt 5)
      (F32.ofInt 10) false).1 = .ret (true, none) ∧
    (validateBatch emptyStub (str "b-001") (str "pu-1") (str "int-1") (str "sup-1")
      (str "YARN") [(str "m1", F32.ofInt 60), (str "m2", F32.ofInt 30)] (F32.ofInt 5)
      (F32.ofInt 10) false).1 = .ret (false, some errComposition) ∧
    (validateBatch emptyStub (str "b-001") (str "pu-1") (str "int-1") (str "sup-1")
      (str "YARN") [] (F32.ofInt 5) (F32.ofInt 10) false).1 =
      .ret (false, some errComposition) :=
  have h40 := composition_check_iff emptyStub (str "b-001") (str "pu-1") (str "int-1")
    (str "sup-1") (str "YARN") [(str "m1", F32.ofInt 60), (str "m2", F32.ofInt 40)]
    (F32.ofInt 5) (F32.ofInt 10) false (by decide!)
  have h30 := composition_check_iff emptyStub (str "b-001") (str "pu-1") (str "int-1")
    (str "sup-1") (str "YARN") [(str "m1", F32.ofInt 60), (str "m2", F32.ofInt 30)]
    (F32.ofInt 5) (F32.ofInt 10) false (by decide!)
  have hex : Exact [(str "m1", F32.ofInt 60), (str "m2", F32.ofInt 40)] := by decide!
  have hrun : NeverExceeds [(str "m1", F32.ofInt 60), (str "m2", F32.ofInt 40)] ∧
      runningSum [(str "m1", F32.ofInt 60), (str "m2", F32.ofInt 40)] = F32.ofInt 100 := by
    decide!
  ⟨by decide!, hex, (h40.2.2.2.2.2 hex).1 hrun,
    (h40.2.1 (by decide!) (by decide!)).2 hrun, h30.2.2.2.1 (by decide!), h30.2.2.1⟩

end Stvgd
